import Mathlib

/-!
# GJK narrow-phase collision test of ReactPhysics3D

A shallow embedding of `GJKAlgorithm::testCollision` and
`GJKAlgorithm::computePenetrationDepthForEnlargedObjects`
(`src/collision/narrowphase/GJK/GJKAlgorithm.cpp`).

* `decimal` is an arbitrary linearly ordered field `K`; the square root of `<cmath>` is a
  parameter (`Env.sqrt`), so every definition can be evaluated over the rationals.
* The collaborators whose code is not in the sources (the `Simplex` class, the colliders, the
  EPA algorithm, the constants of `configuration.h`) are parameters, gathered in `Env`.
* The mutable state the two methods touch (the cached separating axis of the overlapping pair,
  the memory pool, the `contactInfo` output slot) is the explicit `World`; the calls made on the
  collaborators are recorded in `World.log`.
* A failed `assert` is the result `assertFailed`; the `do ... while` loops take a fuel.
-/

namespace ReactPhysics3D

/-! ## Mathematics library (Vector3, Matrix3x3, Transform) -/

/-- Modelled from the spec: `Vector3` (its header is not part of the sources), a vector of three
`decimal` coordinates, a value type. -/
@[ext]
structure Vector3 (K : Type) where
  x : K
  y : K
  z : K
deriving DecidableEq

namespace Vector3

variable {K : Type} [LinearOrderedField K]

/-- The vector `v1 + v2`. -/
def add (a b : Vector3 K) : Vector3 K := ⟨a.x + b.x, a.y + b.y, a.z + b.z⟩

/-- The vector `v1 - v2`. -/
def sub (a b : Vector3 K) : Vector3 K := ⟨a.x - b.x, a.y - b.y, a.z - b.z⟩

/-- The vector `-v`. -/
def neg (a : Vector3 K) : Vector3 K := ⟨-a.x, -a.y, -a.z⟩

/-- The vector `k * v` for a scalar `k`. -/
def smul (k : K) (a : Vector3 K) : Vector3 K := ⟨k * a.x, k * a.y, k * a.z⟩

/-- The scalar product `v.dot(w)`. -/
def dot (a b : Vector3 K) : K := a.x * b.x + a.y * b.y + a.z * b.z

/-- The squared length `v.lengthSquare()`. -/
def lengthSquare (a : Vector3 K) : K := a.x * a.x + a.y * a.y + a.z * a.z

/-- The length `v.length()`, the square root of the squared length. -/
def length (sqrt : K → K) (a : Vector3 K) : K := sqrt (lengthSquare a)

/-- Modelled from the spec: `v.getUnit()`, "v normalized": every coordinate times the inverse of
the length. -/
def getUnit (sqrt : K → K) (a : Vector3 K) : Vector3 K := smul (1 / length sqrt a) a

instance : Add (Vector3 K) := ⟨add⟩
instance : Sub (Vector3 K) := ⟨sub⟩
instance : Neg (Vector3 K) := ⟨neg⟩

end Vector3

/-- Modelled from the spec: `Matrix3x3` (its header is not part of the sources), a 3×3 matrix
given by its three rows. -/
@[ext]
structure Matrix3x3 (K : Type) where
  row0 : Vector3 K
  row1 : Vector3 K
  row2 : Vector3 K
deriving DecidableEq

namespace Matrix3x3

variable {K : Type} [LinearOrderedField K]

/-- The identity matrix. -/
def identity : Matrix3x3 K := ⟨⟨1, 0, 0⟩, ⟨0, 1, 0⟩, ⟨0, 0, 1⟩⟩

/-- The transposed matrix `m.getTranspose()`. -/
def getTranspose (m : Matrix3x3 K) : Matrix3x3 K :=
  ⟨⟨m.row0.x, m.row1.x, m.row2.x⟩, ⟨m.row0.y, m.row1.y, m.row2.y⟩, ⟨m.row0.z, m.row1.z, m.row2.z⟩⟩

/-- The product `m * v` of a matrix and a vector. -/
def mulVec (m : Matrix3x3 K) (v : Vector3 K) : Vector3 K :=
  ⟨m.row0.dot v, m.row1.dot v, m.row2.dot v⟩

/-- The product `m1 * m2` of two matrices: the rows of `m1` against the columns of `m2`. -/
def mul (a b : Matrix3x3 K) : Matrix3x3 K :=
  ⟨mulVec (getTranspose b) a.row0, mulVec (getTranspose b) a.row1, mulVec (getTranspose b) a.row2⟩

/-- A rotation matrix is orthonormal: its transpose is its inverse on both sides. -/
def IsOrthonormal (m : Matrix3x3 K) : Prop :=
  mul (getTranspose m) m = identity ∧ mul m (getTranspose m) = identity

end Matrix3x3

/-- Modelled from the spec: `Transform` (its header is not part of the sources), "a rotation
(orthonormal 3×3, represented abstractly as an orientation) and a translation". The orientation is
kept as the rotation matrix `getOrientation().getMatrix()` returns. -/
@[ext]
structure Transform (K : Type) where
  position : Vector3 K
  orientation : Matrix3x3 K
deriving DecidableEq

namespace Transform

variable {K : Type} [LinearOrderedField K]

/-- Modelled from the spec: `transform * vector`, the point rotated, then translated. -/
def apply (t : Transform K) (v : Vector3 K) : Vector3 K := t.orientation.mulVec v + t.position

/-- Modelled from the spec: `transform1 * transform2`, "the usual T1 ∘ T2 rule". -/
def mul (t1 t2 : Transform K) : Transform K :=
  ⟨t1.position + t1.orientation.mulVec t2.position, t1.orientation.mul t2.orientation⟩

/-- Modelled from the spec: `transform.inverse()`; the inverse of the orthonormal rotation is its
transpose. -/
def inverse (t : Transform K) : Transform K :=
  ⟨t.orientation.getTranspose.mulVec (-t.position), t.orientation.getTranspose⟩

end Transform

/-! ## Collaborators of the GJK algorithm -/

/-- The result record `ContactInfo(normal, penetrationDepth, pA, pB)`. -/
structure ContactInfo (K : Type) where
  normal : Vector3 K
  penetrationDepth : K
  pA : Vector3 K
  pB : Vector3 K
deriving DecidableEq

/-- A collider, seen through its support function `getLocalSupportPoint(direction, margin)`; the
margin defaults to `0.0` in the calls that give only the direction. -/
structure Collider (K : Type) where
  getLocalSupportPoint : Vector3 K → K → Vector3 K

/-- The interface of the class `Simplex` over a type `S` of simplex states (the class itself is
not part of the sources). A method that may change the simplex returns the new state; an output
parameter is a returned value. -/
structure Simplex (K S : Type) where
  /-- The simplex the default constructor builds (`Simplex simplex;`). -/
  create : S
  isFull : S → Bool
  isPointInSimplex : S → Vector3 K → Bool
  /-- The state after `addPoint(w, suppA, suppB)`. -/
  addPoint : S → Vector3 K → Vector3 K → Vector3 K → S
  isAffinelyDependent : S → Bool
  /-- The call `computeClosestPoint(v)`: the returned boolean, the value of `v` after the call,
  the state after the call. -/
  computeClosestPoint : S → Vector3 K → Bool × Vector3 K × S
  /-- The points `(pA, pB)` that `computeClosestPointsOfAandB(pA, pB)` writes. -/
  computeClosestPointsOfAandB : S → Vector3 K × Vector3 K
  /-- The call `backupClosestPointInSimplex(v)`: the value of `v` after the call and the state
  after the call. -/
  backupClosestPointInSimplex : S → Vector3 K → Vector3 K × S
  getMaxLengthSquareOfAPoint : S → K

/-- A call made on a collaborator, as recorded in the log of a run. -/
inductive Event (K S : Type) where
  | getCachedSeparatingAxis
  | setCachedSeparatingAxis (v : Vector3 K)
  | allocateObject
  | addPoint (before : S) (w suppA suppB : Vector3 K) (after : S)
  | computeClosestPoint (before after : S)
  | backupClosestPointInSimplex (before after : S)
  | computePenetrationDepthAndContactPoints (simplex : S) (v : Vector3 K)
deriving DecidableEq

/-- Whether a logged call is the call of the EPA algorithm (line 302). -/
def Event.isEPACall {K S : Type} : Event K S → Bool
  | Event.computePenetrationDepthAndContactPoints _ _ => true
  | _ => false

/-- Whether a logged call is a call on the simplex (`addPoint`, `computeClosestPoint`,
`backupClosestPointInSimplex`). -/
def Event.isSimplexCall {K S : Type} : Event K S → Bool
  | Event.addPoint _ _ _ _ _ => true
  | Event.computeClosestPoint _ _ => true
  | Event.backupClosestPointInSimplex _ _ => true
  | _ => false

/-- Whether a logged call reads or writes the cached separating axis of the pair. -/
def Event.isAxisAccess {K S : Type} : Event K S → Bool
  | Event.getCachedSeparatingAxis => true
  | Event.setCachedSeparatingAxis _ => true
  | _ => false

/-- The simplex a logged call hands to the EPA algorithm, if it is such a call. -/
def Event.epaSimplex {K S : Type} : Event K S → Option S
  | Event.computePenetrationDepthAndContactPoints simplex _ => some simplex
  | _ => none

/-- The state outside the two methods: the cached separating axis of `currentOverlappingPair`,
the number of objects allocated from `memoryPoolContactInfos`, the `contactInfo` output slot
(`none`: not written), and the log of the calls made so far. -/
structure World (K S : Type) where
  cachedSeparatingAxis : Vector3 K
  allocatedObjects : Nat
  contactInfo : Option (ContactInfo K)
  log : List (Event K S)
deriving DecidableEq

namespace World

variable {K S : Type}

/-- Append a call to the log. -/
def record (wd : World K S) (ev : Event K S) : World K S :=
  ⟨wd.cachedSeparatingAxis, wd.allocatedObjects, wd.contactInfo, wd.log ++ [ev]⟩

/-- The call `currentOverlappingPair->getCachedSeparatingAxis()`: the axis read and the world
after the call. -/
def getCachedSeparatingAxis (wd : World K S) : Vector3 K × World K S :=
  (wd.cachedSeparatingAxis, wd.record Event.getCachedSeparatingAxis)

/-- The call `currentOverlappingPair->setCachedSeparatingAxis(v)`. -/
def setCachedSeparatingAxis (wd : World K S) (v : Vector3 K) : World K S :=
  ⟨v, wd.allocatedObjects, wd.contactInfo, wd.log ++ [Event.setCachedSeparatingAxis v]⟩

/-- The statement `contactInfo = new (memoryPoolContactInfos.allocateObject()) ContactInfo(...)`:
one object is taken from the pool and the output slot points at the contact built in it. -/
def newContactInfo (wd : World K S) (c : ContactInfo K) : World K S :=
  ⟨wd.cachedSeparatingAxis, wd.allocatedObjects + 1, some c, wd.log ++ [Event.allocateObject]⟩

end World

/-- Everything one call of `testCollision` is given besides the world: the constants of
`configuration.h` and `GJKAlgorithm.h`, the square root of `<cmath>`, the `Simplex` class, the two
colliders with their transforms, and the EPA algorithm `algoEPA`. The EPA method receives the
simplex, the colliders and transforms, `v`, the pool counter and the output slot, and returns its
boolean with the new pool counter and slot. -/
structure Env (K S : Type) where
  OBJECT_MARGIN : K
  REL_ERROR_SQUARE : K
  MACHINE_EPSILON : K
  DECIMAL_LARGEST : K
  sqrt : K → K
  simplex : Simplex K S
  collider1 : Collider K
  transform1 : Transform K
  collider2 : Collider K
  transform2 : Transform K
  computePenetrationDepthAndContactPoints :
    S → Collider K → Transform K → Collider K → Transform K → Vector3 K → Nat →
      Option (ContactInfo K) → Bool × Nat × Option (ContactInfo K)

/-- The local variables that live across the iterations of a GJK loop. -/
structure GJKState (K S : Type) where
  v : Vector3 K
  distSquare : K
  simplex : S
deriving DecidableEq

/-- What a method call ends in: a failed `assert`, in the world it is reached in, or a returned
boolean with the world it leaves. -/
inductive Result (K S : Type) where
  | assertFailed (wd : World K S)
  | returned (result : Bool) (wd : World K S)
deriving DecidableEq

/-- What one pass through the body of a `do ... while` loop ends in: a failed `assert`, a
`return`, or the end of the body (the loop condition is evaluated next), each with the world at
that point. -/
inductive Step (K S : Type) where
  | assertFailed (wd : World K S)
  | returned (result : Bool) (wd : World K S)
  | next (st : GJKState K S) (wd : World K S)
deriving DecidableEq

/-! ## GJKAlgorithm -/

section GJKAlgorithm

variable {K S : Type} [LinearOrderedField K]

/-- Line 76 (and 258): `body2Tobody1 = transform1.inverse() * transform2`. -/
def body2Tobody1 (e : Env K S) : Transform K := e.transform1.inverse.mul e.transform2

/-- Line 79 (and 261): `rotateToBody2 = R2.getTranspose() * R1`. -/
def rotateToBody2 (e : Env K S) : Matrix3x3 K :=
  e.transform2.orientation.getTranspose.mul e.transform1.orientation

/-- Line 82: `margin = 2 * OBJECT_MARGIN`. -/
def margin (e : Env K S) : K := 2 * e.OBJECT_MARGIN

/-- Line 83: `marginSquare = margin * margin`. -/
def marginSquare (e : Env K S) : K := margin e * margin e

/-- Lines 98 and 265: `suppA = collider1->getLocalSupportPoint(-v, mg)`. -/
def suppA (e : Env K S) (mg : K) (v : Vector3 K) : Vector3 K :=
  e.collider1.getLocalSupportPoint (-v) mg

/-- Lines 99 and 266: `suppB = body2Tobody1 * collider2->getLocalSupportPoint(rotateToBody2 * v,
mg)`. -/
def suppB (e : Env K S) (mg : K) (v : Vector3 K) : Vector3 K :=
  (body2Tobody1 e).apply (e.collider2.getLocalSupportPoint ((rotateToBody2 e).mulVec v) mg)

/-- Lines 102 and 269: `w = suppA - suppB`. -/
def suppW (e : Env K S) (mg : K) (v : Vector3 K) : Vector3 K := suppA e mg v - suppB e mg v

/-- Lines 232 and 298: the loop condition
`!simplex.isFull() && distSquare > MACHINE_EPSILON * simplex.getMaxLengthSquareOfAPoint()`. -/
def loopCondition (e : Env K S) (st : GJKState K S) : Prop :=
  e.simplex.isFull st.simplex = false ∧
    e.MACHINE_EPSILON * e.simplex.getMaxLengthSquareOfAPoint st.simplex < st.distSquare

instance (e : Env K S) : DecidablePred (loopCondition e) := fun st => by
  unfold loopCondition; infer_instance

/-- A loop `do body while (cond)` on the loop variables `st`, run for at most `fuel` passes
through its body: a pass that ends in a `return` or a failed `assert` ends the loop with it; after
a pass that reaches the end of the body the condition decides between one more pass and leaving
the loop, which gives `Step.next` with the variables at that point. `none` is the fuel run out. -/
def doWhile (body : GJKState K S → World K S → Step K S) (cond : GJKState K S → Prop)
    [DecidablePred cond] : Nat → GJKState K S → World K S → Option (Step K S)
  | 0, _, _ => none
  | fuel + 1, st, wd =>
    match body st wd with
    | Step.next st1 wd1 =>
      if cond st1 then doWhile body cond fuel st1 wd1 else some (Step.next st1 wd1)
    | r => some r

/-- The states in which a loop `do body while (cond)` started in `st0` and `wd0` is at the top
of its body. -/
inductive LoopHead (body : GJKState K S → World K S → Step K S) (cond : GJKState K S → Prop)
    (st0 : GJKState K S) (wd0 : World K S) : GJKState K S → World K S → Prop where
  | first : LoopHead body cond st0 wd0 st0 wd0
  | again {st wd st1 wd1} : LoopHead body cond st0 wd0 st wd → body st wd = Step.next st1 wd1 →
      cond st1 → LoopHead body cond st0 wd0 st1 wd1

/-- Lines 97-231: one pass through the body of the loop of `testCollision`, from the values
`st` of `v`, `distSquare` and `simplex` at the top of the body. -/
def testCollisionIteration (e : Env K S) (st : GJKState K S) (wd : World K S) : Step K S :=
  let w := suppW e 0 st.v
  let vDotw := st.v.dot w
  -- If the enlarged objects (with margins) do not intersect
  if 0 < vDotw ∧ st.distSquare * marginSquare e < vDotw * vDotw then
    Step.returned false (wd.setCachedSeparatingAxis st.v)
  -- If the objects intersect only in the margins
  else if e.simplex.isPointInSimplex st.simplex w = true ∨
      st.distSquare - vDotw ≤ st.distSquare * e.REL_ERROR_SQUARE then
    let p := e.simplex.computeClosestPointsOfAandB st.simplex
    let dist := e.sqrt st.distSquare
    if ¬ 0 < dist then Step.assertFailed wd
    else
      let pA := p.1 - Vector3.smul (e.OBJECT_MARGIN / dist) st.v
      let pB := (body2Tobody1 e).inverse.apply (p.2 + Vector3.smul (e.OBJECT_MARGIN / dist) st.v)
      let normal := e.transform1.orientation.mulVec (-(st.v.getUnit e.sqrt))
      let penetrationDepth := margin e - dist
      if penetrationDepth ≤ 0 then Step.returned false wd
      else Step.returned true (wd.newContactInfo ⟨normal, penetrationDepth, pA, pB⟩)
  else
    -- Add the new support point to the simplex
    let s1 := e.simplex.addPoint st.simplex w (suppA e 0 st.v) (suppB e 0 st.v)
    let wd1 := wd.record (Event.addPoint st.simplex w (suppA e 0 st.v) (suppB e 0 st.v) s1)
    if e.simplex.isAffinelyDependent s1 = true then
      let p := e.simplex.computeClosestPointsOfAandB s1
      let dist := e.sqrt st.distSquare
      if ¬ 0 < dist then Step.assertFailed wd1
      else
        let pA := p.1 - Vector3.smul (e.OBJECT_MARGIN / dist) st.v
        let pB := (body2Tobody1 e).inverse.apply (p.2 + Vector3.smul (e.OBJECT_MARGIN / dist) st.v)
        let normal := e.transform1.orientation.mulVec (-(st.v.getUnit e.sqrt))
        let penetrationDepth := margin e - dist
        if penetrationDepth ≤ 0 then Step.returned false wd1
        else Step.returned true (wd1.newContactInfo ⟨normal, penetrationDepth, pA, pB⟩)
    else
      -- Compute the point of the simplex closest to the origin
      let r := e.simplex.computeClosestPoint s1 st.v
      let v1 := r.2.1
      let s2 := r.2.2
      let wd2 := wd1.record (Event.computeClosestPoint s1 s2)
      if r.1 = false then
        let p := e.simplex.computeClosestPointsOfAandB s2
        let dist := e.sqrt st.distSquare
        if ¬ 0 < dist then Step.assertFailed wd2
        else
          let pA := p.1 - Vector3.smul (e.OBJECT_MARGIN / dist) v1
          let pB := (body2Tobody1 e).inverse.apply (p.2 + Vector3.smul (e.OBJECT_MARGIN / dist) v1)
          let normal := e.transform1.orientation.mulVec (-(v1.getUnit e.sqrt))
          let penetrationDepth := margin e - dist
          if penetrationDepth ≤ 0 then Step.returned false wd2
          else Step.returned true (wd2.newContactInfo ⟨normal, penetrationDepth, pA, pB⟩)
      else
        -- Store and update the squared distance of the closest point
        let prevDistSquare := st.distSquare
        let distSquare := v1.lengthSquare
        -- If the distance to the closest point doesn't improve a lot
        if prevDistSquare - distSquare ≤ e.MACHINE_EPSILON * prevDistSquare then
          let b := e.simplex.backupClosestPointInSimplex s2 v1
          let v2 := b.1
          let s3 := b.2
          let wd3 := wd2.record (Event.backupClosestPointInSimplex s2 s3)
          let distSquare2 := v2.lengthSquare
          let p := e.simplex.computeClosestPointsOfAandB s3
          let dist := e.sqrt distSquare2
          if ¬ 0 < dist then Step.assertFailed wd3
          else
            let pA := p.1 - Vector3.smul (e.OBJECT_MARGIN / dist) v2
            let pB := (body2Tobody1 e).inverse.apply (p.2 + Vector3.smul (e.OBJECT_MARGIN / dist) v2)
            let normal := e.transform1.orientation.mulVec (-(v2.getUnit e.sqrt))
            let penetrationDepth := margin e - dist
            if penetrationDepth ≤ 0 then Step.returned false wd3
            else Step.returned true (wd3.newContactInfo ⟨normal, penetrationDepth, pA, pB⟩)
        else Step.next ⟨v1, distSquare, s2⟩ wd2

/-- Lines 95-232: the `do ... while` loop of `testCollision`, run for at most `fuel` passes
through its body. -/
def testCollisionLoop (e : Env K S) (fuel : Nat) (st : GJKState K S) (wd : World K S) :
    Option (Step K S) :=
  doWhile (testCollisionIteration e) (loopCondition e) fuel st wd

/-- Lines 264-296: one pass through the body of the loop of
`computePenetrationDepthForEnlargedObjects`. -/
def enlargedIteration (e : Env K S) (st : GJKState K S) (wd : World K S) : Step K S :=
  let w := suppW e e.OBJECT_MARGIN st.v
  let vDotw := st.v.dot w
  -- If the enlarged objects do not intersect
  if 0 < vDotw then Step.returned false wd
  else
    let s1 := e.simplex.addPoint st.simplex w (suppA e e.OBJECT_MARGIN st.v)
      (suppB e e.OBJECT_MARGIN st.v)
    let wd1 := wd.record (Event.addPoint st.simplex w (suppA e e.OBJECT_MARGIN st.v)
      (suppB e e.OBJECT_MARGIN st.v) s1)
    if e.simplex.isAffinelyDependent s1 = true then Step.returned false wd1
    else
      let r := e.simplex.computeClosestPoint s1 st.v
      let v1 := r.2.1
      let s2 := r.2.2
      let wd2 := wd1.record (Event.computeClosestPoint s1 s2)
      if r.1 = false then Step.returned false wd2
      else
        let prevDistSquare := st.distSquare
        let distSquare := v1.lengthSquare
        if prevDistSquare - distSquare ≤ e.MACHINE_EPSILON * prevDistSquare then
          Step.returned false wd2
        else Step.next ⟨v1, distSquare, s2⟩ wd2

/-- Lines 263-298: the `do ... while` loop of `computePenetrationDepthForEnlargedObjects`, run
for at most `fuel` passes through its body. -/
def enlargedLoop (e : Env K S) (fuel : Nat) (st : GJKState K S) (wd : World K S) :
    Option (Step K S) :=
  doWhile (enlargedIteration e) (loopCondition e) fuel st wd

/-- Lines 87-93 and 249-254: the loop variables before the first pass: the seed direction `v`,
`distSquare = DECIMAL_LARGEST` and a new simplex. -/
def initialState (e : Env K S) (v : Vector3 K) : GJKState K S :=
  ⟨v, e.DECIMAL_LARGEST, e.simplex.create⟩

/-- Line 302: what `algoEPA.computePenetrationDepthAndContactPoints(simplex, collider1,
transform1, collider2, transform2, v, contactInfo)` gives in the state `st` and the world `wd`:
its boolean, the pool counter and the output slot after the call. -/
def epaResult (e : Env K S) (st : GJKState K S) (wd : World K S) :
    Bool × Nat × Option (ContactInfo K) :=
  e.computePenetrationDepthAndContactPoints st.simplex e.collider1 e.transform1
    e.collider2 e.transform2 st.v wd.allocatedObjects wd.contactInfo

/-- Line 302: the call of the EPA algorithm on the simplex the loop ended with; its boolean is
returned, with the pool counter and the output slot as it leaves them. -/
def callEPA (e : Env K S) (st : GJKState K S) (wd : World K S) : Result K S :=
  Result.returned (epaResult e st wd).1
    ⟨wd.cachedSeparatingAxis, (epaResult e st wd).2.1, (epaResult e st wd).2.2,
      wd.log ++ [Event.computePenetrationDepthAndContactPoints st.simplex st.v]⟩

/-- Lines 246-303: `computePenetrationDepthForEnlargedObjects`, seeded with the direction `v`;
each loop pass is counted against `fuel`. -/
def computePenetrationDepthForEnlargedObjects (e : Env K S) (fuel : Nat) (v : Vector3 K)
    (wd : World K S) : Option (Result K S) :=
  match enlargedLoop e fuel (initialState e v) wd with
  | none => none
  | some (Step.assertFailed wd1) => some (Result.assertFailed wd1)
  | some (Step.returned b wd1) => some (Result.returned b wd1)
  | some (Step.next st wd1) => some (callEPA e st wd1)

/-- Lines 63-239: `testCollision`; each of the two loops may make at most `fuel` passes. -/
def testCollision (e : Env K S) (fuel : Nat) (wd : World K S) : Option (Result K S) :=
  if ¬ 0 < margin e then some (Result.assertFailed wd)
  else
    let a := wd.getCachedSeparatingAxis
    match testCollisionLoop e fuel (initialState e a.1) a.2 with
    | none => none
    | some (Step.assertFailed wd1) => some (Result.assertFailed wd1)
    | some (Step.returned b wd1) => some (Result.returned b wd1)
    | some (Step.next st wd1) => computePenetrationDepthForEnlargedObjects e fuel st.v wd1

/-! ### The paths through the body of the loop of `testCollision` -/

/-- The ways one pass through the body of the loop of `testCollision` can go: the separation
early-out (line 107), one of the four contact finalization blocks (lines 117, 146, 173, 203), or
on to the loop condition. -/
inductive Branch where
  | separation
  | marginOverlap
  | affinelyDependent
  | closestPointFailed
  | stall
  | proceed
deriving DecidableEq

/-- Whether a branch is one of the four contact finalization blocks. -/
def Branch.isFinalization : Branch → Bool
  | Branch.marginOverlap => true
  | Branch.affinelyDependent => true
  | Branch.closestPointFailed => true
  | Branch.stall => true
  | _ => false

/-- Line 143: the simplex after `simplex.addPoint(w, suppA, suppB)`. -/
def simplexAfterAdd (e : Env K S) (st : GJKState K S) : S :=
  e.simplex.addPoint st.simplex (suppW e 0 st.v) (suppA e 0 st.v) (suppB e 0 st.v)

/-- Line 173: what `simplex.computeClosestPoint(v)` gives on the simplex of line 143. -/
def closestPoint (e : Env K S) (st : GJKState K S) : Bool × Vector3 K × S :=
  e.simplex.computeClosestPoint (simplexAfterAdd e st) st.v

/-- Line 204: what `simplex.backupClosestPointInSimplex(v)` gives after line 173. -/
def backupPoint (e : Env K S) (st : GJKState K S) : Vector3 K × S :=
  e.simplex.backupClosestPointInSimplex (closestPoint e st).2.2 (closestPoint e st).2.1

/-- The path the pass that starts in `st` takes: the conditions of lines 107, 117, 146, 173 and
203, in this order. -/
def branchOf (e : Env K S) (st : GJKState K S) : Branch :=
  if 0 < st.v.dot (suppW e 0 st.v) ∧
      st.distSquare * marginSquare e < st.v.dot (suppW e 0 st.v) * st.v.dot (suppW e 0 st.v) then
    Branch.separation
  else if e.simplex.isPointInSimplex st.simplex (suppW e 0 st.v) = true ∨
      st.distSquare - st.v.dot (suppW e 0 st.v) ≤ st.distSquare * e.REL_ERROR_SQUARE then
    Branch.marginOverlap
  else if e.simplex.isAffinelyDependent (simplexAfterAdd e st) = true then
    Branch.affinelyDependent
  else if (closestPoint e st).1 = false then Branch.closestPointFailed
  else if st.distSquare - (closestPoint e st).2.1.lengthSquare ≤
      e.MACHINE_EPSILON * st.distSquare then
    Branch.stall
  else Branch.proceed

/-- The value of `v` in the finalization block of a branch. -/
def finalV (e : Env K S) (st : GJKState K S) : Branch → Vector3 K
  | Branch.closestPointFailed => (closestPoint e st).2.1
  | Branch.stall => (backupPoint e st).1
  | _ => st.v

/-- The value of `distSquare` in the finalization block of a branch: the one the pass started
with, but in the stall block, which sets it to `v.lengthSquare()` after the back-up (line 207). -/
def finalDistSquare (e : Env K S) (st : GJKState K S) : Branch → K
  | Branch.stall => (backupPoint e st).1.lengthSquare
  | _ => st.distSquare

/-- The simplex in the finalization block of a branch. -/
def finalSimplex (e : Env K S) (st : GJKState K S) : Branch → S
  | Branch.affinelyDependent => simplexAfterAdd e st
  | Branch.closestPointFailed => (closestPoint e st).2.2
  | Branch.stall => (backupPoint e st).2
  | _ => st.simplex

/-- The calls on the simplex that a pass has logged when it reaches the end of a branch. -/
def simplexEvents (e : Env K S) (st : GJKState K S) : Branch → List (Event K S)
  | Branch.separation => []
  | Branch.marginOverlap => []
  | Branch.affinelyDependent =>
    [Event.addPoint st.simplex (suppW e 0 st.v) (suppA e 0 st.v) (suppB e 0 st.v)
      (simplexAfterAdd e st)]
  | Branch.stall =>
    [Event.addPoint st.simplex (suppW e 0 st.v) (suppA e 0 st.v) (suppB e 0 st.v)
      (simplexAfterAdd e st),
     Event.computeClosestPoint (simplexAfterAdd e st) (closestPoint e st).2.2,
     Event.backupClosestPointInSimplex (closestPoint e st).2.2 (backupPoint e st).2]
  | _ =>
    [Event.addPoint st.simplex (suppW e 0 st.v) (suppA e 0 st.v) (suppB e 0 st.v)
      (simplexAfterAdd e st),
     Event.computeClosestPoint (simplexAfterAdd e st) (closestPoint e st).2.2]

/-- The world with the calls `evs` appended to its log. -/
def World.logged (wd : World K S) (evs : List (Event K S)) : World K S :=
  ⟨wd.cachedSeparatingAxis, wd.allocatedObjects, wd.contactInfo, wd.log ++ evs⟩

/-- The contact a finalization block builds from the values `v`, `distSquare` and `simplex` it
finds (lines 119-130). -/
def contactOf (e : Env K S) (v : Vector3 K) (distSquare : K) (simplex : S) : ContactInfo K :=
  ⟨e.transform1.orientation.mulVec (-(v.getUnit e.sqrt)),
   margin e - e.sqrt distSquare,
   (e.simplex.computeClosestPointsOfAandB simplex).1 -
     Vector3.smul (e.OBJECT_MARGIN / e.sqrt distSquare) v,
   (body2Tobody1 e).inverse.apply ((e.simplex.computeClosestPointsOfAandB simplex).2 +
     Vector3.smul (e.OBJECT_MARGIN / e.sqrt distSquare) v)⟩

/-- What a finalization block ends in, from the values `v`, `distSquare` and `simplex` it finds
in the world `wd` (lines 119-139). -/
def finalizationStep (e : Env K S) (v : Vector3 K) (distSquare : K) (simplex : S)
    (wd : World K S) : Step K S :=
  if ¬ 0 < e.sqrt distSquare then Step.assertFailed wd
  else if margin e - e.sqrt distSquare ≤ 0 then Step.returned false wd
  else Step.returned true (wd.newContactInfo (contactOf e v distSquare simplex))

/-! ### The paths through the body of the loop of `computePenetrationDepthForEnlargedObjects` -/

/-- Line 280: the simplex after `simplex.addPoint(w, suppA, suppB)`, for the enlarged shapes. -/
def enlargedSimplexAfterAdd (e : Env K S) (st : GJKState K S) : S :=
  e.simplex.addPoint st.simplex (suppW e e.OBJECT_MARGIN st.v) (suppA e e.OBJECT_MARGIN st.v)
    (suppB e e.OBJECT_MARGIN st.v)

/-- Line 286: what `simplex.computeClosestPoint(v)` gives on the simplex of line 280. -/
def enlargedClosestPoint (e : Env K S) (st : GJKState K S) : Bool × Vector3 K × S :=
  e.simplex.computeClosestPoint (enlargedSimplexAfterAdd e st) st.v

/-- The path the pass that starts in `st` takes: the conditions of lines 274, 282, 286 and 294,
in this order (`Branch.marginOverlap` does not occur). -/
def enlargedBranchOf (e : Env K S) (st : GJKState K S) : Branch :=
  if 0 < st.v.dot (suppW e e.OBJECT_MARGIN st.v) then Branch.separation
  else if e.simplex.isAffinelyDependent (enlargedSimplexAfterAdd e st) = true then
    Branch.affinelyDependent
  else if (enlargedClosestPoint e st).1 = false then Branch.closestPointFailed
  else if st.distSquare - (enlargedClosestPoint e st).2.1.lengthSquare ≤
      e.MACHINE_EPSILON * st.distSquare then
    Branch.stall
  else Branch.proceed

/-- The calls on the simplex that a pass has logged when it reaches the end of a branch. -/
def enlargedEvents (e : Env K S) (st : GJKState K S) : Branch → List (Event K S)
  | Branch.separation => []
  | Branch.marginOverlap => []
  | Branch.affinelyDependent =>
    [Event.addPoint st.simplex (suppW e e.OBJECT_MARGIN st.v) (suppA e e.OBJECT_MARGIN st.v)
      (suppB e e.OBJECT_MARGIN st.v) (enlargedSimplexAfterAdd e st)]
  | _ =>
    [Event.addPoint st.simplex (suppW e e.OBJECT_MARGIN st.v) (suppA e e.OBJECT_MARGIN st.v)
      (suppB e e.OBJECT_MARGIN st.v) (enlargedSimplexAfterAdd e st),
     Event.computeClosestPoint (enlargedSimplexAfterAdd e st) (enlargedClosestPoint e st).2.2]

/-- The world a pass ends in. -/
def Step.world : Step K S → World K S
  | Step.assertFailed wd => wd
  | Step.returned _ wd => wd
  | Step.next _ wd => wd

/-- The world a call ends in. -/
def Result.world : Result K S → World K S
  | Result.assertFailed wd => wd
  | Result.returned _ wd => wd

/-- The boolean a call returns, if it returns. -/
def Result.returnedValue : Result K S → Option Bool
  | Result.assertFailed _ => none
  | Result.returned b _ => some b

/-- A logged call keeps the simplex within its capacity, for a count `size` of the points a
simplex holds: the simplexes before and after the call hold at most 4 points, and `addPoint` is
called on a simplex that is not full. -/
def Event.WithinCapacity (isFull : S → Bool) (size : S → Nat) : Event K S → Prop
  | Event.addPoint before _ _ _ after => isFull before = false ∧ size before ≤ 4 ∧ size after ≤ 4
  | Event.computeClosestPoint before after => size before ≤ 4 ∧ size after ≤ 4
  | Event.backupClosestPointInSimplex before after => size before ≤ 4 ∧ size after ≤ 4
  | Event.computePenetrationDepthAndContactPoints simplex _ => size simplex ≤ 4
  | _ => True

end GJKAlgorithm

/-! ## Concrete collaborators over the rationals

Used to run the two methods on concrete inputs: boxes as colliders, and a `Simplex` for
configurations whose support points all lie on one line. -/

section Concrete

variable {K : Type} [LinearOrderedField K]

/-- A box collider of half-extents `extent`: the support point in a direction takes, on each
coordinate, the face the direction points to, pushed out by the margin. -/
def boxCollider (extent : Vector3 K) : Collider K :=
  ⟨fun direction mg =>
    ⟨if direction.x < 0 then -extent.x - mg else extent.x + mg,
     if direction.y < 0 then -extent.y - mg else extent.y + mg,
     if direction.z < 0 then -extent.z - mg else extent.z + mg⟩⟩

/-- The points of the box of half-extents `extent`, each face pushed out by `mg`. -/
def boxSet (extent : Vector3 K) (mg : K) : Set (Vector3 K) :=
  fun a => |a.x| ≤ extent.x + mg ∧ |a.y| ≤ extent.y + mg ∧ |a.z| ≤ extent.z + mg

/-- A support point of the Minkowski difference with its two witnesses, as the simplex stores
it. -/
structure SupportPoint (K : Type) where
  w : Vector3 K
  suppA : Vector3 K
  suppB : Vector3 K
deriving DecidableEq

/-- Closest point to the origin of the segment `[a, b]` (`b` the last point added), by the
weights of Johnson's algorithm: `da = b·(b - a)` for `a` and `db = a·(a - b)` for `b`. -/
def segmentWeights (a b : Vector3 K) : K × K := (b.dot (b - a), a.dot (a - b))

/-- The barycentre of `p` and `q` with the weights `d`. -/
def barycentre (d : K × K) (p q : Vector3 K) : Vector3 K :=
  Vector3.smul (1 / (d.1 + d.2)) (Vector3.smul d.1 p + Vector3.smul d.2 q)

/-- Modelled from the spec: a `Simplex` (the class is not part of the sources) for support points
that all lie on one line. The state is the list of the points it holds, the last one added last;
it is full at 4 points; three or more points of a line are affinely dependent, two are when they
coincide; the closest point is sought on the sub-simplices that hold the last point added (the
segment, then that point alone), the simplex is reduced to the one found, and the computation
fails, leaving `v` as it is, when neither holds the closest point. -/
def lineSimplex : Simplex K (List (SupportPoint K)) where
  create := []
  isFull s := decide (s.length = 4)
  isPointInSimplex s w := decide (∃ p ∈ s, p.w = w)
  addPoint s w suppA suppB := s ++ [⟨w, suppA, suppB⟩]
  isAffinelyDependent s :=
    match s with
    | [] => false
    | [_] => false
    | [a, b] => decide ((a.w - b.w).lengthSquare ≤ 0)
    | _ => true
  computeClosestPoint s v :=
    match s with
    | [a] => (true, a.w, [a])
    | [a, b] =>
      let d := segmentWeights a.w b.w
      if 0 < d.1 ∧ 0 < d.2 then (true, barycentre d a.w b.w, [a, b])
      else if d.1 ≤ 0 then (true, b.w, [b])
      else (false, v, [a, b])
    | _ => (false, v, s)
  computeClosestPointsOfAandB s :=
    match s with
    | [a] => (a.suppA, a.suppB)
    | [a, b] =>
      let d := segmentWeights a.w b.w
      (barycentre d a.suppA b.suppA, barycentre d a.suppB b.suppB)
    | _ => (⟨0, 0, 0⟩, ⟨0, 0, 0⟩)
  backupClosestPointInSimplex s v :=
    match s with
    | [a] => (a.w, s)
    | [a, b] => (barycentre (segmentWeights a.w b.w) a.w b.w, s)
    | _ => (v, s)
  getMaxLengthSquareOfAPoint s := s.foldl (fun m p => max m p.w.lengthSquare) 0

end Concrete

/-- Largest `r` in `[lo, hi)` with `r * r ≤ n`, by bisection. -/
def isqrtLoop (n : Nat) : Nat → Nat → Nat → Nat
  | 0, lo, _ => lo
  | fuel + 1, lo, hi =>
    if hi ≤ lo + 1 then lo
    else if ((lo + hi) / 2) * ((lo + hi) / 2) ≤ n then isqrtLoop n fuel ((lo + hi) / 2) hi
    else isqrtLoop n fuel lo ((lo + hi) / 2)

/-- The quotient of the integer square roots of the numerator and of the denominator. -/
def sqrtCandidate (q : ℚ) : ℚ :=
  (isqrtLoop q.num.toNat 400 0 (q.num.toNat + 1) : ℚ) / (isqrtLoop q.den 400 0 (q.den + 1) : ℚ)

/-- A square root on the rationals: the exact root of the square of a rational, and 0 where the
rationals have no root. -/
def sqrtRat (q : ℚ) : ℚ := if sqrtCandidate q * sqrtCandidate q = q then sqrtCandidate q else 0

/-- The identity transform moved to `position`. -/
def translation (position : Vector3 ℚ) : Transform ℚ := ⟨position, Matrix3x3.identity⟩

/-- An EPA that drops every contact: it returns false and leaves pool and slot as they are. -/
def epaDrop : List (SupportPoint ℚ) → Collider ℚ → Transform ℚ → Collider ℚ → Transform ℚ →
    Vector3 ℚ → Nat → Option (ContactInfo ℚ) → Bool × Nat × Option (ContactInfo ℚ) :=
  fun _ _ _ _ _ _ n slot => (false, n, slot)

/-- Two cubes of side 1 over the rationals, the first at the origin and the second moved by
`offset` along the x axis, with `OBJECT_MARGIN = 0.04`, `REL_ERROR_SQUARE = 10^-6`,
`MACHINE_EPSILON = 2^-52` and `DECIMAL_LARGEST = 10^30`. -/
def cubesEnv (offset : ℚ) : Env ℚ (List (SupportPoint ℚ)) where
  OBJECT_MARGIN := 1 / 25
  REL_ERROR_SQUARE := 1 / 1000000
  MACHINE_EPSILON := 1 / 4503599627370496
  DECIMAL_LARGEST := 1000000000000000000000000000000
  sqrt := sqrtRat
  simplex := lineSimplex
  collider1 := boxCollider ⟨1 / 2, 1 / 2, 1 / 2⟩
  transform1 := translation ⟨0, 0, 0⟩
  collider2 := boxCollider ⟨1 / 2, 1 / 2, 1 / 2⟩
  transform2 := translation ⟨offset, 0, 0⟩
  computePenetrationDepthAndContactPoints := epaDrop

/-- A world whose pair caches the axis `(-1, 0, 0)`, with an empty pool, an unwritten slot and an
empty log. -/
def world0 : World ℚ (List (SupportPoint ℚ)) := ⟨⟨-1, 0, 0⟩, 0, none, []⟩

/-- The support point the cubes at distance `offset` give along the x axis towards the second
cube: `w = (1 - offset, 0, 0)` with its witnesses on the facing faces. -/
def facingPoint (offset : ℚ) : SupportPoint ℚ :=
  ⟨⟨1 - offset, 0, 0⟩, ⟨1 / 2, 1 / 2, 1 / 2⟩, ⟨offset - 1 / 2, 1 / 2, 1 / 2⟩⟩

/-- The log of the first pass on the cubes at distance `offset > 1`: the cached axis is read,
the facing support point is added to the empty simplex and is its closest point. -/
def firstPassLog (offset : ℚ) : List (Event ℚ (List (SupportPoint ℚ))) :=
  [Event.getCachedSeparatingAxis,
   Event.addPoint [] (facingPoint offset).w (facingPoint offset).suppA (facingPoint offset).suppB
     [facingPoint offset],
   Event.computeClosestPoint [facingPoint offset] [facingPoint offset]]

/-- The loop variables after the first pass on the cubes at distance `offset > 1`. -/
def secondPassState (offset : ℚ) : GJKState ℚ (List (SupportPoint ℚ)) :=
  ⟨(facingPoint offset).w, (facingPoint offset).w.lengthSquare, [facingPoint offset]⟩

/-- The world `testCollision` leaves for the cubes at distance `21/20`, a gap of `0.05` under
the margin `0.08`: a contact of depth `0.03` along the x axis. -/
def contactWorld : World ℚ (List (SupportPoint ℚ)) :=
  ⟨⟨-1, 0, 0⟩, 1,
    some ⟨⟨1, 0, 0⟩, 3 / 100, ⟨27 / 50, 1 / 2, 1 / 2⟩, ⟨-27 / 50, 1 / 2, 1 / 2⟩⟩,
    firstPassLog (21 / 20) ++ [Event.allocateObject]⟩

/-- The simplex `computePenetrationDepthForEnlargedObjects` ends with on the cubes at distance
`1/2`: the two support points `(-1/2, 0, 0)` and `(29/50, 0, 0)` of the enlarged cubes, a segment
through the origin. -/
def overlapSimplex : List (SupportPoint ℚ) :=
  [⟨⟨-1 / 2, 0, 0⟩, ⟨27 / 50, 27 / 50, 27 / 50⟩, ⟨26 / 25, 27 / 50, 27 / 50⟩⟩,
   ⟨⟨29 / 50, 0, 0⟩, ⟨27 / 50, 27 / 50, 27 / 50⟩, ⟨-1 / 25, 27 / 50, 27 / 50⟩⟩]

/-- The Minkowski difference `A - T(B)` of the cubes at distance `2`, in the local space of the
first: the box `[-3, -1] × [-1, 1] × [-1, 1]`. -/
def cubesDifference : Set (Vector3 ℚ) :=
  fun x => -3 ≤ x.x ∧ x.x ≤ -1 ∧ -1 ≤ x.y ∧ x.y ≤ 1 ∧ -1 ≤ x.z ∧ x.z ≤ 1

section Refactoring

variable {K S : Type} [LinearOrderedField K]

/-! ### The refactoring of the finalization blocks proposed by the spec -/

/-- The pure function `finalizeContact(simplex, v, distSquare, margin, transforms)` of the spec
(§9), in its words: none when `margin - sqrt(distSquare) <= 0`, and otherwise the contact
`(R1 * (-v/|v|), margin - sqrt(distSquare), pA - (OBJECT_MARGIN/dist) v,
body2Tobody1^-1 (pB + (OBJECT_MARGIN/dist) v))`, with `(pA, pB)` the closest points of the simplex
and `dist = sqrt(distSquare)`. The transforms are those of `e`. -/
def finalizeContact (e : Env K S) (simplex : S) (v : Vector3 K) (distSquare mg : K) :
    Option (ContactInfo K) :=
  if mg - e.sqrt distSquare ≤ 0 then none
  else
    some ⟨e.transform1.orientation.mulVec (-(Vector3.smul (1 / v.length e.sqrt) v)),
      mg - e.sqrt distSquare,
      (e.simplex.computeClosestPointsOfAandB simplex).1 -
        Vector3.smul (e.OBJECT_MARGIN / e.sqrt distSquare) v,
      (body2Tobody1 e).inverse.apply ((e.simplex.computeClosestPointsOfAandB simplex).2 +
        Vector3.smul (e.OBJECT_MARGIN / e.sqrt distSquare) v)⟩

/-- The body of the loop of `testCollision` with each of the four finalization blocks replaced
by a call of `finalizeContact`: the branch returns false when it gives none, and allocates the
contact it gives and returns true otherwise. -/
def testCollisionIterationRefactored (e : Env K S) (st : GJKState K S) (wd : World K S) :
    Step K S :=
  let w := suppW e 0 st.v
  let vDotw := st.v.dot w
  if 0 < vDotw ∧ st.distSquare * marginSquare e < vDotw * vDotw then
    Step.returned false (wd.setCachedSeparatingAxis st.v)
  else if e.simplex.isPointInSimplex st.simplex w = true ∨
      st.distSquare - vDotw ≤ st.distSquare * e.REL_ERROR_SQUARE then
    match finalizeContact e st.simplex st.v st.distSquare (margin e) with
    | none => Step.returned false wd
    | some c => Step.returned true (wd.newContactInfo c)
  else
    let s1 := e.simplex.addPoint st.simplex w (suppA e 0 st.v) (suppB e 0 st.v)
    let wd1 := wd.record (Event.addPoint st.simplex w (suppA e 0 st.v) (suppB e 0 st.v) s1)
    if e.simplex.isAffinelyDependent s1 = true then
      match finalizeContact e s1 st.v st.distSquare (margin e) with
      | none => Step.returned false wd1
      | some c => Step.returned true (wd1.newContactInfo c)
    else
      let r := e.simplex.computeClosestPoint s1 st.v
      let v1 := r.2.1
      let s2 := r.2.2
      let wd2 := wd1.record (Event.computeClosestPoint s1 s2)
      if r.1 = false then
        match finalizeContact e s2 v1 st.distSquare (margin e) with
        | none => Step.returned false wd2
        | some c => Step.returned true (wd2.newContactInfo c)
      else
        let prevDistSquare := st.distSquare
        let distSquare := v1.lengthSquare
        if prevDistSquare - distSquare ≤ e.MACHINE_EPSILON * prevDistSquare then
          let b := e.simplex.backupClosestPointInSimplex s2 v1
          let v2 := b.1
          let s3 := b.2
          let wd3 := wd2.record (Event.backupClosestPointInSimplex s2 s3)
          let distSquare2 := v2.lengthSquare
          match finalizeContact e s3 v2 distSquare2 (margin e) with
          | none => Step.returned false wd3
          | some c => Step.returned true (wd3.newContactInfo c)
        else Step.next ⟨v1, distSquare, s2⟩ wd2

/-- The `testCollision` of the refactoring: `testCollision` with the refactored loop body. -/
def testCollisionRefactored (e : Env K S) (fuel : Nat) (wd : World K S) :
    Option (Result K S) :=
  if ¬ 0 < margin e then some (Result.assertFailed wd)
  else
    let a := wd.getCachedSeparatingAxis
    match doWhile (testCollisionIterationRefactored e) (loopCondition e) fuel
        (initialState e a.1) a.2 with
    | none => none
    | some (Step.assertFailed wd1) => some (Result.assertFailed wd1)
    | some (Step.returned b wd1) => some (Result.returned b wd1)
    | some (Step.next st wd1) => computePenetrationDepthForEnlargedObjects e fuel st.v wd1

/-- What a refactored finalization branch ends in, from the values `v`, `distSquare` and
`simplex` it hands to `finalizeContact` in the world `wd`. -/
def refactoredStep (e : Env K S) (v : Vector3 K) (distSquare : K) (simplex : S)
    (wd : World K S) : Step K S :=
  match finalizeContact e simplex v distSquare (margin e) with
  | none => Step.returned false wd
  | some c => Step.returned true (wd.newContactInfo c)

end Refactoring

/-- A square root on the rationals that is positive on every positive rational: the exact root
of the square of a rational, and elsewhere the upper estimate `(q + 1) / 2` of the root. -/
def sqrtRatPos (q : ℚ) : ℚ :=
  if sqrtCandidate q * sqrtCandidate q = q then sqrtCandidate q else (q + 1) / 2

/-- The cubes of `cubesEnv` with `sqrtRatPos` for square root. -/
def cubesEnvPos (offset : ℚ) : Env ℚ (List (SupportPoint ℚ)) :=
  { cubesEnv offset with sqrt := sqrtRatPos }

/-- The cubes of `cubesEnv` with the relative error bound `REL_ERROR_SQUARE = 1`, so coarse
that the first pass of the loop of `testCollision` already ends in the duplicate/relative-error
block. -/
def coarseEnv (offset : ℚ) : Env ℚ (List (SupportPoint ℚ)) :=
  { cubesEnv offset with REL_ERROR_SQUARE := 1 }

/-! ## Lemmas on vectors, matrices and transforms -/

section Algebra

variable {K : Type} [LinearOrderedField K]

@[simp] theorem Vector3.add_x (a b : Vector3 K) : (a + b).x = a.x + b.x := rfl
@[simp] theorem Vector3.add_y (a b : Vector3 K) : (a + b).y = a.y + b.y := rfl
@[simp] theorem Vector3.add_z (a b : Vector3 K) : (a + b).z = a.z + b.z := rfl
@[simp] theorem Vector3.sub_x (a b : Vector3 K) : (a - b).x = a.x - b.x := rfl
@[simp] theorem Vector3.sub_y (a b : Vector3 K) : (a - b).y = a.y - b.y := rfl
@[simp] theorem Vector3.sub_z (a b : Vector3 K) : (a - b).z = a.z - b.z := rfl
@[simp] theorem Vector3.neg_x (a : Vector3 K) : (-a).x = -a.x := rfl
@[simp] theorem Vector3.neg_y (a : Vector3 K) : (-a).y = -a.y := rfl
@[simp] theorem Vector3.neg_z (a : Vector3 K) : (-a).z = -a.z := rfl
@[simp] theorem Vector3.smul_x (k : K) (a : Vector3 K) : (Vector3.smul k a).x = k * a.x := rfl
@[simp] theorem Vector3.smul_y (k : K) (a : Vector3 K) : (Vector3.smul k a).y = k * a.y := rfl
@[simp] theorem Vector3.smul_z (k : K) (a : Vector3 K) : (Vector3.smul k a).z = k * a.z := rfl

/-- The Cauchy-Schwarz inequality. -/
theorem Vector3.dot_sq_le (a b : Vector3 K) :
    (a.dot b) ^ 2 ≤ a.lengthSquare * b.lengthSquare := by
  unfold Vector3.dot Vector3.lengthSquare
  nlinarith [sq_nonneg (a.x * b.y - a.y * b.x), sq_nonneg (a.y * b.z - a.z * b.y),
    sq_nonneg (a.z * b.x - a.x * b.z)]

theorem Vector3.lengthSquare_nonneg (a : Vector3 K) : 0 ≤ a.lengthSquare := by
  unfold Vector3.lengthSquare
  nlinarith [mul_self_nonneg a.x, mul_self_nonneg a.y, mul_self_nonneg a.z]

@[simp] theorem Vector3.lengthSquare_neg (a : Vector3 K) : (-a).lengthSquare = a.lengthSquare := by
  simp [Vector3.lengthSquare]

theorem Vector3.lengthSquare_smul (k : K) (a : Vector3 K) :
    (Vector3.smul k a).lengthSquare = k ^ 2 * a.lengthSquare := by
  simp only [Vector3.lengthSquare, Vector3.smul]
  ring

theorem Vector3.dot_self (a : Vector3 K) : a.dot a = a.lengthSquare := rfl

@[simp] theorem Matrix3x3.identity_mulVec (v : Vector3 K) :
    (Matrix3x3.identity : Matrix3x3 K).mulVec v = v := by
  ext <;> simp [Matrix3x3.identity, Matrix3x3.mulVec, Vector3.dot]

theorem Matrix3x3.mulVec_mulVec (a b : Matrix3x3 K) (v : Vector3 K) :
    a.mulVec (b.mulVec v) = (a.mul b).mulVec v := by
  simp only [Matrix3x3.mul, Matrix3x3.mulVec, Matrix3x3.getTranspose, Vector3.dot,
    Vector3.mk.injEq]
  refine ⟨?_, ?_, ?_⟩ <;> ring

theorem Matrix3x3.mulVec_add (a : Matrix3x3 K) (u v : Vector3 K) :
    a.mulVec (u + v) = a.mulVec u + a.mulVec v := by
  ext <;> simp [Matrix3x3.mulVec, Vector3.dot] <;> ring

theorem Matrix3x3.mulVec_sub (a : Matrix3x3 K) (u v : Vector3 K) :
    a.mulVec (u - v) = a.mulVec u - a.mulVec v := by
  ext <;> simp [Matrix3x3.mulVec, Vector3.dot] <;> ring

theorem Matrix3x3.mulVec_neg (a : Matrix3x3 K) (u : Vector3 K) :
    a.mulVec (-u) = -(a.mulVec u) := by
  ext <;> simp [Matrix3x3.mulVec, Vector3.dot] <;> ring

theorem Matrix3x3.mul_assoc (a b c : Matrix3x3 K) : (a.mul b).mul c = a.mul (b.mul c) := by
  obtain ⟨⟨a00, a01, a02⟩, ⟨a10, a11, a12⟩, ⟨a20, a21, a22⟩⟩ := a
  obtain ⟨⟨b00, b01, b02⟩, ⟨b10, b11, b12⟩, ⟨b20, b21, b22⟩⟩ := b
  obtain ⟨⟨c00, c01, c02⟩, ⟨c10, c11, c12⟩, ⟨c20, c21, c22⟩⟩ := c
  simp only [Matrix3x3.mul, Matrix3x3.mulVec, Matrix3x3.getTranspose, Vector3.dot,
    Matrix3x3.mk.injEq, Vector3.mk.injEq]
  refine ⟨⟨?_, ?_, ?_⟩, ⟨?_, ?_, ?_⟩, ⟨?_, ?_, ?_⟩⟩ <;> ring

theorem Matrix3x3.getTranspose_mul (a b : Matrix3x3 K) :
    (a.mul b).getTranspose = b.getTranspose.mul a.getTranspose := by
  simp only [Matrix3x3.mul, Matrix3x3.mulVec, Matrix3x3.getTranspose, Vector3.dot,
    Matrix3x3.mk.injEq, Vector3.mk.injEq]
  refine ⟨⟨?_, ?_, ?_⟩, ⟨?_, ?_, ?_⟩, ⟨?_, ?_, ?_⟩⟩ <;> ring

omit [LinearOrderedField K] in
@[simp] theorem Matrix3x3.getTranspose_getTranspose (a : Matrix3x3 K) :
    a.getTranspose.getTranspose = a := rfl

@[simp] theorem Matrix3x3.identity_mul (a : Matrix3x3 K) :
    (Matrix3x3.identity : Matrix3x3 K).mul a = a := by
  ext <;> simp [Matrix3x3.identity, Matrix3x3.mul, Matrix3x3.mulVec, Matrix3x3.getTranspose,
    Vector3.dot]

/-- The adjoint rule `(M u)·v = u·(Mᵀ v)`. -/
theorem Matrix3x3.dot_mulVec (m : Matrix3x3 K) (u v : Vector3 K) :
    (m.mulVec u).dot v = u.dot (m.getTranspose.mulVec v) := by
  simp only [Matrix3x3.mulVec, Matrix3x3.getTranspose, Vector3.dot]
  ring

/-- An orthonormal matrix keeps the squared length. -/
theorem Matrix3x3.lengthSquare_mulVec (m : Matrix3x3 K) (hm : m.IsOrthonormal) (u : Vector3 K) :
    (m.mulVec u).lengthSquare = u.lengthSquare := by
  rw [← Vector3.dot_self, Matrix3x3.dot_mulVec, Matrix3x3.mulVec_mulVec, hm.1,
    Matrix3x3.identity_mulVec, Vector3.dot_self]

/-- The product `R1ᵀ * R2` of two orthonormal matrices is orthonormal. -/
theorem Matrix3x3.IsOrthonormal.transpose_mul {a b : Matrix3x3 K} (ha : a.IsOrthonormal)
    (hb : b.IsOrthonormal) : (a.getTranspose.mul b).IsOrthonormal := by
  constructor
  · rw [Matrix3x3.getTranspose_mul, Matrix3x3.getTranspose_getTranspose, Matrix3x3.mul_assoc,
      ← Matrix3x3.mul_assoc a, ha.2, Matrix3x3.identity_mul, hb.1]
  · rw [Matrix3x3.getTranspose_mul, Matrix3x3.getTranspose_getTranspose, Matrix3x3.mul_assoc,
      ← Matrix3x3.mul_assoc b, hb.2, Matrix3x3.identity_mul, ha.1]

/-- A transform with an orthonormal rotation undoes its inverse. -/
theorem Transform.apply_inverse_apply (t : Transform K) (ht : t.orientation.IsOrthonormal)
    (y : Vector3 K) : t.apply (t.inverse.apply y) = y := by
  unfold Transform.apply Transform.inverse
  simp only [Matrix3x3.mulVec_add, Matrix3x3.mulVec_mulVec, ht.2, Matrix3x3.identity_mulVec]
  ext <;> simp

/-- The support function of a box collider returns a point of the box. -/
theorem boxCollider_mem (extent : Vector3 K) (mg : K) (hx : 0 ≤ extent.x + mg)
    (hy : 0 ≤ extent.y + mg) (hz : 0 ≤ extent.z + mg) (d : Vector3 K) :
    (boxCollider extent).getLocalSupportPoint d mg ∈ boxSet extent mg := by
  have key : ∀ (t c : K), 0 ≤ c → |if t < 0 then -c else c| ≤ c := by
    intro t c hc
    split_ifs
    · rw [abs_neg, abs_of_nonneg hc]
    · rw [abs_of_nonneg hc]
  refine ⟨?_, ?_, ?_⟩
  · have := key d.x _ hx
    simpa only [boxCollider, neg_add, sub_eq_add_neg] using this
  · have := key d.y _ hy
    simpa only [boxCollider, neg_add, sub_eq_add_neg] using this
  · have := key d.z _ hz
    simpa only [boxCollider, neg_add, sub_eq_add_neg] using this

/-- The support function of a box collider returns a farthest point of the box in the
direction. -/
theorem boxCollider_support (extent : Vector3 K) (mg : K) (d a : Vector3 K)
    (ha : a ∈ boxSet extent mg) :
    d.dot a ≤ d.dot ((boxCollider extent).getLocalSupportPoint d mg) := by
  have key : ∀ (t c x : K), |x| ≤ c → t * x ≤ t * (if t < 0 then -c else c) := by
    intro t c x hx
    have h1 := abs_le.mp hx
    split_ifs with ht
    · nlinarith [h1.1, h1.2]
    · nlinarith [h1.1, h1.2, not_lt.mp ht]
  obtain ⟨hx, hy, hz⟩ := ha
  have h1 := key d.x _ a.x hx
  have h2 := key d.y _ a.y hy
  have h3 := key d.z _ a.z hz
  simp only [boxCollider, Vector3.dot, neg_add, sub_eq_add_neg] at h1 h2 h3 ⊢
  linarith

end Algebra

/-! ## Lemmas on the two loops -/

section DoWhile

variable {K S : Type}

/-- A loop that ends has ended in some state at the top of its body: with the `return` or the
failed `assert` of the pass from that state, or by its condition after that pass. -/
theorem doWhile_some (body : GJKState K S → World K S → Step K S) (cond : GJKState K S → Prop)
    [DecidablePred cond] (fuel : Nat) (st0 : GJKState K S) (wd0 : World K S) (r : Step K S)
    (h : doWhile body cond fuel st0 wd0 = some r) :
    ∃ st wd, LoopHead body cond st0 wd0 st wd ∧ body st wd = r ∧
      ∀ st1 wd1, r = Step.next st1 wd1 → ¬ cond st1 := by
  induction fuel generalizing st0 wd0 with
  | zero => simp [doWhile] at h
  | succ n ih =>
    rw [doWhile] at h
    split at h
    · rename_i st1 wd1 hb
      by_cases hc : cond st1
      · rw [if_pos hc] at h
        obtain ⟨st, wd, hl, hr, hn⟩ := ih st1 wd1 h
        refine ⟨st, wd, ?_, hr, hn⟩
        clear hr hn h
        induction hl with
        | first => exact LoopHead.again LoopHead.first hb hc
        | again _ hb2 hc2 ih2 => exact LoopHead.again ih2 hb2 hc2
      · rw [if_neg hc] at h
        cases h
        exact ⟨st0, wd0, LoopHead.first, hb, fun st2 wd2 h2 => by cases h2; exact hc⟩
    · rename_i hne
      cases h
      exact ⟨st0, wd0, LoopHead.first, rfl, fun st2 wd2 h2 => absurd h2 (hne st2 wd2 ·)⟩

/-- A `return` or failed `assert` of a pass from a state at the top of the body is what the loop
ends in, given enough fuel. -/
theorem doWhile_of_loopHead (body : GJKState K S → World K S → Step K S)
    (cond : GJKState K S → Prop) [DecidablePred cond] (st0 st : GJKState K S)
    (wd0 wd : World K S) (r : Step K S) (hl : LoopHead body cond st0 wd0 st wd)
    (hr : ∃ fuel, doWhile body cond fuel st wd = some r) :
    ∃ fuel, doWhile body cond fuel st0 wd0 = some r := by
  induction hl with
  | first => exact hr
  | again _ hb hc ih =>
    obtain ⟨fuel, hf⟩ := hr
    exact ih ⟨fuel + 1, by rw [doWhile, hb]; simp only [hc, if_true]; exact hf⟩

/-- One pass that does not reach the end of the body ends the loop. -/
theorem doWhile_one (body : GJKState K S → World K S → Step K S) (cond : GJKState K S → Prop)
    [DecidablePred cond] (st : GJKState K S) (wd : World K S)
    (hr : ∀ st1 wd1, body st wd ≠ Step.next st1 wd1) :
    doWhile body cond 1 st wd = some (body st wd) := by
  rw [doWhile]
  split
  · rename_i st1 wd1 hb
    exact absurd hb (hr st1 wd1)
  · rfl

/-- More fuel does not change what a loop ends in. -/
theorem doWhile_mono (body : GJKState K S → World K S → Step K S) (cond : GJKState K S → Prop)
    [DecidablePred cond] (fuel extra : Nat) (st : GJKState K S) (wd : World K S) (r : Step K S)
    (h : doWhile body cond fuel st wd = some r) :
    doWhile body cond (fuel + extra) st wd = some r := by
  induction fuel generalizing st wd with
  | zero => simp [doWhile] at h
  | succ n ih =>
    rw [Nat.add_right_comm, doWhile]
    rw [doWhile] at h
    split
    · rename_i st1 wd1 hb
      rw [hb] at h
      by_cases hc : cond st1
      · simp only [hc, if_true] at h ⊢
        exact ih st1 wd1 h
      · simp only [hc, if_false] at h ⊢
        exact h
    · rename_i hne
      split at h
      · rename_i st1 wd1 hb
        exact absurd hb (hne st1 wd1)
      · exact h

/-- A property of the log that every pass extends is a property of the log the loop ends
with: if from a state with `I` a pass appends calls with `G` to the log and leaves, at the end of
the body, a state with `J`, and `J` with the loop condition gives `I`, then the loop appends
calls with `G`, and it is left in a state with `J`. -/
theorem doWhile_log (body : GJKState K S → World K S → Step K S) (cond : GJKState K S → Prop)
    [DecidablePred cond] (I J : GJKState K S → Prop) (G : Event K S → Prop)
    (hstep : ∀ st wd, I st → ∃ evs, (body st wd).world.log = wd.log ++ evs ∧
      (∀ ev ∈ evs, G ev) ∧ ∀ st1 wd1, body st wd = Step.next st1 wd1 → J st1)
    (hcond : ∀ st, J st → cond st → I st)
    (fuel : Nat) (st0 : GJKState K S) (wd0 : World K S) (r : Step K S) (h0 : I st0)
    (h : doWhile body cond fuel st0 wd0 = some r) :
    (∃ evs, r.world.log = wd0.log ++ evs ∧ ∀ ev ∈ evs, G ev) ∧
      ∀ st1 wd1, r = Step.next st1 wd1 → J st1 := by
  induction fuel generalizing st0 wd0 with
  | zero => simp [doWhile] at h
  | succ n ih =>
    obtain ⟨evs, hlog, hG, hJ⟩ := hstep st0 wd0 h0
    rw [doWhile] at h
    split at h
    · rename_i st1 wd1 hb
      rw [hb] at hlog
      by_cases hc : cond st1
      · rw [if_pos hc] at h
        obtain ⟨⟨evs2, hlog2, hG2⟩, hJ2⟩ := ih st1 wd1 (hcond st1 (hJ st1 wd1 hb) hc) h
        refine ⟨⟨evs ++ evs2, ?_, ?_⟩, hJ2⟩
        · rw [hlog2, show wd1.log = wd0.log ++ evs from hlog, List.append_assoc]
        · intro ev hev
          rcases List.mem_append.mp hev with h1 | h1
          · exact hG ev h1
          · exact hG2 ev h1
      · rw [if_neg hc] at h
        cases h
        exact ⟨⟨evs, hlog, hG⟩, fun st2 wd2 h2 => by cases h2; exact hJ st1 wd1 hb⟩
    · rename_i hne
      cases h
      exact ⟨⟨evs, hlog, hG⟩, fun st2 wd2 h2 => hJ st2 wd2 h2⟩

/-- A transitive relation between the world before and after every pass relates the world
before the loop and the world the loop ends with. -/
theorem doWhile_world (body : GJKState K S → World K S → Step K S) (cond : GJKState K S → Prop)
    [DecidablePred cond] (R : World K S → World K S → Prop)
    (htrans : ∀ a b c, R a b → R b c → R a c)
    (hstep : ∀ st wd, R wd (body st wd).world)
    (fuel : Nat) (st0 : GJKState K S) (wd0 : World K S) (r : Step K S)
    (h : doWhile body cond fuel st0 wd0 = some r) : R wd0 r.world := by
  induction fuel generalizing st0 wd0 with
  | zero => simp [doWhile] at h
  | succ n ih =>
    have h1 := hstep st0 wd0
    rw [doWhile] at h
    split at h
    · rename_i st1 wd1 hb
      rw [hb] at h1
      by_cases hc : cond st1
      · rw [if_pos hc] at h
        exact htrans _ _ _ h1 (ih st1 wd1 h)
      · rw [if_neg hc] at h
        cases h
        exact h1
    · cases h
      exact h1

end DoWhile


section Loops

variable {K S : Type} [LinearOrderedField K]

/-- The body of the loop of `testCollision`, path by path: the separation early-out writes the
cache and returns false, a finalization block ends as `finalizationStep` says, and otherwise the
pass hands the new `v`, `distSquare` and simplex to the loop condition. -/
theorem testCollisionIteration_eq (e : Env K S) (st : GJKState K S) (wd : World K S) :
    testCollisionIteration e st wd =
      match branchOf e st with
      | Branch.separation => Step.returned false (wd.setCachedSeparatingAxis st.v)
      | Branch.proceed =>
        Step.next ⟨(closestPoint e st).2.1, (closestPoint e st).2.1.lengthSquare,
          (closestPoint e st).2.2⟩ (wd.logged (simplexEvents e st Branch.proceed))
      | b => finalizationStep e (finalV e st b) (finalDistSquare e st b) (finalSimplex e st b)
          (wd.logged (simplexEvents e st b)) := by
  unfold testCollisionIteration branchOf
  by_cases h1 : 0 < st.v.dot (suppW e 0 st.v) ∧
      st.distSquare * marginSquare e < st.v.dot (suppW e 0 st.v) * st.v.dot (suppW e 0 st.v)
  · simp only [h1, and_self, if_true]
  by_cases h2 : e.simplex.isPointInSimplex st.simplex (suppW e 0 st.v) = true ∨
      st.distSquare - st.v.dot (suppW e 0 st.v) ≤ st.distSquare * e.REL_ERROR_SQUARE
  · simp only [h1, h2, if_true, if_false, finalizationStep, contactOf, finalV, finalDistSquare,
      finalSimplex, simplexEvents, World.logged, List.append_nil]
  by_cases h3 : e.simplex.isAffinelyDependent (simplexAfterAdd e st) = true
  · simp only [h1, h2, h3, if_true, if_false, finalizationStep, contactOf, finalV,
      finalDistSquare, finalSimplex, simplexEvents, World.logged, World.record]
    simp only [simplexAfterAdd] at h3 ⊢
    simp [h3]
  by_cases h4 : (closestPoint e st).1 = false
  · simp only [h1, h2, h3, h4, if_true, if_false, finalizationStep, contactOf, finalV,
      finalDistSquare, finalSimplex, simplexEvents, World.logged, World.record]
    simp only [closestPoint, simplexAfterAdd] at h3 h4 ⊢
    simp [h3, h4]
  by_cases h5 : st.distSquare - (closestPoint e st).2.1.lengthSquare ≤
      e.MACHINE_EPSILON * st.distSquare
  · simp only [h1, h2, h3, h4, h5, if_true, if_false, finalizationStep, contactOf, finalV,
      finalDistSquare, finalSimplex, simplexEvents, World.logged, World.record]
    simp only [backupPoint, closestPoint, simplexAfterAdd] at h3 h4 h5 ⊢
    simp [h3, h4, h5]
  · simp only [h1, h2, h3, h4, h5, if_true, if_false, simplexEvents, World.logged, World.record]
    simp only [closestPoint, simplexAfterAdd] at h3 h4 h5 ⊢
    simp [h3, h4, h5]

omit [LinearOrderedField K] in
@[simp] theorem World.logged_nil (wd : World K S) : wd.logged [] = wd := by
  simp [World.logged]

/-- The body of the loop of `computePenetrationDepthForEnlargedObjects`, path by path: every
path but the one to the loop condition returns false, with nothing but the calls on the simplex
added to the log. -/
theorem enlargedIteration_eq (e : Env K S) (st : GJKState K S) (wd : World K S) :
    enlargedIteration e st wd =
      match enlargedBranchOf e st with
      | Branch.proceed =>
        Step.next ⟨(enlargedClosestPoint e st).2.1, (enlargedClosestPoint e st).2.1.lengthSquare,
          (enlargedClosestPoint e st).2.2⟩ (wd.logged (enlargedEvents e st Branch.proceed))
      | b => Step.returned false (wd.logged (enlargedEvents e st b)) := by
  unfold enlargedIteration enlargedBranchOf
  by_cases h1 : 0 < st.v.dot (suppW e e.OBJECT_MARGIN st.v)
  · simp only [h1, if_true, enlargedEvents, World.logged_nil]
  by_cases h3 : e.simplex.isAffinelyDependent (enlargedSimplexAfterAdd e st) = true
  · simp only [h1, h3, if_true, if_false, enlargedEvents, World.logged, World.record]
    simp only [enlargedSimplexAfterAdd] at h3 ⊢
    simp [h3]
  by_cases h4 : (enlargedClosestPoint e st).1 = false
  · simp only [h1, h3, h4, if_true, if_false, enlargedEvents, World.logged, World.record]
    simp only [enlargedClosestPoint, enlargedSimplexAfterAdd] at h3 h4 ⊢
    simp [h3, h4]
  by_cases h5 : st.distSquare - (enlargedClosestPoint e st).2.1.lengthSquare ≤
      e.MACHINE_EPSILON * st.distSquare
  · simp only [h1, h3, h4, h5, if_true, if_false, enlargedEvents, World.logged, World.record]
    simp only [enlargedClosestPoint, enlargedSimplexAfterAdd] at h3 h4 h5 ⊢
    simp [h3, h4, h5]
  · simp only [h1, h3, h4, h5, if_true, if_false, enlargedEvents, World.logged, World.record]
    simp only [enlargedClosestPoint, enlargedSimplexAfterAdd] at h3 h4 h5 ⊢
    simp [h3, h4, h5]

/-- A finalization block never hands over to the loop condition. -/
theorem finalizationStep_ne_next (e : Env K S) (v : Vector3 K) (d : K) (s : S) (wd : World K S)
    (st1 : GJKState K S) (wd1 : World K S) :
    finalizationStep e v d s wd ≠ Step.next st1 wd1 := by
  unfold finalizationStep
  split_ifs <;> simp

/-- A finalization block returns true exactly when the asserted `dist > 0` holds and the depth
`margin - dist` is positive; it then allocates the contact `contactOf`. -/
theorem finalizationStep_returned_true (e : Env K S) (v : Vector3 K) (d : K) (s : S)
    (wd wd1 : World K S) (h : finalizationStep e v d s wd = Step.returned true wd1) :
    0 < e.sqrt d ∧ 0 < margin e - e.sqrt d ∧ wd1 = wd.newContactInfo (contactOf e v d s) := by
  unfold finalizationStep at h
  split_ifs at h with h1 h2
  · simp at h
  · simp only [Step.returned.injEq, true_and] at h
    exact ⟨h1, not_le.mp h2, h.symm⟩

/-- A finalization block whose depth `margin - dist` is not positive returns false and leaves
the world as it found it, the margin being positive. -/
theorem finalizationStep_rejected (e : Env K S) (v : Vector3 K) (d : K) (s : S) (wd : World K S)
    (hm : 0 < margin e) (h : margin e - e.sqrt d ≤ 0) :
    finalizationStep e v d s wd = Step.returned false wd := by
  unfold finalizationStep
  have hd : 0 < e.sqrt d := by linarith
  simp [hd, h]

/-- A pass of the loop of `testCollision` that returns true went through one of the four
finalization blocks, found `dist > 0` and a positive depth there, and allocated `contactOf`. -/
theorem testCollisionIteration_returned_true (e : Env K S) (st : GJKState K S)
    (wd wd1 : World K S) (h : testCollisionIteration e st wd = Step.returned true wd1) :
    (branchOf e st).isFinalization = true ∧
      0 < e.sqrt (finalDistSquare e st (branchOf e st)) ∧
      0 < margin e - e.sqrt (finalDistSquare e st (branchOf e st)) ∧
      wd1 = (wd.logged (simplexEvents e st (branchOf e st))).newContactInfo
        (contactOf e (finalV e st (branchOf e st)) (finalDistSquare e st (branchOf e st))
          (finalSimplex e st (branchOf e st))) := by
  rw [testCollisionIteration_eq] at h
  cases hb : branchOf e st <;> rw [hb] at h <;> simp only [] at h
  · simp at h
  · exact ⟨rfl, finalizationStep_returned_true e _ _ _ _ _ h⟩
  · exact ⟨rfl, finalizationStep_returned_true e _ _ _ _ _ h⟩
  · exact ⟨rfl, finalizationStep_returned_true e _ _ _ _ _ h⟩
  · exact ⟨rfl, finalizationStep_returned_true e _ _ _ _ _ h⟩
  · simp at h

/-- A pass of the loop of `testCollision` through a finalization block is that block run on the
values the pass brings to it. -/
theorem testCollisionIteration_finalization (e : Env K S) (st : GJKState K S) (wd : World K S)
    (hb : (branchOf e st).isFinalization = true) :
    testCollisionIteration e st wd =
      finalizationStep e (finalV e st (branchOf e st)) (finalDistSquare e st (branchOf e st))
        (finalSimplex e st (branchOf e st)) (wd.logged (simplexEvents e st (branchOf e st))) := by
  rw [testCollisionIteration_eq]
  cases h : branchOf e st <;> rw [h] at hb <;> simp_all [Branch.isFinalization]

/-- A pass of the loop of `computePenetrationDepthForEnlargedObjects` never returns true. -/
theorem enlargedIteration_returned (e : Env K S) (st : GJKState K S) (wd wd1 : World K S)
    (b : Bool) (h : enlargedIteration e st wd = Step.returned b wd1) : b = false := by
  simp only [enlargedIteration] at h
  split_ifs at h <;> simp_all

/-- How `computePenetrationDepthForEnlargedObjects` returns: with the `return false` of a pass of
its loop, or with what the EPA algorithm gives on the state the loop was left in. -/
theorem computePenetrationDepthForEnlargedObjects_returned (e : Env K S) (fuel : Nat)
    (v : Vector3 K) (wd wd1 : World K S) (b : Bool)
    (h : computePenetrationDepthForEnlargedObjects e fuel v wd = some (Result.returned b wd1)) :
    (b = false ∧ ∃ st wdh,
        LoopHead (enlargedIteration e) (loopCondition e) (initialState e v) wd st wdh ∧
        enlargedIteration e st wdh = Step.returned false wd1) ∨
      (∃ st wdh st1 wdx,
        LoopHead (enlargedIteration e) (loopCondition e) (initialState e v) wd st wdh ∧
        enlargedIteration e st wdh = Step.next st1 wdx ∧ ¬ loopCondition e st1 ∧
        callEPA e st1 wdx = Result.returned b wd1) := by
  unfold computePenetrationDepthForEnlargedObjects at h
  split at h
  · simp at h
  · simp at h
  · rename_i b1 wdr hl
    simp only [Option.some.injEq, Result.returned.injEq] at h
    obtain ⟨rfl, rfl⟩ := h
    obtain ⟨st, wdh, hh, hr, _⟩ := doWhile_some _ _ _ _ _ _ hl
    have hb := enlargedIteration_returned e st wdh _ _ hr
    subst hb
    exact Or.inl ⟨rfl, st, wdh, hh, hr⟩
  · rename_i st1 wdx hl
    simp only [Option.some.injEq] at h
    obtain ⟨st, wdh, hh, hr, hn⟩ := doWhile_some _ _ _ _ _ _ hl
    exact Or.inr ⟨st, wdh, st1, wdx, hh, hr, hn st1 wdx rfl, h⟩

/-- How `testCollision` returns: with the `return` of a pass of its own loop, or with what
`computePenetrationDepthForEnlargedObjects` returns on the `v` its loop was left with. The margin
is then positive (line 84). -/
theorem testCollision_returned (e : Env K S) (fuel : Nat) (wd wd1 : World K S) (b : Bool)
    (h : testCollision e fuel wd = some (Result.returned b wd1)) :
    0 < margin e ∧
      ((∃ st wdh,
        LoopHead (testCollisionIteration e) (loopCondition e)
          (initialState e wd.cachedSeparatingAxis) wd.getCachedSeparatingAxis.2 st wdh ∧
        testCollisionIteration e st wdh = Step.returned b wd1) ∨
      (∃ st wdh st1 wdx,
        LoopHead (testCollisionIteration e) (loopCondition e)
          (initialState e wd.cachedSeparatingAxis) wd.getCachedSeparatingAxis.2 st wdh ∧
        testCollisionIteration e st wdh = Step.next st1 wdx ∧ ¬ loopCondition e st1 ∧
        computePenetrationDepthForEnlargedObjects e fuel st1.v wdx =
          some (Result.returned b wd1))) := by
  unfold testCollision at h
  split_ifs at h with hm
  · refine ⟨hm, ?_⟩
    change (match testCollisionLoop e fuel (initialState e wd.cachedSeparatingAxis)
      wd.getCachedSeparatingAxis.2 with
      | none => none
      | some (Step.assertFailed wd1) => some (Result.assertFailed wd1)
      | some (Step.returned b wd1) => some (Result.returned b wd1)
      | some (Step.next st wd1) => computePenetrationDepthForEnlargedObjects e fuel st.v wd1) =
      some (Result.returned b wd1) at h
    split at h
    · simp at h
    · simp at h
    · rename_i b1 wdr hl
      simp only [Option.some.injEq, Result.returned.injEq] at h
      obtain ⟨rfl, rfl⟩ := h
      obtain ⟨st, wdh, hh, hr, _⟩ := doWhile_some _ _ _ _ _ _ hl
      exact Or.inl ⟨st, wdh, hh, hr⟩
    · rename_i st1 wdx hl
      obtain ⟨st, wdh, hh, hr, hn⟩ := doWhile_some _ _ _ _ _ _ hl
      exact Or.inr ⟨st, wdh, st1, wdx, hh, hr, hn st1 wdx rfl, h⟩
  · simp at h

/-- A `return` of a pass from a state at the top of the body of the loop of `testCollision` is
what `testCollision` returns, given enough fuel and a positive margin. -/
theorem testCollision_of_loopHead (e : Env K S) (wd wdh wd1 : World K S) (st : GJKState K S)
    (b : Bool) (hm : 0 < margin e)
    (hl : LoopHead (testCollisionIteration e) (loopCondition e)
      (initialState e wd.cachedSeparatingAxis) wd.getCachedSeparatingAxis.2 st wdh)
    (hr : testCollisionIteration e st wdh = Step.returned b wd1) :
    ∃ fuel, testCollision e fuel wd = some (Result.returned b wd1) := by
  have h1 : doWhile (testCollisionIteration e) (loopCondition e) 1 st wdh =
      some (Step.returned b wd1) := by
    rw [doWhile_one _ _ _ _ (by rw [hr]; simp), hr]
  obtain ⟨fuel, hf⟩ := doWhile_of_loopHead _ _ _ _ _ _ _ hl ⟨1, h1⟩
  refine ⟨fuel, ?_⟩
  unfold testCollision
  rw [if_neg (not_not.mpr hm)]
  change (match testCollisionLoop e fuel (initialState e wd.cachedSeparatingAxis)
      wd.getCachedSeparatingAxis.2 with
      | none => none
      | some (Step.assertFailed wd1) => some (Result.assertFailed wd1)
      | some (Step.returned b wd1) => some (Result.returned b wd1)
      | some (Step.next st wd1) => computePenetrationDepthForEnlargedObjects e fuel st.v wd1) = _
  unfold testCollisionLoop
  rw [hf]

/-- A call of `testCollision` that returns true without calling the EPA algorithm returns from a
pass of its own loop, started in a state at the top of the loop body. -/
theorem testCollision_own_contact (e : Env K S) (fuel : Nat) (wd wd1 : World K S)
    (h : testCollision e fuel wd = some (Result.returned true wd1))
    (hlog : ∀ ev ∈ wd1.log, ev.isEPACall = false) :
    ∃ st wdh,
      LoopHead (testCollisionIteration e) (loopCondition e)
        (initialState e wd.cachedSeparatingAxis) wd.getCachedSeparatingAxis.2 st wdh ∧
      testCollisionIteration e st wdh = Step.returned true wd1 := by
  obtain ⟨_, h1 | h2⟩ := testCollision_returned e fuel wd wd1 true h
  · exact h1
  · obtain ⟨st, wdh, st1, wdx, _, _, _, hc⟩ := h2
    rcases computePenetrationDepthForEnlargedObjects_returned e fuel _ _ _ _ hc with
      ⟨hb, _⟩ | ⟨st2, wd2, st3, wd3, _, _, _, hepa⟩
    · simp at hb
    · exfalso
      simp only [callEPA, Result.returned.injEq] at hepa
      obtain ⟨_, rfl⟩ := hepa
      have := hlog (Event.computePenetrationDepthAndContactPoints st3.simplex st3.v) (by simp)
      simp [Event.isEPACall] at this

/-- A pass of the loop of `testCollision` that reaches the end of the body took no terminal
branch, and hands on the closest point of line 173, its squared length and the reduced
simplex. -/
theorem testCollisionIteration_next (e : Env K S) (st st1 : GJKState K S) (wd wd1 : World K S)
    (h : testCollisionIteration e st wd = Step.next st1 wd1) :
    branchOf e st = Branch.proceed ∧
      st1 = ⟨(closestPoint e st).2.1, (closestPoint e st).2.1.lengthSquare,
        (closestPoint e st).2.2⟩ ∧
      wd1 = wd.logged (simplexEvents e st Branch.proceed) := by
  rw [testCollisionIteration_eq] at h
  cases hb : branchOf e st <;> rw [hb] at h <;> simp only [] at h
  case separation => simp at h
  case proceed =>
    simp only [Step.next.injEq] at h
    exact ⟨rfl, h.1.symm, h.2.symm⟩
  all_goals exact absurd h (finalizationStep_ne_next e _ _ _ _ _ _)

/-- The log after a pass of the loop of `testCollision`: the calls on the simplex of its path,
then at most the write of the cache or the allocation of the contact. -/
theorem testCollisionIteration_log (e : Env K S) (st : GJKState K S) (wd : World K S) :
    ∃ tail, (testCollisionIteration e st wd).world.log =
        wd.log ++ (simplexEvents e st (branchOf e st) ++ tail) ∧
      ∀ ev ∈ tail, ev = Event.setCachedSeparatingAxis st.v ∨ ev = Event.allocateObject := by
  rw [testCollisionIteration_eq]
  cases hb : branchOf e st
  case separation =>
    exact ⟨[Event.setCachedSeparatingAxis st.v],
      by simp [Step.world, World.setCachedSeparatingAxis, simplexEvents], by simp⟩
  case proceed => exact ⟨[], by simp [Step.world, World.logged], by simp⟩
  all_goals
    simp only [finalizationStep]
    split_ifs
    · exact ⟨[], by simp [Step.world, World.logged], by simp⟩
    · exact ⟨[Event.allocateObject],
        by simp [Step.world, World.logged, World.newContactInfo], by simp⟩
    · exact ⟨[], by simp [Step.world, World.logged], by simp⟩

/-- The calls on the simplex of a pass of the loop of `testCollision` keep it within its
capacity, when the pass starts with a simplex that is not full. -/
theorem simplexEvents_withinCapacity (e : Env K S) (size : S → Nat)
    (hfull : ∀ s, e.simplex.isFull s = true ↔ size s = 4)
    (hadd : ∀ s w a b, size (e.simplex.addPoint s w a b) ≤ size s + 1)
    (hclosest : ∀ s v, size (e.simplex.computeClosestPoint s v).2.2 ≤ size s)
    (hbackup : ∀ s v, size (e.simplex.backupClosestPointInSimplex s v).2 ≤ size s)
    (st : GJKState K S) (hs : size st.simplex ≤ 4) (hf : e.simplex.isFull st.simplex = false)
    (b : Branch) :
    (∀ ev ∈ simplexEvents e st b, ev.WithinCapacity e.simplex.isFull size) ∧
      size (closestPoint e st).2.2 ≤ 4 := by
  have h3 : size st.simplex ≤ 3 := by
    have hne : size st.simplex ≠ 4 := fun h4 => by
      rw [(hfull st.simplex).mpr h4] at hf
      exact Bool.noConfusion hf
    omega
  have ha : size (simplexAfterAdd e st) ≤ 4 := (hadd _ _ _ _).trans (by omega)
  have hc : size (closestPoint e st).2.2 ≤ 4 := (hclosest _ _).trans ha
  have hb : size (backupPoint e st).2 ≤ 4 := (hbackup _ _).trans hc
  refine ⟨?_, hc⟩
  cases b <;> simp [simplexEvents, Event.WithinCapacity, hf, hs, ha, hc, hb]

/-- The calls on the simplex of a pass of the loop of
`computePenetrationDepthForEnlargedObjects` keep it within its capacity, when the pass starts
with a simplex that is not full. -/
theorem enlargedEvents_withinCapacity (e : Env K S) (size : S → Nat)
    (hfull : ∀ s, e.simplex.isFull s = true ↔ size s = 4)
    (hadd : ∀ s w a b, size (e.simplex.addPoint s w a b) ≤ size s + 1)
    (hclosest : ∀ s v, size (e.simplex.computeClosestPoint s v).2.2 ≤ size s)
    (st : GJKState K S) (hs : size st.simplex ≤ 4) (hf : e.simplex.isFull st.simplex = false)
    (b : Branch) :
    (∀ ev ∈ enlargedEvents e st b, ev.WithinCapacity e.simplex.isFull size) ∧
      size (enlargedClosestPoint e st).2.2 ≤ 4 := by
  have h3 : size st.simplex ≤ 3 := by
    have hne : size st.simplex ≠ 4 := fun h4 => by
      rw [(hfull st.simplex).mpr h4] at hf
      exact Bool.noConfusion hf
    omega
  have ha : size (enlargedSimplexAfterAdd e st) ≤ 4 := (hadd _ _ _ _).trans (by omega)
  have hc : size (enlargedClosestPoint e st).2.2 ≤ 4 := (hclosest _ _).trans ha
  refine ⟨?_, hc⟩
  cases b <;> simp [enlargedEvents, Event.WithinCapacity, hf, hs, ha, hc]

/-- The log of a complete run of `computePenetrationDepthForEnlargedObjects` keeps the simplex
within its capacity. -/
theorem computePenetrationDepthForEnlargedObjects_capacity (e : Env K S) (size : S → Nat)
    (h0 : size e.simplex.create = 0)
    (hfull : ∀ s, e.simplex.isFull s = true ↔ size s = 4)
    (hadd : ∀ s w a b, size (e.simplex.addPoint s w a b) ≤ size s + 1)
    (hclosest : ∀ s v, size (e.simplex.computeClosestPoint s v).2.2 ≤ size s)
    (fuel : Nat) (v : Vector3 K) (wd : World K S) (r : Result K S)
    (h : computePenetrationDepthForEnlargedObjects e fuel v wd = some r) :
    ∃ evs, r.world.log = wd.log ++ evs ∧
      ∀ ev ∈ evs, ev.WithinCapacity e.simplex.isFull size := by
  have hnf : ∀ s, size s ≠ 4 → e.simplex.isFull s = false := fun s hs => by
    cases hf : e.simplex.isFull s
    · rfl
    · exact absurd ((hfull s).mp hf) hs
  have key := doWhile_log (enlargedIteration e) (loopCondition e)
    (fun st => size st.simplex ≤ 4 ∧ e.simplex.isFull st.simplex = false)
    (fun st => size st.simplex ≤ 4) (Event.WithinCapacity e.simplex.isFull size)
    (by
      intro st wd1 hI
      obtain ⟨hG, hc⟩ := enlargedEvents_withinCapacity e size hfull hadd hclosest st hI.1 hI.2
        (enlargedBranchOf e st)
      rw [enlargedIteration_eq]
      cases hb : enlargedBranchOf e st <;> rw [hb] at hG <;>
        exact ⟨_, rfl, hG, by
          intro st1 wd2 hn
          simp only [Step.next.injEq, reduceCtorEq] at hn
          try (obtain ⟨rfl, _⟩ := hn; exact hc)⟩)
    (fun st hJ hc => ⟨hJ, hc.1⟩) fuel (initialState e v) wd
  unfold computePenetrationDepthForEnlargedObjects at h
  have hinit : size (initialState e v).simplex ≤ 4 ∧
      e.simplex.isFull (initialState e v).simplex = false := by
    simp only [initialState]
    exact ⟨by omega, hnf _ (by omega)⟩
  split at h
  · simp at h
  · rename_i wd1 hl
    cases h
    exact (key _ hinit hl).1
  · rename_i b wd1 hl
    cases h
    exact (key _ hinit hl).1
  · rename_i st wd1 hl
    cases h
    obtain ⟨⟨evs, hlog, hG⟩, hJ⟩ := key _ hinit hl
    refine ⟨evs ++ [Event.computePenetrationDepthAndContactPoints st.simplex st.v], ?_, ?_⟩
    · simp only [callEPA, Result.world]
      rw [show wd1.log = wd.log ++ evs from hlog, List.append_assoc]
    · intro ev hev
      rcases List.mem_append.mp hev with h1 | h1
      · exact hG ev h1
      · rw [List.mem_singleton.mp h1]
        exact hJ st wd1 rfl

omit [LinearOrderedField K] in
theorem World.logged_logged (wd : World K S) (a b : List (Event K S)) :
    (wd.logged a).logged b = wd.logged (a ++ b) := by
  simp [World.logged]

/-- The calls a pass of the loop of `computePenetrationDepthForEnlargedObjects` logs are calls
on the simplex. -/
theorem enlargedEvents_not_EPA (e : Env K S) (st : GJKState K S) (b : Branch) :
    ∀ ev ∈ enlargedEvents e st b, ev.isEPACall = false := by
  cases b <;> simp [enlargedEvents, Event.isEPACall]

/-- The world after a pass of the loop of `computePenetrationDepthForEnlargedObjects` is the
world before it, with calls on the simplex added to the log. -/
theorem enlargedIteration_world (e : Env K S) (st : GJKState K S) (wd : World K S) :
    (enlargedIteration e st wd).world =
      wd.logged (enlargedEvents e st (enlargedBranchOf e st)) := by
  rw [enlargedIteration_eq]
  cases enlargedBranchOf e st <;> rfl

/-- The loop of `computePenetrationDepthForEnlargedObjects` leaves the cached axis, the pool and
the output slot as they are: it only adds calls on the simplex to the log. -/
theorem enlargedLoop_frame (e : Env K S) (fuel : Nat) (st : GJKState K S) (wd : World K S)
    (r : Step K S) (h : enlargedLoop e fuel st wd = some r) :
    ∃ evs, r.world = wd.logged evs ∧ ∀ ev ∈ evs, ev.isEPACall = false := by
  refine doWhile_world (enlargedIteration e) (loopCondition e)
    (fun a b => ∃ evs, b = a.logged evs ∧ ∀ ev ∈ evs, ev.isEPACall = false) ?_ ?_ fuel st wd r h
  · rintro a b c ⟨e1, rfl, h1⟩ ⟨e2, rfl, h2⟩
    refine ⟨e1 ++ e2, World.logged_logged _ _ _, ?_⟩
    intro ev hev
    rcases List.mem_append.mp hev with h3 | h3
    · exact h1 ev h3
    · exact h2 ev h3
  · intro st1 wd1
    exact ⟨_, enlargedIteration_world e st1 wd1, enlargedEvents_not_EPA e st1 _⟩

/-- A pass of the loop of `computePenetrationDepthForEnlargedObjects` that reaches the end of
the body hands on the closest point of line 286, its squared length and the reduced simplex. -/
theorem enlargedIteration_next (e : Env K S) (st st1 : GJKState K S) (wd wd1 : World K S)
    (h : enlargedIteration e st wd = Step.next st1 wd1) :
    enlargedBranchOf e st = Branch.proceed ∧
      st1 = ⟨(enlargedClosestPoint e st).2.1, (enlargedClosestPoint e st).2.1.lengthSquare,
        (enlargedClosestPoint e st).2.2⟩ ∧
      wd1 = wd.logged (enlargedEvents e st Branch.proceed) := by
  rw [enlargedIteration_eq] at h
  cases hb : enlargedBranchOf e st <;> rw [hb] at h <;> simp only [] at h
  case proceed =>
    simp only [Step.next.injEq] at h
    exact ⟨rfl, h.1.symm, h.2.symm⟩
  all_goals simp at h

/-- How a complete run of `computePenetrationDepthForEnlargedObjects` ends: in its loop, with
nothing but calls on the simplex added to the log, and not with `return true`; or with the call
of the EPA algorithm on the state its loop was left in by the loop condition, a state whose
`distSquare` is `|v|^2`. -/
theorem computePenetrationDepthForEnlargedObjects_cases (e : Env K S) (fuel : Nat)
    (v : Vector3 K) (wd : World K S) (r : Result K S)
    (h : computePenetrationDepthForEnlargedObjects e fuel v wd = some r) :
    (∃ evs, r.world = wd.logged evs ∧ (∀ ev ∈ evs, ev.isEPACall = false) ∧
        ∀ wd1, r ≠ Result.returned true wd1) ∨
      (∃ st evs, (∀ ev ∈ evs, ev.isEPACall = false) ∧ ¬ loopCondition e st ∧
        st.distSquare = st.v.lengthSquare ∧ r = callEPA e st (wd.logged evs)) := by
  unfold computePenetrationDepthForEnlargedObjects at h
  split at h
  · simp at h
  · rename_i wd1 hl
    cases h
    obtain ⟨evs, h1, h2⟩ := enlargedLoop_frame e fuel _ _ _ hl
    exact Or.inl ⟨evs, h1, h2, by simp⟩
  · rename_i b wd1 hl
    cases h
    obtain ⟨evs, h1, h2⟩ := enlargedLoop_frame e fuel _ _ _ hl
    obtain ⟨st, wdh, _, hr, _⟩ := doWhile_some _ _ _ _ _ _ hl
    have hb := enlargedIteration_returned e st wdh _ _ hr
    subst hb
    exact Or.inl ⟨evs, h1, h2, by simp⟩
  · rename_i st1 wd1 hl
    cases h
    obtain ⟨evs, h1, h2⟩ := enlargedLoop_frame e fuel _ _ _ hl
    obtain ⟨st, wdh, _, hr, hn⟩ := doWhile_some _ _ _ _ _ _ hl
    obtain ⟨_, hst, _⟩ := enlargedIteration_next e st st1 wdh wd1 hr
    refine Or.inr ⟨st1, evs, h2, hn st1 wd1 rfl, by rw [hst], ?_⟩
    simp only [Step.world] at h1
    rw [h1]

/-- After the first pass, `distSquare` is `|v|^2` at the top of the body of the loop of
`testCollision`. -/
theorem testCollision_loopHead_distSquare (e : Env K S) (st0 st : GJKState K S)
    (wd0 wd : World K S)
    (hl : LoopHead (testCollisionIteration e) (loopCondition e) st0 wd0 st wd) :
    st = st0 ∨ st.distSquare = st.v.lengthSquare := by
  cases hl with
  | first => exact Or.inl rfl
  | again _ hb _ =>
    obtain ⟨_, rfl, _⟩ := testCollisionIteration_next e _ _ _ _ hb
    exact Or.inr rfl

/-- The log of a complete run of `testCollision` keeps the simplex within its capacity. -/
theorem testCollision_capacity (e : Env K S) (size : S → Nat)
    (h0 : size e.simplex.create = 0)
    (hfull : ∀ s, e.simplex.isFull s = true ↔ size s = 4)
    (hadd : ∀ s w a b, size (e.simplex.addPoint s w a b) ≤ size s + 1)
    (hclosest : ∀ s v, size (e.simplex.computeClosestPoint s v).2.2 ≤ size s)
    (hbackup : ∀ s v, size (e.simplex.backupClosestPointInSimplex s v).2 ≤ size s)
    (fuel : Nat) (wd : World K S) (r : Result K S)
    (h : testCollision e fuel wd = some r) :
    ∃ evs, r.world.log = wd.log ++ evs ∧
      ∀ ev ∈ evs, ev.WithinCapacity e.simplex.isFull size := by
  have hnf : ∀ s, size s ≠ 4 → e.simplex.isFull s = false := fun s hs => by
    cases hf : e.simplex.isFull s
    · rfl
    · exact absurd ((hfull s).mp hf) hs
  have key := doWhile_log (testCollisionIteration e) (loopCondition e)
    (fun st => size st.simplex ≤ 4 ∧ e.simplex.isFull st.simplex = false)
    (fun st => size st.simplex ≤ 4) (Event.WithinCapacity e.simplex.isFull size)
    (by
      intro st wd1 hI
      obtain ⟨hG, hc⟩ := simplexEvents_withinCapacity e size hfull hadd hclosest hbackup st
        hI.1 hI.2 (branchOf e st)
      obtain ⟨tail, hlog, htail⟩ := testCollisionIteration_log e st wd1
      refine ⟨_, hlog, ?_, ?_⟩
      · intro ev hev
        rcases List.mem_append.mp hev with h1 | h1
        · exact hG ev h1
        · rcases htail ev h1 with h2 | h2 <;> rw [h2] <;> exact trivial
      · intro st1 wd2 hn
        obtain ⟨_, rfl, _⟩ := testCollisionIteration_next e st st1 wd1 wd2 hn
        exact hc)
    (fun st hJ hc => ⟨hJ, hc.1⟩) fuel (initialState e wd.cachedSeparatingAxis)
    wd.getCachedSeparatingAxis.2
  have hinit : size (initialState e wd.cachedSeparatingAxis).simplex ≤ 4 ∧
      e.simplex.isFull (initialState e wd.cachedSeparatingAxis).simplex = false := by
    simp only [initialState]
    exact ⟨by omega, hnf _ (by omega)⟩
  have hget : wd.getCachedSeparatingAxis.2.log = wd.log ++ [Event.getCachedSeparatingAxis] := rfl
  unfold testCollision at h
  split_ifs at h with hm
  · change (match testCollisionLoop e fuel (initialState e wd.cachedSeparatingAxis)
      wd.getCachedSeparatingAxis.2 with
      | none => none
      | some (Step.assertFailed wd1) => some (Result.assertFailed wd1)
      | some (Step.returned b wd1) => some (Result.returned b wd1)
      | some (Step.next st wd1) => computePenetrationDepthForEnlargedObjects e fuel st.v wd1) =
      some r at h
    have hlift : ∀ wd1 : World K S,
        (∃ evs, wd1.log = wd.getCachedSeparatingAxis.2.log ++ evs ∧
          ∀ ev ∈ evs, ev.WithinCapacity e.simplex.isFull size) →
        ∃ evs, wd1.log = wd.log ++ evs ∧
          ∀ ev ∈ evs, ev.WithinCapacity e.simplex.isFull size := by
      rintro wd1 ⟨evs, hlog, hG⟩
      refine ⟨Event.getCachedSeparatingAxis :: evs, by rw [hlog, hget]; simp, ?_⟩
      intro ev hev
      rcases List.mem_cons.mp hev with h1 | h1
      · rw [h1]; exact trivial
      · exact hG ev h1
    split at h
    · simp at h
    · rename_i wd1 hl
      cases h
      exact hlift _ (key _ hinit hl).1
    · rename_i b wd1 hl
      cases h
      exact hlift _ (key _ hinit hl).1
    · rename_i st wd1 hl
      obtain ⟨evs, hlog, hG⟩ := hlift _ (key _ hinit hl).1
      obtain ⟨evs2, hlog2, hG2⟩ := computePenetrationDepthForEnlargedObjects_capacity e size h0
        hfull hadd hclosest fuel st.v wd1 r h
      refine ⟨evs ++ evs2, ?_, ?_⟩
      · rw [hlog2, show wd1.log = wd.log ++ evs from hlog, List.append_assoc]
      · intro ev hev
        rcases List.mem_append.mp hev with h1 | h1
        · exact hG ev h1
        · exact hG2 ev h1
  · cases h
    exact ⟨[], by simp [Result.world], by simp⟩

/-- The calls a pass of the loop of `testCollision` logs on its way are calls on the simplex. -/
theorem simplexEvents_simplexCall (e : Env K S) (st : GJKState K S) (b : Branch) :
    ∀ ev ∈ simplexEvents e st b, ev.isSimplexCall = true := by
  cases b <;> simp [simplexEvents, Event.isSimplexCall]

/-- The calls a pass of the loop of `computePenetrationDepthForEnlargedObjects` logs are calls
on the simplex. -/
theorem enlargedEvents_simplexCall (e : Env K S) (st : GJKState K S) (b : Branch) :
    ∀ ev ∈ enlargedEvents e st b, ev.isSimplexCall = true := by
  cases b <;> simp [enlargedEvents, Event.isSimplexCall]

/-- Up to the top of any pass, the loop of `testCollision` has only added calls on the simplex
to the log: the cached axis, the pool and the output slot are as the loop found them. -/
theorem testCollision_loopHead_frame (e : Env K S) (st0 st : GJKState K S) (wd0 wd : World K S)
    (hl : LoopHead (testCollisionIteration e) (loopCondition e) st0 wd0 st wd) :
    ∃ evs, wd = wd0.logged evs ∧ ∀ ev ∈ evs, ev.isSimplexCall = true := by
  induction hl with
  | first => exact ⟨[], by simp, by simp⟩
  | again _ hb _ ih =>
    obtain ⟨evs, rfl, hevs⟩ := ih
    obtain ⟨_, _, rfl⟩ := testCollisionIteration_next e _ _ _ _ hb
    refine ⟨evs ++ simplexEvents e _ Branch.proceed, World.logged_logged _ _ _, ?_⟩
    intro ev hev
    rcases List.mem_append.mp hev with h1 | h1
    · exact hevs ev h1
    · exact simplexEvents_simplexCall e _ _ ev h1

/-- What a finalization block returns: false in the world it found, or true in that world with
the contact allocated. -/
theorem finalizationStep_returned (e : Env K S) (v : Vector3 K) (d : K) (s : S)
    (wd wd1 : World K S) (b : Bool) (h : finalizationStep e v d s wd = Step.returned b wd1) :
    (b = false ∧ wd1 = wd) ∨ (b = true ∧ wd1 = wd.newContactInfo (contactOf e v d s)) := by
  unfold finalizationStep at h
  split_ifs at h
  · simp only [Step.returned.injEq] at h
    exact Or.inl ⟨h.1.symm, h.2.symm⟩
  · simp only [Step.returned.injEq] at h
    exact Or.inr ⟨h.1.symm, h.2.symm⟩

/-- How a pass of the loop of `testCollision` returns: through the separation early-out, with
false and the cache written; or through a finalization block, with false and nothing but the
calls on the simplex logged, or with true and the contact allocated. -/
theorem testCollisionIteration_returned (e : Env K S) (st : GJKState K S) (wd wd1 : World K S)
    (b : Bool) (h : testCollisionIteration e st wd = Step.returned b wd1) :
    (branchOf e st = Branch.separation ∧ b = false ∧
        wd1 = wd.setCachedSeparatingAxis st.v) ∨
      ((branchOf e st).isFinalization = true ∧
        ((b = false ∧ wd1 = wd.logged (simplexEvents e st (branchOf e st))) ∨
          (b = true ∧ wd1 = (wd.logged (simplexEvents e st (branchOf e st))).newContactInfo
            (contactOf e (finalV e st (branchOf e st)) (finalDistSquare e st (branchOf e st))
              (finalSimplex e st (branchOf e st)))))) := by
  rw [testCollisionIteration_eq] at h
  cases hb : branchOf e st <;> rw [hb] at h <;> simp only [] at h
  case separation =>
    simp only [Step.returned.injEq] at h
    exact Or.inl ⟨rfl, h.1.symm, h.2.symm⟩
  case proceed => simp at h
  all_goals exact Or.inr ⟨rfl, finalizationStep_returned e _ _ _ _ _ _ h⟩

/-- The loop of `computePenetrationDepthForEnlargedObjects` only adds calls on the simplex to
the log. -/
theorem enlargedLoop_simplexCalls (e : Env K S) (fuel : Nat) (st : GJKState K S)
    (wd : World K S) (r : Step K S) (h : enlargedLoop e fuel st wd = some r) :
    ∃ evs, r.world = wd.logged evs ∧ ∀ ev ∈ evs, ev.isSimplexCall = true := by
  refine doWhile_world (enlargedIteration e) (loopCondition e)
    (fun a b => ∃ evs, b = a.logged evs ∧ ∀ ev ∈ evs, ev.isSimplexCall = true) ?_ ?_ fuel st wd
    r h
  · rintro a b c ⟨e1, rfl, h1⟩ ⟨e2, rfl, h2⟩
    refine ⟨e1 ++ e2, World.logged_logged _ _ _, ?_⟩
    intro ev hev
    rcases List.mem_append.mp hev with h3 | h3
    · exact h1 ev h3
    · exact h2 ev h3
  · intro st1 wd1
    exact ⟨_, enlargedIteration_world e st1 wd1, enlargedEvents_simplexCall e st1 _⟩

/-- How `computePenetrationDepthForEnlargedObjects` returns, seen from the world: it has only
added calls on the simplex to the log and returns false, or it has added such calls and then
returns what `callEPA` gives. -/
theorem computePenetrationDepthForEnlargedObjects_world (e : Env K S) (fuel : Nat)
    (v : Vector3 K) (wd wd1 : World K S) (b : Bool)
    (h : computePenetrationDepthForEnlargedObjects e fuel v wd = some (Result.returned b wd1)) :
    ∃ evs, (∀ ev ∈ evs, ev.isSimplexCall = true) ∧
      ((b = false ∧ wd1 = wd.logged evs) ∨
        ∃ st, callEPA e st (wd.logged evs) = Result.returned b wd1) := by
  unfold computePenetrationDepthForEnlargedObjects at h
  split at h
  · simp at h
  · simp at h
  · rename_i b1 wdr hl
    simp only [Option.some.injEq, Result.returned.injEq] at h
    obtain ⟨rfl, rfl⟩ := h
    obtain ⟨evs, h1, h2⟩ := enlargedLoop_simplexCalls e fuel _ _ _ hl
    obtain ⟨st, wdh, _, hr, _⟩ := doWhile_some _ _ _ _ _ _ hl
    have hb := enlargedIteration_returned e st wdh _ _ hr
    exact ⟨evs, h2, Or.inl ⟨hb, h1⟩⟩
  · rename_i st1 wdx hl
    simp only [Option.some.injEq] at h
    obtain ⟨evs, h1, h2⟩ := enlargedLoop_simplexCalls e fuel _ _ _ hl
    simp only [Step.world] at h1
    subst h1
    exact ⟨evs, h2, Or.inr ⟨st1, h⟩⟩

omit [LinearOrderedField K] in
/-- A result that returns the boolean `b` is `Result.returned b` of some world. -/
theorem Result.exists_of_returnedValue (o : Option (Result K S)) (b : Bool)
    (h : o.map Result.returnedValue = some (some b)) :
    ∃ wd1, o = some (Result.returned b wd1) := by
  cases o with
  | none => simp at h
  | some r =>
    cases r with
    | assertFailed wd1 => simp [Result.returnedValue] at h
    | returned b1 wd1 =>
      simp only [Option.map_some', Result.returnedValue, Option.some.injEq] at h
      exact ⟨wd1, by rw [h]⟩

omit [LinearOrderedField K] in
/-- A call on the simplex neither reads nor writes the cached axis, allocates nothing and is no
call of the EPA algorithm. -/
theorem Event.isSimplexCall_other (ev : Event K S) (h : ev.isSimplexCall = true) :
    ev.isAxisAccess = false ∧ ev.isEPACall = false ∧ ev ≠ Event.allocateObject := by
  cases ev <;> simp_all [Event.isSimplexCall, Event.isAxisAccess, Event.isEPACall]

/-- How a call of `testCollision` that returns has run: its loop reached the top of a last pass
with nothing but calls on the simplex logged after the read of the cached axis, and that pass
returned through the separation early-out or a finalization block, or reached the end of the
body with the loop condition false, after which `computePenetrationDepthForEnlargedObjects`
returned false from its loop or returned what the EPA algorithm gave. -/
theorem testCollision_run (e : Env K S) (fuel : Nat) (wd wd1 : World K S) (b : Bool)
    (h : testCollision e fuel wd = some (Result.returned b wd1)) :
    ∃ st wdh evs,
      LoopHead (testCollisionIteration e) (loopCondition e)
        (initialState e wd.cachedSeparatingAxis) wd.getCachedSeparatingAxis.2 st wdh ∧
      wdh = wd.getCachedSeparatingAxis.2.logged evs ∧
      (∀ ev ∈ evs, ev.isSimplexCall = true) ∧
      ((testCollisionIteration e st wdh = Step.returned b wd1 ∧
          ((branchOf e st = Branch.separation ∧ b = false ∧
              wd1 = wdh.setCachedSeparatingAxis st.v) ∨
            ((branchOf e st).isFinalization = true ∧
              ((b = false ∧ wd1 = wdh.logged (simplexEvents e st (branchOf e st))) ∨
                (b = true ∧
                  wd1 = (wdh.logged (simplexEvents e st (branchOf e st))).newContactInfo
                    (contactOf e (finalV e st (branchOf e st))
                      (finalDistSquare e st (branchOf e st))
                      (finalSimplex e st (branchOf e st)))))))) ∨
        (∃ st1 wdx evs3,
          testCollisionIteration e st wdh = Step.next st1 wdx ∧ ¬ loopCondition e st1 ∧
          branchOf e st = Branch.proceed ∧
          st1 = ⟨(closestPoint e st).2.1, (closestPoint e st).2.1.lengthSquare,
            (closestPoint e st).2.2⟩ ∧
          wdx = wdh.logged (simplexEvents e st Branch.proceed) ∧
          computePenetrationDepthForEnlargedObjects e fuel st1.v wdx =
            some (Result.returned b wd1) ∧
          (∀ ev ∈ evs3, ev.isSimplexCall = true) ∧
          ((b = false ∧ wd1 = wdx.logged evs3) ∨
            ∃ st2, callEPA e st2 (wdx.logged evs3) = Result.returned b wd1))) := by
  obtain ⟨_, h1 | h2⟩ := testCollision_returned e fuel wd wd1 b h
  · obtain ⟨st, wdh, hl, hr⟩ := h1
    obtain ⟨evs, hw, hevs⟩ := testCollision_loopHead_frame e _ _ _ _ hl
    exact ⟨st, wdh, evs, hl, hw, hevs,
      Or.inl ⟨hr, testCollisionIteration_returned e st wdh wd1 b hr⟩⟩
  · obtain ⟨st, wdh, st1, wdx, hl, hn, hc, hp⟩ := h2
    obtain ⟨evs, hw, hevs⟩ := testCollision_loopHead_frame e _ _ _ _ hl
    obtain ⟨hb, hst, hwx⟩ := testCollisionIteration_next e _ _ _ _ hn
    obtain ⟨evs3, hevs3, hw3⟩ :=
      computePenetrationDepthForEnlargedObjects_world e fuel _ _ _ _ hp
    exact ⟨st, wdh, evs, hl, hw, hevs,
      Or.inr ⟨st1, wdx, evs3, hn, hc, hb, hst, hwx, hp, hevs3, hw3⟩⟩

/-- A pass of the loop of `testCollision` that goes past line 117 has found the support point
`w` not in the simplex and the relative-error test failing. -/
theorem branchOf_past_checks (e : Env K S) (st : GJKState K S)
    (h1 : branchOf e st ≠ Branch.separation) (h2 : branchOf e st ≠ Branch.marginOverlap) :
    e.simplex.isPointInSimplex st.simplex (suppW e 0 st.v) = false ∧
      ¬ st.distSquare - st.v.dot (suppW e 0 st.v) ≤ st.distSquare * e.REL_ERROR_SQUARE := by
  by_cases c1 : 0 < st.v.dot (suppW e 0 st.v) ∧
      st.distSquare * marginSquare e < st.v.dot (suppW e 0 st.v) * st.v.dot (suppW e 0 st.v)
  · exact absurd (by unfold branchOf; rw [if_pos c1]) h1
  · by_cases c2 : e.simplex.isPointInSimplex st.simplex (suppW e 0 st.v) = true ∨
        st.distSquare - st.v.dot (suppW e 0 st.v) ≤ st.distSquare * e.REL_ERROR_SQUARE
    · exact absurd (by unfold branchOf; rw [if_neg c1, if_pos c2]) h2
    · simp only [not_or, Bool.not_eq_true] at c2
      exact c2

/-- A pass of the loop of `testCollision` that finds the support point `w` in the simplex, or
the relative-error test succeeding, after the separation test failed, goes through the
finalization block of line 117. -/
theorem branchOf_marginOverlap (e : Env K S) (st : GJKState K S)
    (hsep : ¬ (0 < st.v.dot (suppW e 0 st.v) ∧
      st.distSquare * marginSquare e < st.v.dot (suppW e 0 st.v) * st.v.dot (suppW e 0 st.v)))
    (h : e.simplex.isPointInSimplex st.simplex (suppW e 0 st.v) = true ∨
      st.distSquare - st.v.dot (suppW e 0 st.v) ≤ st.distSquare * e.REL_ERROR_SQUARE) :
    branchOf e st = Branch.marginOverlap := by
  unfold branchOf
  rw [if_neg hsep, if_pos h]

/-- A finalization block logs nothing but the allocation of the contact it builds. -/
theorem finalizationStep_log (e : Env K S) (v : Vector3 K) (d : K) (s : S) (wd : World K S) :
    ∃ tail, (finalizationStep e v d s wd).world.log = wd.log ++ tail ∧
      ∀ ev ∈ tail, ev = Event.allocateObject := by
  unfold finalizationStep
  split_ifs
  · exact ⟨[], by simp [Step.world], by simp⟩
  · exact ⟨[Event.allocateObject], by simp [Step.world, World.newContactInfo], by simp⟩
  · exact ⟨[], by simp [Step.world], by simp⟩

/-- The calls on the simplex that a pass logs hold no `addPoint` before line 143, and from
there on the one `addPoint` of `w` with its witnesses on the simplex the pass started with. -/
theorem simplexEvents_addPoint (e : Env K S) (st : GJKState K S) (b : Branch)
    (before after : S) (w a c : Vector3 K)
    (h : Event.addPoint before w a c after ∈ simplexEvents e st b) :
    b ≠ Branch.separation ∧ b ≠ Branch.marginOverlap ∧ before = st.simplex ∧
      w = suppW e 0 st.v := by
  cases b <;> simp [simplexEvents] at h <;> simp [h]

/-- How a call of `testCollision` ends: with the failed `assert` of line 84; with the `return` or
the failed `assert` of a pass of its loop; or, the last pass having reached the end of the body
with the loop condition false, with whatever `computePenetrationDepthForEnlargedObjects` gives on
the `v` of that pass. -/
theorem testCollision_some (e : Env K S) (fuel : Nat) (wd : World K S) (r : Result K S)
    (h : testCollision e fuel wd = some r) :
    (¬ 0 < margin e ∧ r = Result.assertFailed wd) ∨
      (0 < margin e ∧ ∃ st wdh,
        LoopHead (testCollisionIteration e) (loopCondition e)
          (initialState e wd.cachedSeparatingAxis) wd.getCachedSeparatingAxis.2 st wdh ∧
        ((∃ b wd1, testCollisionIteration e st wdh = Step.returned b wd1 ∧
            r = Result.returned b wd1) ∨
          (∃ wdx, testCollisionIteration e st wdh = Step.assertFailed wdx ∧
            r = Result.assertFailed wdx) ∨
          (∃ st1 wdx, testCollisionIteration e st wdh = Step.next st1 wdx ∧
            ¬ loopCondition e st1 ∧
            computePenetrationDepthForEnlargedObjects e fuel st1.v wdx = some r))) := by
  unfold testCollision at h
  split_ifs at h with hm
  · right
    refine ⟨hm, ?_⟩
    change (match testCollisionLoop e fuel (initialState e wd.cachedSeparatingAxis)
      wd.getCachedSeparatingAxis.2 with
      | none => none
      | some (Step.assertFailed wd1) => some (Result.assertFailed wd1)
      | some (Step.returned b wd1) => some (Result.returned b wd1)
      | some (Step.next st wd1) => computePenetrationDepthForEnlargedObjects e fuel st.v wd1) =
      some r at h
    split at h
    · simp at h
    · rename_i wd1 hl
      cases h
      obtain ⟨st, wdh, hh, hr, _⟩ := doWhile_some _ _ _ _ _ _ hl
      exact ⟨st, wdh, hh, Or.inr (Or.inl ⟨wd1, hr, rfl⟩)⟩
    · rename_i b wd1 hl
      cases h
      obtain ⟨st, wdh, hh, hr, _⟩ := doWhile_some _ _ _ _ _ _ hl
      exact ⟨st, wdh, hh, Or.inl ⟨b, wd1, hr, rfl⟩⟩
    · rename_i st1 wdx hl
      obtain ⟨st, wdh, hh, hr, hn⟩ := doWhile_some _ _ _ _ _ _ hl
      exact ⟨st, wdh, hh, Or.inr (Or.inr ⟨st1, wdx, hr, hn st1 wdx rfl, h⟩)⟩
  · left
    cases h
    exact ⟨hm, rfl⟩

/-- When the last pass of the loop of `testCollision` reaches the end of the body with the loop
condition false, the call is, given enough fuel, the call of
`computePenetrationDepthForEnlargedObjects` on the `v` of that pass. -/
theorem testCollision_escalates (e : Env K S) (wd wdh wdx : World K S) (st st1 : GJKState K S)
    (hm : 0 < margin e)
    (hl : LoopHead (testCollisionIteration e) (loopCondition e)
      (initialState e wd.cachedSeparatingAxis) wd.getCachedSeparatingAxis.2 st wdh)
    (hn : testCollisionIteration e st wdh = Step.next st1 wdx) (hc : ¬ loopCondition e st1) :
    ∃ n, ∀ fuel, n ≤ fuel →
      testCollision e fuel wd = computePenetrationDepthForEnlargedObjects e fuel st1.v wdx := by
  have h1 : doWhile (testCollisionIteration e) (loopCondition e) 1 st wdh =
      some (Step.next st1 wdx) := by
    rw [doWhile, hn]
    simp only [hc, if_false]
  obtain ⟨n, hf⟩ := doWhile_of_loopHead _ _ _ _ _ _ _ hl ⟨1, h1⟩
  refine ⟨n, fun fuel hle => ?_⟩
  have hf2 := doWhile_mono _ _ n (fuel - n) _ _ _ hf
  rw [Nat.add_sub_cancel' hle] at hf2
  unfold testCollision
  rw [if_neg (not_not.mpr hm)]
  change (match testCollisionLoop e fuel (initialState e wd.cachedSeparatingAxis)
      wd.getCachedSeparatingAxis.2 with
      | none => none
      | some (Step.assertFailed wd1) => some (Result.assertFailed wd1)
      | some (Step.returned b wd1) => some (Result.returned b wd1)
      | some (Step.next st wd1) => computePenetrationDepthForEnlargedObjects e fuel st.v wd1) = _
  unfold testCollisionLoop
  rw [hf2]

/-- The loop condition fails exactly when the simplex is full or `distSquare` is at most
`MACHINE_EPSILON * getMaxLengthSquareOfAPoint()`. -/
theorem not_loopCondition_iff (e : Env K S) (st : GJKState K S) :
    ¬ loopCondition e st ↔ (e.simplex.isFull st.simplex = true ∨
      st.distSquare ≤ e.MACHINE_EPSILON * e.simplex.getMaxLengthSquareOfAPoint st.simplex) := by
  unfold loopCondition
  constructor
  · intro h
    by_cases hf : e.simplex.isFull st.simplex = true
    · exact Or.inl hf
    · right
      have hf2 : e.simplex.isFull st.simplex = false := by simpa using hf
      by_contra hlt
      exact h ⟨hf2, not_le.mp hlt⟩
  · rintro (h | h) ⟨h1, h2⟩
    · rw [h1] at h
      exact Bool.noConfusion h
    · exact absurd h (not_le.mpr h2)

/-- The path of a pass that reaches line 199 is decided by the test of line 203. -/
theorem branchOf_stall_iff (e : Env K S) (st : GJKState K S)
    (h : branchOf e st = Branch.stall ∨ branchOf e st = Branch.proceed) :
    (branchOf e st = Branch.stall ↔
      st.distSquare - (closestPoint e st).2.1.lengthSquare ≤
        e.MACHINE_EPSILON * st.distSquare) := by
  unfold branchOf at h ⊢
  split_ifs at h ⊢ with c1 c2 c3 c4 c5 <;> simp_all

/-- The path of a pass of the enlarged loop to the loop condition has passed the test of line
294. -/
theorem enlargedBranchOf_proceed (e : Env K S) (st : GJKState K S)
    (h : enlargedBranchOf e st = Branch.proceed) :
    ¬ st.distSquare - (enlargedClosestPoint e st).2.1.lengthSquare ≤
      e.MACHINE_EPSILON * st.distSquare := by
  unfold enlargedBranchOf at h
  split_ifs at h with c1 c2 c3 c4
  exact c4

/-- The refactored body of the loop of `testCollision`, path by path. -/
theorem testCollisionIterationRefactored_eq (e : Env K S) (st : GJKState K S) (wd : World K S) :
    testCollisionIterationRefactored e st wd =
      match branchOf e st with
      | Branch.separation => Step.returned false (wd.setCachedSeparatingAxis st.v)
      | Branch.proceed =>
        Step.next ⟨(closestPoint e st).2.1, (closestPoint e st).2.1.lengthSquare,
          (closestPoint e st).2.2⟩ (wd.logged (simplexEvents e st Branch.proceed))
      | b => refactoredStep e (finalV e st b) (finalDistSquare e st b) (finalSimplex e st b)
          (wd.logged (simplexEvents e st b)) := by
  unfold testCollisionIterationRefactored branchOf
  by_cases h1 : 0 < st.v.dot (suppW e 0 st.v) ∧
      st.distSquare * marginSquare e < st.v.dot (suppW e 0 st.v) * st.v.dot (suppW e 0 st.v)
  · simp only [h1, and_self, if_true]
  by_cases h2 : e.simplex.isPointInSimplex st.simplex (suppW e 0 st.v) = true ∨
      st.distSquare - st.v.dot (suppW e 0 st.v) ≤ st.distSquare * e.REL_ERROR_SQUARE
  · simp only [h1, h2, if_true, if_false, refactoredStep, finalV, finalDistSquare,
      finalSimplex, simplexEvents, World.logged, List.append_nil]
  by_cases h3 : e.simplex.isAffinelyDependent (simplexAfterAdd e st) = true
  · simp only [h1, h2, h3, if_true, if_false, refactoredStep, finalV,
      finalDistSquare, finalSimplex, simplexEvents, World.logged, World.record]
    simp only [simplexAfterAdd] at h3 ⊢
    simp [h3]
  by_cases h4 : (closestPoint e st).1 = false
  · simp only [h1, h2, h3, h4, if_true, if_false, refactoredStep, finalV,
      finalDistSquare, finalSimplex, simplexEvents, World.logged, World.record]
    simp only [closestPoint, simplexAfterAdd] at h3 h4 ⊢
    simp [h3, h4]
  by_cases h5 : st.distSquare - (closestPoint e st).2.1.lengthSquare ≤
      e.MACHINE_EPSILON * st.distSquare
  · simp only [h1, h2, h3, h4, h5, if_true, if_false, refactoredStep, finalV,
      finalDistSquare, finalSimplex, simplexEvents, World.logged, World.record]
    simp only [backupPoint, closestPoint, simplexAfterAdd] at h3 h4 h5 ⊢
    simp [h3, h4, h5]
  · simp only [h1, h2, h3, h4, h5, if_true, if_false, simplexEvents, World.logged, World.record]
    simp only [closestPoint, simplexAfterAdd] at h3 h4 h5 ⊢
    simp [h3, h4, h5]

/-- A refactored finalization branch ends as the inline block does, unless the `assert` of the
inline block fails. -/
theorem refactoredStep_eq (e : Env K S) (v : Vector3 K) (d : K) (s : S) (wd : World K S) :
    (0 < e.sqrt d → refactoredStep e v d s wd = finalizationStep e v d s wd) ∧
      (¬ 0 < e.sqrt d → finalizationStep e v d s wd = Step.assertFailed wd) := by
  constructor
  · intro h
    unfold refactoredStep finalizationStep finalizeContact
    simp only [h, not_true_eq_false, if_false]
    split_ifs with h2
    · rfl
    · rfl
  · intro h
    unfold finalizationStep
    rw [if_pos h]

/-- A refactored finalization branch ends as the inline block does, or the `assert` of the
inline block fails. -/
theorem refactoredStep_agree (e : Env K S) (v : Vector3 K) (d : K) (s : S) (wd : World K S) :
    refactoredStep e v d s wd = finalizationStep e v d s wd ∨
      ∃ wdx, finalizationStep e v d s wd = Step.assertFailed wdx := by
  by_cases h : 0 < e.sqrt d
  · exact Or.inl ((refactoredStep_eq e v d s wd).1 h)
  · exact Or.inr ⟨_, (refactoredStep_eq e v d s wd).2 h⟩

/-- A refactored pass ends as the inline pass does, unless an `assert` of the inline pass
fails. -/
theorem testCollisionIterationRefactored_agree (e : Env K S) (st : GJKState K S)
    (wd : World K S) :
    testCollisionIterationRefactored e st wd = testCollisionIteration e st wd ∨
      ∃ wdx, testCollisionIteration e st wd = Step.assertFailed wdx := by
  rw [testCollisionIterationRefactored_eq, testCollisionIteration_eq]
  cases branchOf e st
  case separation => exact Or.inl rfl
  case proceed => exact Or.inl rfl
  all_goals exact refactoredStep_agree e _ _ _ _

omit [LinearOrderedField K] in
/-- Two loops whose bodies agree, but where the first fails an `assert`, end alike, unless the
first ends in a failed `assert`. -/
theorem doWhile_agree (body1 body2 : GJKState K S → World K S → Step K S)
    (cond : GJKState K S → Prop) [DecidablePred cond]
    (h : ∀ st wd, body2 st wd = body1 st wd ∨ ∃ wdx, body1 st wd = Step.assertFailed wdx)
    (fuel : Nat) (st : GJKState K S) (wd : World K S) :
    doWhile body2 cond fuel st wd = doWhile body1 cond fuel st wd ∨
      ∃ wdx, doWhile body1 cond fuel st wd = some (Step.assertFailed wdx) := by
  induction fuel generalizing st wd with
  | zero => exact Or.inl rfl
  | succ n ih =>
    rcases h st wd with h1 | ⟨wdx, h1⟩
    · rw [doWhile, doWhile, h1]
      split
      · rename_i st1 wd1 _
        by_cases hc : cond st1
        · simp only [hc, if_true]
          exact ih st1 wd1
        · simp only [hc, if_false]
          exact Or.inl trivial
      · exact Or.inl rfl
    · right
      refine ⟨wdx, ?_⟩
      rw [doWhile, h1]

/-- The squared distance at the top of the body of the loop of `testCollision`: the initial
`DECIMAL_LARGEST`, or a value that passed the loop condition. -/
theorem testCollision_loopHead_bound (e : Env K S) (a : Vector3 K) (wd0 : World K S)
    (st : GJKState K S) (wd : World K S)
    (h : LoopHead (testCollisionIteration e) (loopCondition e) (initialState e a) wd0 st wd) :
    st.distSquare = e.DECIMAL_LARGEST ∨
      e.MACHINE_EPSILON * e.simplex.getMaxLengthSquareOfAPoint st.simplex < st.distSquare := by
  cases h with
  | first => exact Or.inl rfl
  | again _ _ hc => exact Or.inr hc.2

/-- The largest squared length of a point of a `lineSimplex` is not negative. -/
theorem lineSimplex_getMaxLengthSquareOfAPoint_nonneg (s : List (SupportPoint K)) :
    0 ≤ (lineSimplex : Simplex K (List (SupportPoint K))).getMaxLengthSquareOfAPoint s := by
  have h : ∀ (l : List (SupportPoint K)) (m : K),
      m ≤ l.foldl (fun m p => max m p.w.lengthSquare) m := by
    intro l
    induction l with
    | nil => intro m; exact le_refl m
    | cons p l ih =>
      intro m
      exact le_trans (le_max_left m _) (ih (max m p.w.lengthSquare))
  exact h s 0

/-- No `assert` fails in `computePenetrationDepthForEnlargedObjects`: it has none. -/
theorem computePenetrationDepthForEnlargedObjects_ne_assertFailed (e : Env K S) (fuel : Nat)
    (v : Vector3 K) (wd wdx : World K S) :
    computePenetrationDepthForEnlargedObjects e fuel v wd ≠ some (Result.assertFailed wdx) := by
  intro h
  unfold computePenetrationDepthForEnlargedObjects at h
  split at h
  · simp at h
  · rename_i wd1 hl
    obtain ⟨st, wdh, _, hr, _⟩ := doWhile_some _ _ _ _ _ _ hl
    rw [enlargedIteration_eq] at hr
    cases hb : enlargedBranchOf e st <;> rw [hb] at hr <;> cases hr
  · cases h
  · simp [callEPA] at h

/-- The square root `sqrtRatPos` is positive on the positive rationals. -/
theorem sqrtRatPos_pos (q : ℚ) (h : 0 < q) : 0 < sqrtRatPos q := by
  unfold sqrtRatPos
  split_ifs with hc
  · have h0 : 0 ≤ sqrtCandidate q := by
      unfold sqrtCandidate
      positivity
    rcases h0.lt_or_eq with h1 | h1
    · exact h1
    · rw [← h1] at hc
      simp at hc
      linarith
  · linarith

/-- The vector `(OBJECT_MARGIN / dist) * v` has length `OBJECT_MARGIN` when `dist` is `|v|`. -/
theorem Vector3.lengthSquare_smul_div (m l : K) (v : Vector3 K) (hl : 0 < l)
    (hv : l ^ 2 = v.lengthSquare) : (Vector3.smul (m / l) v).lengthSquare = m ^ 2 := by
  rw [Vector3.lengthSquare_smul, ← hv]
  field_simp

/-- With `DECIMAL_LARGEST` at least `(2 * OBJECT_MARGIN)^2` and a square root that is exact
where it is positive, the depth `margin - sqrt(DECIMAL_LARGEST)` is not positive. -/
theorem margin_sub_sqrt_DECIMAL_LARGEST (e : Env K S)
    (hsqrt : ∀ x, 0 < e.sqrt x → e.sqrt x ^ 2 = x)
    (hD : (2 * e.OBJECT_MARGIN) ^ 2 ≤ e.DECIMAL_LARGEST)
    (hs : 0 < e.sqrt e.DECIMAL_LARGEST) : margin e - e.sqrt e.DECIMAL_LARGEST ≤ 0 := by
  by_contra h
  have h1 : e.sqrt e.DECIMAL_LARGEST < 2 * e.OBJECT_MARGIN := by
    unfold margin at h
    linarith
  have h2 := hsqrt _ hs
  nlinarith

/-- A pass of the loop of `testCollision` that returns true from the duplicate/relative-error
block or the affine-dependence block of a call with `DECIMAL_LARGEST >= (2 * OBJECT_MARGIN)^2`
is not the first: `distSquare` is `|v|^2` at its start. -/
theorem testCollision_contact_distSquare (e : Env K S)
    (hsqrt : ∀ x, 0 < e.sqrt x → e.sqrt x ^ 2 = x)
    (hD : (2 * e.OBJECT_MARGIN) ^ 2 ≤ e.DECIMAL_LARGEST)
    (a : Vector3 K) (wd0 : World K S) (st : GJKState K S) (wd wd1 : World K S)
    (hl : LoopHead (testCollisionIteration e) (loopCondition e) (initialState e a) wd0 st wd)
    (hr : testCollisionIteration e st wd = Step.returned true wd1)
    (hb : branchOf e st ≠ Branch.stall) :
    st.distSquare = st.v.lengthSquare := by
  rcases testCollision_loopHead_distSquare e _ _ _ _ hl with h | h
  · exfalso
    obtain ⟨hf, h1, h2, _⟩ := testCollisionIteration_returned_true e st wd wd1 hr
    have hd : finalDistSquare e st (branchOf e st) = e.DECIMAL_LARGEST := by
      rw [h] at hb ⊢
      cases hbr : branchOf e (initialState e a)
      case stall => exact absurd hbr hb
      all_goals rfl
    rw [hd] at h1 h2
    exact absurd (margin_sub_sqrt_DECIMAL_LARGEST e hsqrt hD h1) (not_le.mpr h2)
  · exact h

/-- A first pass of the loop of `testCollision` that returns true went through the stall
block, `DECIMAL_LARGEST` being at least `(2 * OBJECT_MARGIN)^2`: in the other blocks the depth
is `margin - sqrt(DECIMAL_LARGEST)`. -/
theorem testCollisionIteration_initialState_returned_true (e : Env K S)
    (hsqrt : ∀ x, 0 < e.sqrt x → e.sqrt x ^ 2 = x)
    (hD : (2 * e.OBJECT_MARGIN) ^ 2 ≤ e.DECIMAL_LARGEST)
    (a : Vector3 K) (wd wd1 : World K S)
    (hr : testCollisionIteration e (initialState e a) wd = Step.returned true wd1) :
    branchOf e (initialState e a) = Branch.stall := by
  by_contra hb
  obtain ⟨hf, h1, h2, _⟩ := testCollisionIteration_returned_true e _ wd wd1 hr
  have hd : finalDistSquare e (initialState e a) (branchOf e (initialState e a)) =
      e.DECIMAL_LARGEST := by
    cases hbr : branchOf e (initialState e a)
    case stall => exact absurd hbr hb
    all_goals rfl
  rw [hd] at h1 h2
  exact absurd (margin_sub_sqrt_DECIMAL_LARGEST e hsqrt hD h1) (not_le.mpr h2)

/-- A pass of the loop of `testCollision` that returns true from another block than the stall
block comes after a pass that reached the loop condition, `DECIMAL_LARGEST` being at least
`(2 * OBJECT_MARGIN)^2`. -/
theorem testCollision_contact_predecessor (e : Env K S)
    (hsqrt : ∀ x, 0 < e.sqrt x → e.sqrt x ^ 2 = x)
    (hD : (2 * e.OBJECT_MARGIN) ^ 2 ≤ e.DECIMAL_LARGEST)
    (a : Vector3 K) (wd0 : World K S) (st : GJKState K S) (wd wd1 : World K S)
    (hl : LoopHead (testCollisionIteration e) (loopCondition e) (initialState e a) wd0 st wd)
    (hr : testCollisionIteration e st wd = Step.returned true wd1)
    (hb : branchOf e st ≠ Branch.stall) :
    ∃ stp wdp,
      LoopHead (testCollisionIteration e) (loopCondition e) (initialState e a) wd0 stp wdp ∧
      testCollisionIteration e stp wdp = Step.next st wd := by
  cases hl with
  | first => exact absurd (testCollisionIteration_initialState_returned_true e hsqrt hD a _ _ hr) hb
  | again hp hn _ => exact ⟨_, _, hp, hn⟩

/-- What the first pass of the loop of `testCollision` returns, the call returns, the margin
being positive. -/
theorem testCollision_first_pass (e : Env K S) (fuel : Nat) (wd wd1 : World K S) (b : Bool)
    (hm : 0 < margin e)
    (hr : testCollisionIteration e (initialState e wd.cachedSeparatingAxis)
      wd.getCachedSeparatingAxis.2 = Step.returned b wd1) :
    testCollision e (fuel + 1) wd = some (Result.returned b wd1) := by
  have h1 : doWhile (testCollisionIteration e) (loopCondition e) 1
      (initialState e wd.cachedSeparatingAxis) wd.getCachedSeparatingAxis.2 =
      some (Step.returned b wd1) := by
    rw [doWhile_one _ _ _ _ (by rw [hr]; simp), hr]
  have h2 := doWhile_mono _ _ 1 fuel _ _ _ h1
  rw [Nat.add_comm 1 fuel] at h2
  unfold testCollision
  rw [if_neg (not_not.mpr hm)]
  change (match testCollisionLoop e (fuel + 1) (initialState e wd.cachedSeparatingAxis)
      wd.getCachedSeparatingAxis.2 with
      | none => none
      | some (Step.assertFailed wd1) => some (Result.assertFailed wd1)
      | some (Step.returned b wd1) => some (Result.returned b wd1)
      | some (Step.next st wd1) =>
        computePenetrationDepthForEnlargedObjects e (fuel + 1) st.v wd1) = _
  unfold testCollisionLoop
  rw [h2]

/-- The closest points `pA` and `pB`, with `pA - pB = v`, each moved by `(m / l) * v` towards
the other, differ by `(1 - 2 * m / l) * v`. -/
theorem Vector3.sub_displaced (pA pB v : Vector3 K) (m l : K) (hv : pA - pB = v) :
    (pA - Vector3.smul (m / l) v) - (pB + Vector3.smul (m / l) v) =
      Vector3.smul (1 - 2 * m / l) v := by
  have hx := congrArg Vector3.x hv
  have hy := congrArg Vector3.y hv
  have hz := congrArg Vector3.z hv
  simp only [Vector3.sub_x, Vector3.sub_y, Vector3.sub_z] at hx hy hz
  ext
  · simp only [Vector3.sub_x, Vector3.add_x, Vector3.smul_x]
    rw [← hx]; ring
  · simp only [Vector3.sub_y, Vector3.add_y, Vector3.smul_y]
    rw [← hy]; ring
  · simp only [Vector3.sub_z, Vector3.add_z, Vector3.smul_z]
    rw [← hz]; ring

/-- The normal `R1 * (-v/|v|)` rotated back by the transpose of the orthonormal `R1`. -/
theorem Matrix3x3.getTranspose_mulVec_mulVec (m : Matrix3x3 K) (hm : m.IsOrthonormal)
    (u : Vector3 K) : m.getTranspose.mulVec (m.mulVec u) = u := by
  rw [Matrix3x3.mulVec_mulVec, hm.1, Matrix3x3.identity_mulVec]

/-- The vector `(1 - 2 * m / l) * v` is `(2 * m - l) * (-(1 / l) * v)`. -/
theorem Vector3.smul_depth_unit (v : Vector3 K) (m l : K) (hl : l ≠ 0) :
    Vector3.smul (1 - 2 * m / l) v =
      Vector3.smul (2 * m - l) (-(Vector3.smul (1 / l) v)) := by
  ext
  · simp only [Vector3.smul_x, Vector3.neg_x]
    field_simp
    ring
  · simp only [Vector3.smul_y, Vector3.neg_y]
    field_simp
    ring
  · simp only [Vector3.smul_z, Vector3.neg_z]
    field_simp
    ring

/-- A loop whose passes to the loop condition strictly decrease `distSquare` within a finite set
`F` of values ends after at most `F.card + 1` passes: from a state at the top of the body it
ends within any number of passes above the number of values of `F` below its `distSquare`. -/
theorem doWhile_bounded_from (body : GJKState K S → World K S → Step K S)
    (cond : GJKState K S → Prop) [DecidablePred cond] (F : Finset K)
    (st0 : GJKState K S) (wd0 : World K S)
    (hdec : ∀ st wd st1 wd1, LoopHead body cond st0 wd0 st wd →
      body st wd = Step.next st1 wd1 → st1.distSquare < st.distSquare ∧ st1.distSquare ∈ F)
    (n : Nat) (st : GJKState K S) (wd : World K S) (hl : LoopHead body cond st0 wd0 st wd)
    (hn : (F.filter (fun x => x < st.distSquare)).card < n) :
    ∃ r, doWhile body cond n st wd = some r := by
  induction n generalizing st wd with
  | zero => exact absurd hn (Nat.not_lt_zero _)
  | succ n ih =>
    rw [doWhile]
    split
    · rename_i st1 wd1 hb
      by_cases hc : cond st1
      · simp only [hc, if_true]
        obtain ⟨hlt, hF⟩ := hdec st wd st1 wd1 hl hb
        refine ih st1 wd1 (LoopHead.again hl hb hc) ?_
        have hss : F.filter (fun x => x < st1.distSquare) ⊂
            F.filter (fun x => x < st.distSquare) := by
          rw [Finset.ssubset_iff_of_subset]
          · exact ⟨st1.distSquare, Finset.mem_filter.mpr ⟨hF, hlt⟩,
              fun h => lt_irrefl _ (Finset.mem_filter.mp h).2⟩
          · intro x hx
            obtain ⟨h1, h2⟩ := Finset.mem_filter.mp hx
            exact Finset.mem_filter.mpr ⟨h1, lt_trans h2 hlt⟩
        have := Finset.card_lt_card hss
        omega
      · simp only [hc, if_false]
        exact ⟨_, rfl⟩
    · exact ⟨_, rfl⟩

/-- A loop whose passes to the loop condition strictly decrease `distSquare` within a finite set
`F` of values ends after at most `F.card + 1` passes. -/
theorem doWhile_bounded (body : GJKState K S → World K S → Step K S)
    (cond : GJKState K S → Prop) [DecidablePred cond] (F : Finset K)
    (st0 : GJKState K S) (wd0 : World K S)
    (hdec : ∀ st wd st1 wd1, LoopHead body cond st0 wd0 st wd →
      body st wd = Step.next st1 wd1 → st1.distSquare < st.distSquare ∧ st1.distSquare ∈ F) :
    ∃ r, doWhile body cond (F.card + 1) st0 wd0 = some r :=
  doWhile_bounded_from body cond F st0 wd0 hdec _ st0 wd0 LoopHead.first
    (Nat.lt_succ_of_le (Finset.card_le_card (Finset.filter_subset _ _)))

/-- After the first pass, `distSquare` is `|v|^2` at the top of the body of the loop of
`computePenetrationDepthForEnlargedObjects`. -/
theorem enlargedLoop_loopHead_distSquare (e : Env K S) (st0 st : GJKState K S)
    (wd0 wd : World K S)
    (hl : LoopHead (enlargedIteration e) (loopCondition e) st0 wd0 st wd) :
    st = st0 ∨ st.distSquare = st.v.lengthSquare := by
  cases hl with
  | first => exact Or.inl rfl
  | again _ hb _ =>
    obtain ⟨_, rfl, _⟩ := enlargedIteration_next e _ _ _ _ hb
    exact Or.inr rfl

/-- A pass of the loop of `testCollision` that reaches the loop condition passed the test of
line 203: `prevDistSquare - distSquare > MACHINE_EPSILON * prevDistSquare`, with `distSquare`
the squared length of the new `v`. -/
theorem testCollisionIteration_next_progress (e : Env K S) (st st1 : GJKState K S)
    (wd wd1 : World K S) (h : testCollisionIteration e st wd = Step.next st1 wd1) :
    e.MACHINE_EPSILON * st.distSquare < st.distSquare - st1.distSquare ∧
      st1.distSquare = st1.v.lengthSquare := by
  obtain ⟨hb, rfl, _⟩ := testCollisionIteration_next e _ _ _ _ h
  have h1 := (branchOf_stall_iff e st (Or.inr hb)).not.mp (by rw [hb]; simp)
  exact ⟨not_le.mp h1, rfl⟩

/-- A pass of the loop of `computePenetrationDepthForEnlargedObjects` that reaches the loop
condition passed the test of line 294. -/
theorem enlargedIteration_next_progress (e : Env K S) (st st1 : GJKState K S)
    (wd wd1 : World K S) (h : enlargedIteration e st wd = Step.next st1 wd1) :
    e.MACHINE_EPSILON * st.distSquare < st.distSquare - st1.distSquare ∧
      st1.distSquare = st1.v.lengthSquare := by
  obtain ⟨hb, rfl, _⟩ := enlargedIteration_next e _ _ _ _ h
  exact ⟨not_le.mp (enlargedBranchOf_proceed e st hb), rfl⟩

/-- More fuel does not change what `computePenetrationDepthForEnlargedObjects` ends in. -/
theorem computePenetrationDepthForEnlargedObjects_mono (e : Env K S) (fuel extra : Nat)
    (v : Vector3 K) (wd : World K S) (r : Result K S)
    (h : computePenetrationDepthForEnlargedObjects e fuel v wd = some r) :
    computePenetrationDepthForEnlargedObjects e (fuel + extra) v wd = some r := by
  unfold computePenetrationDepthForEnlargedObjects enlargedLoop at h ⊢
  cases hl : doWhile (enlargedIteration e) (loopCondition e) fuel (initialState e v) wd with
  | none => rw [hl] at h; simp at h
  | some s =>
    rw [doWhile_mono _ _ fuel extra _ _ _ hl]
    rw [hl] at h
    exact h

/-- More fuel does not change what `testCollision` ends in. -/
theorem testCollision_mono (e : Env K S) (fuel extra : Nat) (wd : World K S) (r : Result K S)
    (h : testCollision e fuel wd = some r) : testCollision e (fuel + extra) wd = some r := by
  unfold testCollision testCollisionLoop at h ⊢
  by_cases hm : 0 < margin e
  · simp only [hm, not_true_eq_false, if_false] at h ⊢
    cases hl : doWhile (testCollisionIteration e) (loopCondition e) fuel
        (initialState e wd.getCachedSeparatingAxis.1) wd.getCachedSeparatingAxis.2 with
    | none => rw [hl] at h; simp at h
    | some s =>
      rw [doWhile_mono _ _ fuel extra _ _ _ hl]
      rw [hl] at h
      cases s with
      | assertFailed wd1 => exact h
      | returned b wd1 => exact h
      | next st wd1 =>
        exact computePenetrationDepthForEnlargedObjects_mono e fuel extra _ _ _ h
  · simp only [hm, not_false_eq_true, if_true] at h ⊢
    exact h

/-- A `return` of a pass from a state at the top of the body of the loop of `testCollision` is
what `testCollision` returns for every fuel from some number on, the margin being positive. -/
theorem testCollision_of_loopHead_mono (e : Env K S) (wd wdh wd1 : World K S)
    (st : GJKState K S) (b : Bool) (hm : 0 < margin e)
    (hl : LoopHead (testCollisionIteration e) (loopCondition e)
      (initialState e wd.cachedSeparatingAxis) wd.getCachedSeparatingAxis.2 st wdh)
    (hr : testCollisionIteration e st wdh = Step.returned b wd1) :
    ∃ fuel, ∀ extra, testCollision e (fuel + extra) wd = some (Result.returned b wd1) := by
  obtain ⟨fuel, hf⟩ := testCollision_of_loopHead e wd wdh wd1 st b hm hl hr
  exact ⟨fuel, fun extra => testCollision_mono e fuel extra wd _ hf⟩

/-- A pass of the loop of `testCollision` from a state at the top of the body that reaches the
loop condition has decreased `distSquare`, for `MACHINE_EPSILON >= 0` and
`DECIMAL_LARGEST >= 0`. -/
theorem testCollision_loopHead_decrease (e : Env K S) (hε : 0 ≤ e.MACHINE_EPSILON)
    (hD : 0 ≤ e.DECIMAL_LARGEST) (a : Vector3 K) (wd0 : World K S) (st st1 : GJKState K S)
    (wd wd1 : World K S)
    (hl : LoopHead (testCollisionIteration e) (loopCondition e) (initialState e a) wd0 st wd)
    (hb : testCollisionIteration e st wd = Step.next st1 wd1) :
    st1.distSquare < st.distSquare ∧ st1.distSquare = st1.v.lengthSquare := by
  obtain ⟨h1, h2⟩ := testCollisionIteration_next_progress e st st1 wd wd1 hb
  have h0 : 0 ≤ st.distSquare := by
    rcases testCollision_loopHead_distSquare e _ _ _ _ hl with h | h
    · rw [h]; exact hD
    · rw [h]; exact Vector3.lengthSquare_nonneg _
  have := mul_nonneg hε h0
  exact ⟨by linarith, h2⟩

/-- A pass of the loop of `computePenetrationDepthForEnlargedObjects` from a state at the top of
the body that reaches the loop condition has decreased `distSquare`, for
`MACHINE_EPSILON >= 0` and `DECIMAL_LARGEST >= 0`. -/
theorem enlargedLoop_loopHead_decrease (e : Env K S) (hε : 0 ≤ e.MACHINE_EPSILON)
    (hD : 0 ≤ e.DECIMAL_LARGEST) (a : Vector3 K) (wd0 : World K S) (st st1 : GJKState K S)
    (wd wd1 : World K S)
    (hl : LoopHead (enlargedIteration e) (loopCondition e) (initialState e a) wd0 st wd)
    (hb : enlargedIteration e st wd = Step.next st1 wd1) :
    st1.distSquare < st.distSquare ∧ st1.distSquare = st1.v.lengthSquare := by
  obtain ⟨h1, h2⟩ := enlargedIteration_next_progress e st st1 wd wd1 hb
  have h0 : 0 ≤ st.distSquare := by
    rcases enlargedLoop_loopHead_distSquare e _ _ _ _ hl with h | h
    · rw [h]; exact hD
    · rw [h]; exact Vector3.lengthSquare_nonneg _
  have := mul_nonneg hε h0
  exact ⟨by linarith, h2⟩

end Loops

/-! ## The claims -/

section Claims

variable {K S : Type} [LinearOrderedField K]

/-- C1. Whenever `testCollision` returns true with a contact it built itself (the log of the run
holds no call of the EPA algorithm), the output slot holds a contact whose `penetrationDepth` is
strictly positive; and a pass of its loop that reaches one of the four finalization blocks with a
computed depth `2 * OBJECT_MARGIN - sqrt(distSquare) <= 0` returns false, and so does the call. -/
theorem testCollision_penetrationDepth_pos (e : Env K S) :
    (∀ (fuel : Nat) (wd wd1 : World K S),
      testCollision e fuel wd = some (Result.returned true wd1) →
      (∀ ev ∈ wd1.log, ev.isEPACall = false) →
      ∃ c, wd1.contactInfo = some c ∧ 0 < c.penetrationDepth) ∧
    (∀ (wd wdh : World K S) (st : GJKState K S), 0 < 2 * e.OBJECT_MARGIN →
      LoopHead (testCollisionIteration e) (loopCondition e)
        (initialState e wd.cachedSeparatingAxis) wd.getCachedSeparatingAxis.2 st wdh →
      (branchOf e st).isFinalization = true →
      2 * e.OBJECT_MARGIN - e.sqrt (finalDistSquare e st (branchOf e st)) ≤ 0 →
      testCollisionIteration e st wdh =
          Step.returned false (wdh.logged (simplexEvents e st (branchOf e st))) ∧
        ∃ fuel, testCollision e fuel wd =
          some (Result.returned false (wdh.logged (simplexEvents e st (branchOf e st))))) := by
  constructor
  · intro fuel wd wd1 h hlog
    obtain ⟨st, wdh, _, hr⟩ := testCollision_own_contact e fuel wd wd1 h hlog
    obtain ⟨_, _, hpos, rfl⟩ := testCollisionIteration_returned_true e st wdh wd1 hr
    exact ⟨_, rfl, hpos⟩
  · intro wd wdh st hm hl hb hd
    have hi : testCollisionIteration e st wdh =
        Step.returned false (wdh.logged (simplexEvents e st (branchOf e st))) := by
      rw [testCollisionIteration_finalization e st wdh hb]
      exact finalizationStep_rejected e _ _ _ _ hm hd
    exact ⟨hi, testCollision_of_loopHead e wd wdh _ st false hm hl hi⟩

/-- C1, on the cubes: at distance `21/20` the call returns true with a contact of depth `3/100`;
at distance `27/25`, a gap equal to the margin, the second pass finds the support point again,
computes the depth `0` and the call returns false. -/
theorem testCollision_penetrationDepth_pos_witness :
    (∃ c, contactWorld.contactInfo = some c ∧ 0 < c.penetrationDepth) ∧
    ∃ fuel wd1, testCollision (cubesEnv (27 / 25)) fuel world0 =
      some (Result.returned false wd1) :=
  ⟨(testCollision_penetrationDepth_pos (cubesEnv (21 / 20))).1 5 world0 contactWorld
      (by decide!) (by decide!),
    let ⟨fuel, h⟩ := ((testCollision_penetrationDepth_pos (cubesEnv (27 / 25))).2 world0
      ⟨⟨-1, 0, 0⟩, 0, none, firstPassLog (27 / 25)⟩ (secondPassState (27 / 25)) (by decide!)
      (LoopHead.again LoopHead.first (by decide!) (by decide!)) (by decide!) (by decide!)).2
    ⟨fuel, _, h⟩⟩

/-- C2. Soundness of the separation early-out: in a pass with `vDotw > 0` and
`vDotw^2 > distSquare * (2 * OBJECT_MARGIN)^2`, if `w` is a support point of `D` in direction `-v`
(`v.x >= v.w` for every `x` in `D`) and `|v|^2 <= distSquare`, then every point `x` of `D` has
`|x|^2 > (2 * OBJECT_MARGIN)^2`, hence `|x| > 2 * OBJECT_MARGIN` for the square root of `|x|^2`;
and the pass caches `v` and returns false. So does the call: when the pass is one of a call of
`testCollision` (it starts in a state at the top of the loop body of the call on the world
`wd0`) and the margin is positive, as asserted at line 84, `testCollision` returns false with `v`
cached, for every fuel from some number on. -/
theorem testCollision_separation_sound (e : Env K S) (st : GJKState K S) (wd : World K S)
    (D : Set (Vector3 K))
    (hpos : 0 < st.v.dot (suppW e 0 st.v))
    (hsep : st.distSquare * (2 * e.OBJECT_MARGIN) ^ 2 < (st.v.dot (suppW e 0 st.v)) ^ 2)
    (hsupp : ∀ x ∈ D, st.v.dot (suppW e 0 st.v) ≤ st.v.dot x)
    (hv : st.v.lengthSquare ≤ st.distSquare) :
    (∀ x ∈ D, (2 * e.OBJECT_MARGIN) ^ 2 < x.lengthSquare) ∧
    (∀ x ∈ D, 0 ≤ e.sqrt x.lengthSquare → e.sqrt x.lengthSquare ^ 2 = x.lengthSquare →
      2 * e.OBJECT_MARGIN < x.length e.sqrt) ∧
    testCollisionIteration e st wd = Step.returned false (wd.setCachedSeparatingAxis st.v) ∧
    (∀ wd0 : World K S, 0 < 2 * e.OBJECT_MARGIN →
      LoopHead (testCollisionIteration e) (loopCondition e)
        (initialState e wd0.cachedSeparatingAxis) wd0.getCachedSeparatingAxis.2 st wd →
      ∃ fuel, ∀ extra, testCollision e (fuel + extra) wd0 =
        some (Result.returned false (wd.setCachedSeparatingAxis st.v))) := by
  have hfar : ∀ x ∈ D, (2 * e.OBJECT_MARGIN) ^ 2 < x.lengthSquare := by
    intro x hx
    have h1 := hsupp x hx
    have h2 := Vector3.dot_sq_le st.v x
    have h3 : (st.v.dot (suppW e 0 st.v)) ^ 2 ≤ (st.v.dot x) ^ 2 :=
      pow_le_pow_left₀ hpos.le h1 2
    have h4 : 0 ≤ (2 * e.OBJECT_MARGIN) ^ 2 := sq_nonneg _
    have h5 : st.v.lengthSquare * (2 * e.OBJECT_MARGIN) ^ 2 < st.v.lengthSquare * x.lengthSquare :=
      calc st.v.lengthSquare * (2 * e.OBJECT_MARGIN) ^ 2
          ≤ st.distSquare * (2 * e.OBJECT_MARGIN) ^ 2 := mul_le_mul_of_nonneg_right hv h4
        _ < (st.v.dot (suppW e 0 st.v)) ^ 2 := hsep
        _ ≤ (st.v.dot x) ^ 2 := h3
        _ ≤ st.v.lengthSquare * x.lengthSquare := h2
    have h6 : 0 ≤ st.v.lengthSquare := Vector3.lengthSquare_nonneg _
    exact lt_of_mul_lt_mul_left h5 h6
  have hret : testCollisionIteration e st wd =
      Step.returned false (wd.setCachedSeparatingAxis st.v) := by
    rw [testCollisionIteration_eq]
    have hb : branchOf e st = Branch.separation := by
      unfold branchOf
      rw [if_pos]
      refine ⟨hpos, ?_⟩
      unfold marginSquare margin
      nlinarith
    rw [hb]
  refine ⟨hfar, ?_, hret, ?_⟩
  · intro x hx h0 hs
    have h := hfar x hx
    rw [← hs] at h
    unfold Vector3.length
    by_contra hc
    have hle : e.sqrt x.lengthSquare ≤ 2 * e.OBJECT_MARGIN := not_lt.mp hc
    exact absurd (pow_le_pow_left₀ h0 hle 2) (not_le.mpr h)
  · intro wd0 hm hl
    exact testCollision_of_loopHead_mono e wd0 wd _ st false hm hl hret

/-- The support point of the cubes at distance `2` along the cached axis. -/
theorem cubes_suppW : suppW (cubesEnv 2) 0 (secondPassState 2).v = ⟨-1, 0, 0⟩ := by decide!

/-- C2, on the cubes at distance `2`: in the second pass `v = w = (-1, 0, 0)` and
`distSquare = 1`, the early-out fires, every point of the difference of the cubes is farther
than `2 * OBJECT_MARGIN = 2/25` from the origin, and the call returns false with `v` cached. -/
theorem testCollision_separation_sound_witness :
    (∀ x ∈ cubesDifference, (2 * (1 / 25 : ℚ)) ^ 2 < x.lengthSquare) ∧
    testCollisionIteration (cubesEnv 2) (secondPassState 2)
        ⟨⟨-1, 0, 0⟩, 0, none, firstPassLog 2⟩ =
      Step.returned false
        ((⟨⟨-1, 0, 0⟩, 0, none, firstPassLog 2⟩ :
          World ℚ (List (SupportPoint ℚ))).setCachedSeparatingAxis (secondPassState 2).v) ∧
    ∃ fuel, ∀ extra, testCollision (cubesEnv 2) (fuel + extra) world0 =
      some (Result.returned false
        ((⟨⟨-1, 0, 0⟩, 0, none, firstPassLog 2⟩ :
          World ℚ (List (SupportPoint ℚ))).setCachedSeparatingAxis (secondPassState 2).v)) :=
  have h := testCollision_separation_sound (cubesEnv 2) (secondPassState 2)
    ⟨⟨-1, 0, 0⟩, 0, none, firstPassLog 2⟩
    cubesDifference (by decide!) (by decide!)
    (by
      intro x hx
      rw [cubes_suppW]
      obtain ⟨_, h2, _⟩ := hx
      simp only [secondPassState, facingPoint, Vector3.dot]
      linarith)
    (by decide!)
  ⟨h.1, h.2.2.1, h.2.2.2 world0 (by decide!)
    (LoopHead.again LoopHead.first (by decide!) (by decide!))⟩

/-- C3. Every contact `testCollision` builds itself has
`penetrationDepth = 2 * OBJECT_MARGIN - sqrt(distSquare)` for the `distSquare` current in the
finalization block: the value the pass started with (carried from the previous pass) in the
duplicate/relative-error, affine-dependence and failed-closest-point blocks, and the value
`v.lengthSquare()` recomputed after `backupClosestPointInSimplex` in the stall block. -/
theorem testCollision_penetrationDepth_eq (e : Env K S) (fuel : Nat) (wd wd1 : World K S)
    (h : testCollision e fuel wd = some (Result.returned true wd1))
    (hlog : ∀ ev ∈ wd1.log, ev.isEPACall = false) :
    ∃ st wdh c,
      LoopHead (testCollisionIteration e) (loopCondition e)
        (initialState e wd.cachedSeparatingAxis) wd.getCachedSeparatingAxis.2 st wdh ∧
      testCollisionIteration e st wdh = Step.returned true wd1 ∧
      wd1.contactInfo = some c ∧
      (((branchOf e st = Branch.marginOverlap ∨ branchOf e st = Branch.affinelyDependent ∨
            branchOf e st = Branch.closestPointFailed) ∧
          c.penetrationDepth = 2 * e.OBJECT_MARGIN - e.sqrt st.distSquare) ∨
        (branchOf e st = Branch.stall ∧
          c.penetrationDepth =
            2 * e.OBJECT_MARGIN - e.sqrt (backupPoint e st).1.lengthSquare)) := by
  obtain ⟨st, wdh, hl, hr⟩ := testCollision_own_contact e fuel wd wd1 h hlog
  obtain ⟨hb, _, _, hw⟩ := testCollisionIteration_returned_true e st wdh wd1 hr
  refine ⟨st, wdh, _, hl, hr, by rw [hw]; rfl, ?_⟩
  cases hbr : branchOf e st <;> rw [hbr] at hb <;>
    simp_all [Branch.isFinalization, contactOf, finalDistSquare, margin]

/-- C3, on the cubes at distance `21/20`: the contact is built in the duplicate block of the
second pass, with the depth `2/25 - sqrt(1/400) = 3/100`. -/
theorem testCollision_penetrationDepth_eq_witness :
    ∃ st wdh c,
      LoopHead (testCollisionIteration (cubesEnv (21 / 20))) (loopCondition (cubesEnv (21 / 20)))
        (initialState (cubesEnv (21 / 20)) world0.cachedSeparatingAxis)
        world0.getCachedSeparatingAxis.2 st wdh ∧
      testCollisionIteration (cubesEnv (21 / 20)) st wdh = Step.returned true contactWorld ∧
      contactWorld.contactInfo = some c ∧
      (((branchOf (cubesEnv (21 / 20)) st = Branch.marginOverlap ∨
            branchOf (cubesEnv (21 / 20)) st = Branch.affinelyDependent ∨
            branchOf (cubesEnv (21 / 20)) st = Branch.closestPointFailed) ∧
          c.penetrationDepth =
            2 * (cubesEnv (21 / 20)).OBJECT_MARGIN - (cubesEnv (21 / 20)).sqrt st.distSquare) ∨
        (branchOf (cubesEnv (21 / 20)) st = Branch.stall ∧
          c.penetrationDepth = 2 * (cubesEnv (21 / 20)).OBJECT_MARGIN -
            (cubesEnv (21 / 20)).sqrt (backupPoint (cubesEnv (21 / 20)) st).1.lengthSquare)) :=
  testCollision_penetrationDepth_eq (cubesEnv (21 / 20)) 5 world0 contactWorld (by decide!)
    (by decide!)

/-- C4. Every contact `testCollision` returns from its own finalization blocks has the normal
`R1 * (-v/|v|)`, with `R1` the rotation matrix of `transform1` and `v` the direction current in
the block; with `R1` orthonormal (and `|v|`, the square root of `|v|^2`, not zero) its squared
length, hence its length, is exactly 1. In a call, `v` is not zero when the square root is exact
where it is positive, `2 * OBJECT_MARGIN <= sqrt(DECIMAL_LARGEST)`, and a failed
`computeClosestPoint` leaves `v` as it is: every contact the call builds itself then has a normal
of length 1. -/
theorem testCollision_normal_unit (e : Env K S) :
    (∀ (fuel : Nat) (wd wd1 : World K S),
      testCollision e fuel wd = some (Result.returned true wd1) →
      (∀ ev ∈ wd1.log, ev.isEPACall = false) →
      ∃ st wdh c,
        LoopHead (testCollisionIteration e) (loopCondition e)
          (initialState e wd.cachedSeparatingAxis) wd.getCachedSeparatingAxis.2 st wdh ∧
        testCollisionIteration e st wdh = Step.returned true wd1 ∧
        wd1.contactInfo = some c ∧
        c.normal = e.transform1.orientation.mulVec
          (-(Vector3.smul (1 / (finalV e st (branchOf e st)).length e.sqrt)
            (finalV e st (branchOf e st))))) ∧
    (∀ (st : GJKState K S) (wd wd1 : World K S) (c : ContactInfo K),
      testCollisionIteration e st wd = Step.returned true wd1 →
      wd1.contactInfo = some c →
      e.transform1.orientation.IsOrthonormal →
      (finalV e st (branchOf e st)).lengthSquare ≠ 0 →
      e.sqrt (finalV e st (branchOf e st)).lengthSquare ^ 2 =
        (finalV e st (branchOf e st)).lengthSquare →
      c.normal.lengthSquare = 1 ∧ (e.sqrt 1 = 1 → c.normal.length e.sqrt = 1)) ∧
    (∀ (fuel : Nat) (wd wd1 : World K S),
      e.transform1.orientation.IsOrthonormal →
      (∀ x, 0 < e.sqrt x → e.sqrt x ^ 2 = x) →
      2 * e.OBJECT_MARGIN ≤ e.sqrt e.DECIMAL_LARGEST →
      (∀ s v, (e.simplex.computeClosestPoint s v).1 = false →
        (e.simplex.computeClosestPoint s v).2.1 = v) →
      testCollision e fuel wd = some (Result.returned true wd1) →
      (∀ ev ∈ wd1.log, ev.isEPACall = false) →
      ∃ c, wd1.contactInfo = some c ∧ c.normal.lengthSquare = 1) := by
  have unit : ∀ (st : GJKState K S) (wd wd1 : World K S) (c : ContactInfo K),
      testCollisionIteration e st wd = Step.returned true wd1 →
      wd1.contactInfo = some c →
      e.transform1.orientation.IsOrthonormal →
      (finalV e st (branchOf e st)).lengthSquare ≠ 0 →
      e.sqrt (finalV e st (branchOf e st)).lengthSquare ^ 2 =
        (finalV e st (branchOf e st)).lengthSquare →
      c.normal.lengthSquare = 1 := by
    intro st wd wd1 c hr hc hR hv hs
    obtain ⟨_, _, _, hw⟩ := testCollisionIteration_returned_true e st wd wd1 hr
    rw [hw] at hc
    simp only [World.newContactInfo, Option.some.injEq] at hc
    subst hc
    simp only [contactOf, Vector3.getUnit, Vector3.length]
    rw [Matrix3x3.lengthSquare_mulVec _ hR, Vector3.lengthSquare_neg,
      Vector3.lengthSquare_smul, one_div, inv_pow, hs]
    exact inv_mul_cancel₀ hv
  refine ⟨?_, ?_, ?_⟩
  · intro fuel wd wd1 h hlog
    obtain ⟨st, wdh, hl, hr⟩ := testCollision_own_contact e fuel wd wd1 h hlog
    obtain ⟨_, _, _, hw⟩ := testCollisionIteration_returned_true e st wdh wd1 hr
    exact ⟨st, wdh, _, hl, hr, by rw [hw]; rfl, rfl⟩
  · intro st wd wd1 c hr hc hR hv hs
    have h1 := unit st wd wd1 c hr hc hR hv hs
    refine ⟨h1, fun h2 => ?_⟩
    unfold Vector3.length
    rw [h1, h2]
  · intro fuel wd wd1 hR hsqrt hlarge hfail h hlog
    obtain ⟨st, wdh, hl, hr⟩ := testCollision_own_contact e fuel wd wd1 h hlog
    obtain ⟨hfin, hdist, hdepth, hw⟩ := testCollisionIteration_returned_true e st wdh wd1 hr
    refine ⟨_, by rw [hw]; rfl, ?_⟩
    have hex := hsqrt _ hdist
    have hposd : 0 < finalDistSquare e st (branchOf e st) := by
      rw [← hex]
      exact pow_pos hdist 2
    have key : (finalV e st (branchOf e st)).lengthSquare =
        finalDistSquare e st (branchOf e st) := by
      by_cases hstall : branchOf e st = Branch.stall
      · rw [hstall]
        rfl
      · have hd : finalDistSquare e st (branchOf e st) = st.distSquare := by
          cases hb : branchOf e st <;> simp_all [finalDistSquare]
        rcases testCollision_loopHead_distSquare e _ _ _ _ hl with h0 | h1
        · exfalso
          rw [hd, h0] at hdepth
          simp only [initialState, margin] at hdepth
          linarith
        · have hv : finalV e st (branchOf e st) = st.v := by
            cases hb : branchOf e st <;> simp only [finalV]
            · have hcf : (closestPoint e st).1 = false := by
                unfold branchOf at hb
                split_ifs at hb with c1 c2 c3 c4 c5
                exact c4
              exact hfail _ _ hcf
            · exact absurd hb hstall
          rw [hv, hd, h1]
    apply unit st wdh wd1 _ hr (by rw [hw]; rfl) hR
    · rw [key]
      exact ne_of_gt hposd
    · rw [key]
      exact hex

/-- The square root on the rationals is exact wherever it is positive. -/
theorem sqrtRat_exact (x : ℚ) (h : 0 < sqrtRat x) : sqrtRat x ^ 2 = x := by
  unfold sqrtRat at h ⊢
  split_ifs at h ⊢ with hc
  · rw [pow_two, hc]
  · exact absurd h (lt_irrefl 0)

/-- The line simplex leaves `v` as it is when `computeClosestPoint` fails. -/
theorem lineSimplex_computeClosestPoint_fail (s : List (SupportPoint ℚ)) (v : Vector3 ℚ)
    (h : ((lineSimplex : Simplex ℚ _).computeClosestPoint s v).1 = false) :
    ((lineSimplex : Simplex ℚ _).computeClosestPoint s v).2.1 = v := by
  unfold lineSimplex at h ⊢
  match s with
  | [] => rfl
  | [a] => simp at h
  | [a, b] =>
    simp only [] at h ⊢
    split_ifs at h ⊢
    all_goals simp_all
  | _ :: _ :: _ :: _ => rfl

/-- C4, on the cubes at distance `21/20`: the contact of the second pass has `v = (-1/20, 0, 0)`,
`|v| = 1/20` and the unit normal `(1, 0, 0)`. -/
theorem testCollision_normal_unit_witness :
    (∃ st wdh c,
        LoopHead (testCollisionIteration (cubesEnv (21 / 20))) (loopCondition (cubesEnv (21 / 20)))
          (initialState (cubesEnv (21 / 20)) world0.cachedSeparatingAxis)
          world0.getCachedSeparatingAxis.2 st wdh ∧
        testCollisionIteration (cubesEnv (21 / 20)) st wdh = Step.returned true contactWorld ∧
        contactWorld.contactInfo = some c ∧
        c.normal = (cubesEnv (21 / 20)).transform1.orientation.mulVec
          (-(Vector3.smul (1 / (finalV (cubesEnv (21 / 20)) st
              (branchOf (cubesEnv (21 / 20)) st)).length (cubesEnv (21 / 20)).sqrt)
            (finalV (cubesEnv (21 / 20)) st (branchOf (cubesEnv (21 / 20)) st))))) ∧
    (Vector3.lengthSquare (⟨1, 0, 0⟩ : Vector3 ℚ) = 1 ∧
      (sqrtRat 1 = 1 → Vector3.length sqrtRat (⟨1, 0, 0⟩ : Vector3 ℚ) = 1)) ∧
    (∃ c, contactWorld.contactInfo = some c ∧ c.normal.lengthSquare = 1) :=
  ⟨(testCollision_normal_unit (cubesEnv (21 / 20))).1 5 world0 contactWorld (by decide!)
      (by decide!),
    (testCollision_normal_unit (cubesEnv (21 / 20))).2.1 (secondPassState (21 / 20))
      ⟨⟨-1, 0, 0⟩, 0, none, firstPassLog (21 / 20)⟩ contactWorld
      ⟨⟨1, 0, 0⟩, 3 / 100, ⟨27 / 50, 1 / 2, 1 / 2⟩, ⟨-27 / 50, 1 / 2, 1 / 2⟩⟩
      (by decide!) (by decide!) ⟨by decide!, by decide!⟩ (by decide!) (by decide!),
    (testCollision_normal_unit (cubesEnv (21 / 20))).2.2 5 world0 contactWorld
      ⟨by decide!, by decide!⟩ sqrtRat_exact (by decide!)
      (fun s v h => lineSimplex_computeClosestPoint_fail s v h) (by decide!) (by decide!)⟩

/-- C5. Every contact `testCollision` builds itself, with `(pA0, pB0)` the closest points
`simplex.computeClosestPointsOfAandB` gives in the finalization block and
`dist = sqrt(distSquare)`: the returned `pA` is `pA0 - (OBJECT_MARGIN / dist) * v`, and the
returned `pB` is in the local space of body 2, `body2Tobody1` applied to it being
`pB0 + (OBJECT_MARGIN / dist) * v`, both orientations being orthonormal. -/
theorem testCollision_contact_points (e : Env K S)
    (hR1 : e.transform1.orientation.IsOrthonormal)
    (hR2 : e.transform2.orientation.IsOrthonormal) (fuel : Nat) (wd wd1 : World K S)
    (h : testCollision e fuel wd = some (Result.returned true wd1))
    (hlog : ∀ ev ∈ wd1.log, ev.isEPACall = false) :
    ∃ st wdh c,
      LoopHead (testCollisionIteration e) (loopCondition e)
        (initialState e wd.cachedSeparatingAxis) wd.getCachedSeparatingAxis.2 st wdh ∧
      testCollisionIteration e st wdh = Step.returned true wd1 ∧
      wd1.contactInfo = some c ∧
      c.pA = (e.simplex.computeClosestPointsOfAandB (finalSimplex e st (branchOf e st))).1 -
        Vector3.smul (e.OBJECT_MARGIN / e.sqrt (finalDistSquare e st (branchOf e st)))
          (finalV e st (branchOf e st)) ∧
      (body2Tobody1 e).apply c.pB =
        (e.simplex.computeClosestPointsOfAandB (finalSimplex e st (branchOf e st))).2 +
        Vector3.smul (e.OBJECT_MARGIN / e.sqrt (finalDistSquare e st (branchOf e st)))
          (finalV e st (branchOf e st)) := by
  obtain ⟨st, wdh, hl, hr⟩ := testCollision_own_contact e fuel wd wd1 h hlog
  obtain ⟨_, _, _, hw⟩ := testCollisionIteration_returned_true e st wdh wd1 hr
  refine ⟨st, wdh, _, hl, hr, by rw [hw]; rfl, rfl, ?_⟩
  simp only [contactOf]
  exact Transform.apply_inverse_apply _ (Matrix3x3.IsOrthonormal.transpose_mul hR1 hR2) _

/-- C5, on the cubes at distance `21/20`: the closest points `(1/2, 1/2, 1/2)` and
`(11/20, 1/2, 1/2)` are moved by `1/25` along the x axis, towards each other. -/
theorem testCollision_contact_points_witness :
    ∃ st wdh c,
      LoopHead (testCollisionIteration (cubesEnv (21 / 20))) (loopCondition (cubesEnv (21 / 20)))
        (initialState (cubesEnv (21 / 20)) world0.cachedSeparatingAxis)
        world0.getCachedSeparatingAxis.2 st wdh ∧
      testCollisionIteration (cubesEnv (21 / 20)) st wdh = Step.returned true contactWorld ∧
      contactWorld.contactInfo = some c ∧
      c.pA = ((cubesEnv (21 / 20)).simplex.computeClosestPointsOfAandB
          (finalSimplex (cubesEnv (21 / 20)) st (branchOf (cubesEnv (21 / 20)) st))).1 -
        Vector3.smul ((cubesEnv (21 / 20)).OBJECT_MARGIN / (cubesEnv (21 / 20)).sqrt
            (finalDistSquare (cubesEnv (21 / 20)) st (branchOf (cubesEnv (21 / 20)) st)))
          (finalV (cubesEnv (21 / 20)) st (branchOf (cubesEnv (21 / 20)) st)) ∧
      (body2Tobody1 (cubesEnv (21 / 20))).apply c.pB =
        ((cubesEnv (21 / 20)).simplex.computeClosestPointsOfAandB
          (finalSimplex (cubesEnv (21 / 20)) st (branchOf (cubesEnv (21 / 20)) st))).2 +
        Vector3.smul ((cubesEnv (21 / 20)).OBJECT_MARGIN / (cubesEnv (21 / 20)).sqrt
            (finalDistSquare (cubesEnv (21 / 20)) st (branchOf (cubesEnv (21 / 20)) st)))
          (finalV (cubesEnv (21 / 20)) st (branchOf (cubesEnv (21 / 20)) st)) :=
  testCollision_contact_points (cubesEnv (21 / 20)) ⟨by decide!, by decide!⟩
    ⟨by decide!, by decide!⟩ 5 world0 contactWorld (by decide!) (by decide!)

/-- C6. In every pass of either loop, `w = suppA - suppB` is a support point in direction `-v` of
the Minkowski difference `A - T(B)` in the local space of body 1, `T = body2Tobody1`: it is a
point of the difference and `v.(a - T b) >= v.w` for every `a` in `A` and `b` in `B`. The
preconditions: `getLocalSupportPoint` (with the margin `mg` of the loop, `0` in `testCollision`
and `OBJECT_MARGIN` for the enlarged shapes) is a support function of each shape, and both
orientations are orthonormal, so that `rotateToBody2` is the transpose of the rotation of `T`. -/
theorem suppW_is_support_point (e : Env K S) (mg : K) (v : Vector3 K) (A B : Set (Vector3 K))
    (hAmem : ∀ d, e.collider1.getLocalSupportPoint d mg ∈ A)
    (hBmem : ∀ d, e.collider2.getLocalSupportPoint d mg ∈ B)
    (hA : ∀ d : Vector3 K, ∀ a ∈ A, d.dot a ≤ d.dot (e.collider1.getLocalSupportPoint d mg))
    (hB : ∀ d : Vector3 K, ∀ b ∈ B, d.dot b ≤ d.dot (e.collider2.getLocalSupportPoint d mg))
    (_hR1 : e.transform1.orientation.IsOrthonormal)
    (_hR2 : e.transform2.orientation.IsOrthonormal) :
    (rotateToBody2 e = (body2Tobody1 e).orientation.getTranspose) ∧
    (∃ a ∈ A, ∃ b ∈ B, suppW e mg v = a - (body2Tobody1 e).apply b) ∧
    (∀ a ∈ A, ∀ b ∈ B, v.dot (suppW e mg v) ≤ v.dot (a - (body2Tobody1 e).apply b)) := by
  have hrot : rotateToBody2 e = (body2Tobody1 e).orientation.getTranspose := by
    simp only [rotateToBody2, body2Tobody1, Transform.mul, Transform.inverse,
      Matrix3x3.getTranspose_mul, Matrix3x3.getTranspose_getTranspose]
  refine ⟨hrot, ⟨_, hAmem _, _, hBmem _, rfl⟩, ?_⟩
  intro a ha b hb
  have h1 := hA (-v) a ha
  have h2 := hB ((rotateToBody2 e).mulVec v) b hb
  rw [hrot] at h2
  have h3 : ∀ y : Vector3 K, ((body2Tobody1 e).orientation.getTranspose.mulVec v).dot y =
      v.dot ((body2Tobody1 e).orientation.mulVec y) := by
    intro y
    simp only [Matrix3x3.mulVec, Matrix3x3.getTranspose, Vector3.dot]
    ring
  rw [h3, h3] at h2
  simp only [suppW, suppA, suppB, Transform.apply, hrot]
  simp only [Vector3.dot, Vector3.sub_x, Vector3.sub_y, Vector3.sub_z, Vector3.add_x,
    Vector3.add_y, Vector3.add_z, Vector3.neg_x, Vector3.neg_y, Vector3.neg_z] at h1 h2 ⊢
  linarith

/-- C6, on the cubes at distance `2`: `w` is a support point of the difference of the two unit
cubes in the direction of the cached axis `(-1, 0, 0)`. -/
theorem suppW_is_support_point_witness :
    (rotateToBody2 (cubesEnv 2) = (body2Tobody1 (cubesEnv 2)).orientation.getTranspose) ∧
    (∃ a ∈ boxSet (⟨1 / 2, 1 / 2, 1 / 2⟩ : Vector3 ℚ) 0,
      ∃ b ∈ boxSet (⟨1 / 2, 1 / 2, 1 / 2⟩ : Vector3 ℚ) 0,
        suppW (cubesEnv 2) 0 ⟨-1, 0, 0⟩ = a - (body2Tobody1 (cubesEnv 2)).apply b) ∧
    (∀ a ∈ boxSet (⟨1 / 2, 1 / 2, 1 / 2⟩ : Vector3 ℚ) 0,
      ∀ b ∈ boxSet (⟨1 / 2, 1 / 2, 1 / 2⟩ : Vector3 ℚ) 0,
        Vector3.dot ⟨-1, 0, 0⟩ (suppW (cubesEnv 2) 0 ⟨-1, 0, 0⟩) ≤
          Vector3.dot ⟨-1, 0, 0⟩ (a - (body2Tobody1 (cubesEnv 2)).apply b)) :=
  suppW_is_support_point (cubesEnv 2) 0 ⟨-1, 0, 0⟩ _ _
    (boxCollider_mem _ 0 (by norm_num) (by norm_num) (by norm_num))
    (boxCollider_mem _ 0 (by norm_num) (by norm_num) (by norm_num))
    (fun d a ha => boxCollider_support _ 0 d a ha)
    (fun d a ha => boxCollider_support _ 0 d a ha)
    ⟨by decide!, by decide!⟩ ⟨by decide!, by decide!⟩

/-- C7. Simplex capacity: for a count `size` of the points of a simplex that is 0 on the new
simplex, at which `isFull()` is true exactly at 4, that `addPoint` raises by at most one and that
`computeClosestPoint` and `backupClosestPointInSimplex` do not raise, every call logged by a
complete run of `testCollision`, and of `computePenetrationDepthForEnlargedObjects`, keeps the
simplex within its capacity: `addPoint` is only called on a simplex that is not full, and no
simplex before or after a call, or handed to the EPA algorithm, holds more than 4 points. -/
theorem simplex_capacity (e : Env K S) (size : S → Nat)
    (h0 : size e.simplex.create = 0)
    (hfull : ∀ s, e.simplex.isFull s = true ↔ size s = 4)
    (hadd : ∀ s w a b, size (e.simplex.addPoint s w a b) ≤ size s + 1)
    (hclosest : ∀ s v, size (e.simplex.computeClosestPoint s v).2.2 ≤ size s)
    (hbackup : ∀ s v, size (e.simplex.backupClosestPointInSimplex s v).2 ≤ size s) :
    (∀ (fuel : Nat) (wd : World K S) (r : Result K S), testCollision e fuel wd = some r →
      ∃ evs, r.world.log = wd.log ++ evs ∧
        ∀ ev ∈ evs, ev.WithinCapacity e.simplex.isFull size) ∧
    (∀ (fuel : Nat) (v : Vector3 K) (wd : World K S) (r : Result K S),
      computePenetrationDepthForEnlargedObjects e fuel v wd = some r →
      ∃ evs, r.world.log = wd.log ++ evs ∧
        ∀ ev ∈ evs, ev.WithinCapacity e.simplex.isFull size) :=
  ⟨testCollision_capacity e size h0 hfull hadd hclosest hbackup,
    computePenetrationDepthForEnlargedObjects_capacity e size h0 hfull hadd hclosest⟩

/-- The line simplex never holds more points after `computeClosestPoint`. -/
theorem lineSimplex_computeClosestPoint_length (s : List (SupportPoint ℚ)) (v : Vector3 ℚ) :
    ((lineSimplex : Simplex ℚ _).computeClosestPoint s v).2.2.length ≤ s.length := by
  unfold lineSimplex
  match s with
  | [] => simp
  | [a] => simp
  | [a, b] =>
    simp only []
    split_ifs <;> simp
  | _ :: _ :: _ :: _ => simp

/-- The line simplex holds the same points after `backupClosestPointInSimplex`. -/
theorem lineSimplex_backup_length (s : List (SupportPoint ℚ)) (v : Vector3 ℚ) :
    ((lineSimplex : Simplex ℚ _).backupClosestPointInSimplex s v).2.length ≤ s.length := by
  unfold lineSimplex
  match s with
  | [] => simp
  | [a] => simp
  | [a, b] => simp
  | _ :: _ :: _ :: _ => simp

/-- C7, on the cubes at distance `1/2`, which overlap: the run goes through both loops, each
holding at most two points, and every logged call keeps the line simplex within its capacity. -/
theorem simplex_capacity_witness :
    ∃ r evs, testCollision (cubesEnv (1 / 2)) 5 world0 = some r ∧
      r.world.log = world0.log ++ evs ∧
      ∀ ev ∈ evs, ev.WithinCapacity (cubesEnv (1 / 2)).simplex.isFull List.length := by
  obtain ⟨r, hr⟩ := Option.isSome_iff_exists.mp
    (by decide! : (testCollision (cubesEnv (1 / 2)) 5 world0).isSome = true)
  obtain ⟨evs, h1, h2⟩ := (simplex_capacity (cubesEnv (1 / 2)) List.length rfl
    (fun s => by simp [cubesEnv, lineSimplex])
    (fun s w a b => by simp [cubesEnv, lineSimplex])
    (fun s v => lineSimplex_computeClosestPoint_length s v)
    (fun s v => lineSimplex_backup_length s v)).1 5 world0 r hr
  exact ⟨r, evs, hr, h1, h2⟩

/-- C10, as stated, fails: on the two unit cubes at distance `1/2` (a true overlap),
`computePenetrationDepthForEnlargedObjects`, seeded with the `v = (0, 0, 0)` that `testCollision`
leaves its loop with, hands the EPA algorithm a simplex of two points, for which `isFull()` is
false: its loop ended because the closest point of the segment is the origin. -/
theorem epa_simplex_not_full :
    (computePenetrationDepthForEnlargedObjects (cubesEnv (1 / 2)) 5 ⟨0, 0, 0⟩ world0).map
        (fun r => r.world.log.filterMap Event.epaSimplex) = some [overlapSimplex] ∧
      (testCollision (cubesEnv (1 / 2)) 5 world0).map
        (fun r => r.world.log.filterMap Event.epaSimplex) = some [overlapSimplex] ∧
      (cubesEnv (1 / 2)).simplex.isFull overlapSimplex = false ∧
      overlapSimplex.length = 2 := by
  decide!

/-- C10, amended. Whenever `computePenetrationDepthForEnlargedObjects` hands a simplex to the
EPA algorithm, its loop has been left by the loop condition: the simplex is full, or the squared
length of the `v` handed over with it, the last closest point, is at most
`MACHINE_EPSILON * simplex.getMaxLengthSquareOfAPoint()`. -/
theorem epa_simplex_full_or_origin (e : Env K S) (fuel : Nat) (v : Vector3 K) (wd : World K S)
    (r : Result K S) (h : computePenetrationDepthForEnlargedObjects e fuel v wd = some r) :
    ∃ evs, r.world.log = wd.log ++ evs ∧
      ∀ s v1, Event.computePenetrationDepthAndContactPoints s v1 ∈ evs →
        e.simplex.isFull s = true ∨
          v1.lengthSquare ≤ e.MACHINE_EPSILON * e.simplex.getMaxLengthSquareOfAPoint s := by
  rcases computePenetrationDepthForEnlargedObjects_cases e fuel v wd r h with
    ⟨evs, h1, h2, _⟩ | ⟨st, evs, h1, hn, hd, rfl⟩
  · refine ⟨evs, by rw [h1]; rfl, ?_⟩
    intro s v1 hmem
    have := h2 _ hmem
    simp [Event.isEPACall] at this
  · refine ⟨evs ++ [Event.computePenetrationDepthAndContactPoints st.simplex st.v],
      by simp [callEPA, Result.world, World.logged], ?_⟩
    intro s v1 hmem
    rcases List.mem_append.mp hmem with h3 | h3
    · have := h1 _ h3
      simp [Event.isEPACall] at this
    · simp only [List.mem_singleton, Event.computePenetrationDepthAndContactPoints.injEq] at h3
      obtain ⟨rfl, rfl⟩ := h3
      unfold loopCondition at hn
      rw [← hd]
      by_cases hf : e.simplex.isFull st.simplex = true
      · exact Or.inl hf
      · right
        have hf2 : e.simplex.isFull st.simplex = false := by simpa using hf
        by_contra hlt
        exact hn ⟨hf2, not_le.mp hlt⟩

/-- C10 amended, on the cubes at distance `1/2`: the simplex handed to the EPA algorithm is not
full, and the `v` handed over with it is the origin. -/
theorem epa_simplex_full_or_origin_witness :
    ∃ r evs, computePenetrationDepthForEnlargedObjects (cubesEnv (1 / 2)) 5 ⟨0, 0, 0⟩ world0 =
        some r ∧ r.world.log = world0.log ++ evs ∧
      ∀ s v1, Event.computePenetrationDepthAndContactPoints s v1 ∈ evs →
        (cubesEnv (1 / 2)).simplex.isFull s = true ∨
          v1.lengthSquare ≤ (cubesEnv (1 / 2)).MACHINE_EPSILON *
            (cubesEnv (1 / 2)).simplex.getMaxLengthSquareOfAPoint s := by
  obtain ⟨r, hr⟩ := Option.isSome_iff_exists.mp
    (by decide! :
      (computePenetrationDepthForEnlargedObjects (cubesEnv (1 / 2)) 5 ⟨0, 0, 0⟩ world0).isSome =
        true)
  obtain ⟨evs, h1, h2⟩ := epa_simplex_full_or_origin (cubesEnv (1 / 2)) 5 ⟨0, 0, 0⟩ world0 r hr
  exact ⟨r, evs, hr, h1, h2⟩

/-- C11. Cached separating axis frame, for a call of `testCollision` that returns: the log gains
the read of the cached axis first, which seeds `v`, and no other read; the axis is written exactly
when the last pass of the loop takes the separation early-out, once, as the last call, with the
`v` of that pass, which is then the cached axis; on every other end of the call (a finalization
block that builds or rejects a contact, the enlarged-object path) no call writes the axis and the
cached axis is as it was. -/
theorem cachedSeparatingAxis_frame (e : Env K S) (fuel : Nat) (wd wd1 : World K S) (b : Bool)
    (h : testCollision e fuel wd = some (Result.returned b wd1)) :
    ∃ st wdh rest,
      LoopHead (testCollisionIteration e) (loopCondition e)
        (initialState e wd.cachedSeparatingAxis) wd.getCachedSeparatingAxis.2 st wdh ∧
      (∀ st1 wdx, testCollisionIteration e st wdh = Step.next st1 wdx → ¬ loopCondition e st1) ∧
      wd1.log = wd.log ++ Event.getCachedSeparatingAxis :: rest ∧
      (branchOf e st = Branch.separation →
        b = false ∧ wd1.cachedSeparatingAxis = st.v ∧
        ∃ calls, rest = calls ++ [Event.setCachedSeparatingAxis st.v] ∧
          ∀ ev ∈ calls, ev.isAxisAccess = false) ∧
      (branchOf e st ≠ Branch.separation →
        wd1.cachedSeparatingAxis = wd.cachedSeparatingAxis ∧
        ∀ ev ∈ rest, ev.isAxisAccess = false) := by
  obtain ⟨_, h1 | h2⟩ := testCollision_returned e fuel wd wd1 b h
  · obtain ⟨st, wdh, hl, hr⟩ := h1
    obtain ⟨evs, rfl, hevs⟩ := testCollision_loopHead_frame e _ _ _ _ hl
    have hacc : ∀ ev ∈ evs, ev.isAxisAccess = false := fun ev hev =>
      (Event.isSimplexCall_other ev (hevs ev hev)).1
    have hacc2 : ∀ ev ∈ simplexEvents e st (branchOf e st), ev.isAxisAccess = false :=
      fun ev hev => (Event.isSimplexCall_other ev (simplexEvents_simplexCall e st _ ev hev)).1
    rcases testCollisionIteration_returned e st _ wd1 b hr with
      ⟨hb, rfl, rfl⟩ | ⟨hfin, ⟨rfl, rfl⟩ | ⟨rfl, rfl⟩⟩
    · refine ⟨st, _, evs ++ [Event.setCachedSeparatingAxis st.v], hl, ?_, ?_, ?_, ?_⟩
      · intro st1 wdx hn
        rw [hr] at hn
        simp at hn
      · simp [World.setCachedSeparatingAxis, World.logged, World.getCachedSeparatingAxis,
          World.record]
      · intro _
        exact ⟨rfl, rfl, evs, rfl, hacc⟩
      · intro hne
        exact absurd hb hne
    · refine ⟨st, _, evs ++ simplexEvents e st (branchOf e st), hl, ?_, ?_, ?_, ?_⟩
      · intro st1 wdx hn
        rw [hr] at hn
        simp at hn
      · simp [World.logged, World.getCachedSeparatingAxis, World.record]
      · intro hb
        rw [hb] at hfin
        simp [Branch.isFinalization] at hfin
      · intro _
        refine ⟨rfl, ?_⟩
        intro ev hev
        rcases List.mem_append.mp hev with h3 | h3
        · exact hacc ev h3
        · exact hacc2 ev h3
    · refine ⟨st, _, evs ++ simplexEvents e st (branchOf e st) ++ [Event.allocateObject], hl,
        ?_, ?_, ?_, ?_⟩
      · intro st1 wdx hn
        rw [hr] at hn
        simp at hn
      · simp [World.logged, World.getCachedSeparatingAxis, World.record, World.newContactInfo]
      · intro hb
        rw [hb] at hfin
        simp [Branch.isFinalization] at hfin
      · intro _
        refine ⟨rfl, ?_⟩
        intro ev hev
        rcases List.mem_append.mp hev with h3 | h3
        · rcases List.mem_append.mp h3 with h4 | h4
          · exact hacc ev h4
          · exact hacc2 ev h4
        · rw [List.mem_singleton.mp h3]
          rfl
  · obtain ⟨st, wdh, st1, wdx, hl, hn, hc, hp⟩ := h2
    obtain ⟨evs, rfl, hevs⟩ := testCollision_loopHead_frame e _ _ _ _ hl
    obtain ⟨hb, rfl, rfl⟩ := testCollisionIteration_next e _ _ _ _ hn
    obtain ⟨evs3, hevs3, hw⟩ := computePenetrationDepthForEnlargedObjects_world e fuel _ _ _ _ hp
    have hacc : ∀ ev ∈ evs ++ simplexEvents e st Branch.proceed ++ evs3,
        ev.isAxisAccess = false := by
      intro ev hev
      rcases List.mem_append.mp hev with h3 | h3
      · rcases List.mem_append.mp h3 with h4 | h4
        · exact (Event.isSimplexCall_other ev (hevs ev h4)).1
        · exact (Event.isSimplexCall_other ev (simplexEvents_simplexCall e st _ ev h4)).1
      · exact (Event.isSimplexCall_other ev (hevs3 ev h3)).1
    have hfinal : ∀ st2 wd2, testCollisionIteration e st
        ((wd.getCachedSeparatingAxis.2).logged evs) = Step.next st2 wd2 →
        ¬ loopCondition e st2 := by
      intro st2 wd2 hn2
      rw [hn] at hn2
      simp only [Step.next.injEq] at hn2
      rw [← hn2.1]
      exact hc
    rcases hw with ⟨rfl, rfl⟩ | ⟨st2, hepa⟩
    · refine ⟨st, _, evs ++ simplexEvents e st Branch.proceed ++ evs3, hl, hfinal, ?_, ?_, ?_⟩
      · simp [World.logged, World.getCachedSeparatingAxis, World.record]
      · intro hb2
        rw [hb] at hb2
        simp at hb2
      · intro _
        exact ⟨rfl, hacc⟩
    · simp only [callEPA, Result.returned.injEq] at hepa
      obtain ⟨_, rfl⟩ := hepa
      refine ⟨st, _, evs ++ simplexEvents e st Branch.proceed ++ evs3 ++
        [Event.computePenetrationDepthAndContactPoints st2.simplex st2.v], hl, hfinal, ?_, ?_, ?_⟩
      · simp [World.logged, World.getCachedSeparatingAxis, World.record]
      · intro hb2
        rw [hb] at hb2
        simp at hb2
      · intro _
        refine ⟨rfl, ?_⟩
        intro ev hev
        rcases List.mem_append.mp hev with h3 | h3
        · exact hacc ev h3
        · rw [List.mem_singleton.mp h3]
          rfl


/-- C11, on the cubes at distance `3`: the second pass takes the separation early-out with
`v = (-2, 0, 0)`, which replaces the cached axis `(-1, 0, 0)`. -/
theorem cachedSeparatingAxis_frame_witness :
    (testCollision (cubesEnv 3) 5 world0).map (fun r => r.world.cachedSeparatingAxis) =
      some ⟨-2, 0, 0⟩ ∧
    ∃ wd1 st wdh rest,
      testCollision (cubesEnv 3) 5 world0 = some (Result.returned false wd1) ∧
      LoopHead (testCollisionIteration (cubesEnv 3)) (loopCondition (cubesEnv 3))
        (initialState (cubesEnv 3) world0.cachedSeparatingAxis)
        world0.getCachedSeparatingAxis.2 st wdh ∧
      (∀ st1 wdx, testCollisionIteration (cubesEnv 3) st wdh = Step.next st1 wdx →
        ¬ loopCondition (cubesEnv 3) st1) ∧
      wd1.log = world0.log ++ Event.getCachedSeparatingAxis :: rest ∧
      (branchOf (cubesEnv 3) st = Branch.separation →
        false = false ∧ wd1.cachedSeparatingAxis = st.v ∧
        ∃ calls, rest = calls ++ [Event.setCachedSeparatingAxis st.v] ∧
          ∀ ev ∈ calls, ev.isAxisAccess = false) ∧
      (branchOf (cubesEnv 3) st ≠ Branch.separation →
        wd1.cachedSeparatingAxis = world0.cachedSeparatingAxis ∧
        ∀ ev ∈ rest, ev.isAxisAccess = false) := by
  refine ⟨by decide!, ?_⟩
  obtain ⟨wd1, h⟩ := Result.exists_of_returnedValue
    (testCollision (cubesEnv 3) 5 world0) false (by decide!)
  obtain ⟨st, wdh, rest, h1⟩ := cachedSeparatingAxis_frame (cubesEnv 3) 5 world0 wd1 false h
  exact ⟨wd1, st, wdh, rest, h, h1⟩

/-- C12. Pool and output slot, for a call of `testCollision` that returns without calling the EPA
algorithm: when it returns true, the pool counter is one higher, the slot holds a contact and the
allocation is the last call logged, the only one; when it returns false, the pool counter and
the slot are as they were and no allocation is logged. -/
theorem contactInfo_allocation (e : Env K S) (fuel : Nat) (wd wd1 : World K S) (b : Bool)
    (h : testCollision e fuel wd = some (Result.returned b wd1))
    (hlog : ∀ ev ∈ wd1.log, ev.isEPACall = false) :
    (b = true →
      wd1.allocatedObjects = wd.allocatedObjects + 1 ∧ (∃ c, wd1.contactInfo = some c) ∧
      ∃ calls, wd1.log = wd.log ++ calls ++ [Event.allocateObject] ∧
        ∀ ev ∈ calls, ev ≠ Event.allocateObject) ∧
    (b = false →
      wd1.allocatedObjects = wd.allocatedObjects ∧ wd1.contactInfo = wd.contactInfo ∧
      ∃ calls, wd1.log = wd.log ++ calls ∧ ∀ ev ∈ calls, ev ≠ Event.allocateObject) := by
  obtain ⟨st, wdh, evs, hl, rfl, hevs, hcase⟩ := testCollision_run e fuel wd wd1 b h
  have hna : ∀ ev ∈ Event.getCachedSeparatingAxis :: evs ++
      simplexEvents e st (branchOf e st), ev ≠ Event.allocateObject := by
    intro ev hev
    rcases List.mem_append.mp hev with h3 | h3
    · rcases List.mem_cons.mp h3 with h4 | h4
      · rw [h4]; simp
      · exact (Event.isSimplexCall_other ev (hevs ev h4)).2.2
    · exact (Event.isSimplexCall_other ev (simplexEvents_simplexCall e st _ ev h3)).2.2
  rcases hcase with ⟨_, ⟨_, rfl, rfl⟩ | ⟨_, ⟨rfl, rfl⟩ | ⟨rfl, rfl⟩⟩⟩ |
    ⟨st1, wdx, evs3, _, _, hb, _, rfl, _, hevs3, ⟨rfl, rfl⟩ | ⟨st2, hepa⟩⟩
  · refine ⟨by simp, fun _ => ⟨rfl, rfl,
      Event.getCachedSeparatingAxis :: evs ++ [Event.setCachedSeparatingAxis st.v], ?_, ?_⟩⟩
    · simp [World.setCachedSeparatingAxis, World.logged, World.getCachedSeparatingAxis,
        World.record]
    · intro ev hev
      rcases List.mem_append.mp hev with h3 | h3
      · exact hna ev (List.mem_append_left _ h3)
      · rw [List.mem_singleton.mp h3]; simp
  · refine ⟨by simp, fun _ => ⟨rfl, rfl, _, ?_, hna⟩⟩
    simp [World.logged, World.getCachedSeparatingAxis, World.record]
  · refine ⟨fun _ => ⟨rfl, ⟨_, rfl⟩, _, ?_, hna⟩, by simp⟩
    simp [World.logged, World.getCachedSeparatingAxis, World.record, World.newContactInfo]
  · rw [hb] at hna
    refine ⟨by simp, fun _ => ⟨rfl, rfl, Event.getCachedSeparatingAxis :: evs ++
      simplexEvents e st Branch.proceed ++ evs3, ?_, ?_⟩⟩
    · simp [World.logged, World.getCachedSeparatingAxis, World.record]
    · intro ev hev
      rcases List.mem_append.mp hev with h3 | h3
      · exact hna ev h3
      · exact (Event.isSimplexCall_other ev (hevs3 ev h3)).2.2
  · exfalso
    simp only [callEPA, Result.returned.injEq] at hepa
    obtain ⟨_, rfl⟩ := hepa
    have := hlog (Event.computePenetrationDepthAndContactPoints st2.simplex st2.v) (by simp)
    simp [Event.isEPACall] at this


/-- C12, on the cubes: at distance `21/20` the call returns true with one allocation; at distance
`27/25` it returns false with none. -/
theorem contactInfo_allocation_witness :
    (contactWorld.allocatedObjects = world0.allocatedObjects + 1 ∧
      (∃ c, contactWorld.contactInfo = some c) ∧
      ∃ calls, contactWorld.log = world0.log ++ calls ++ [Event.allocateObject] ∧
        ∀ ev ∈ calls, ev ≠ Event.allocateObject) ∧
    ∃ wd1, testCollision (cubesEnv (27 / 25)) 5 world0 = some (Result.returned false wd1) ∧
      wd1.allocatedObjects = world0.allocatedObjects ∧ wd1.contactInfo = world0.contactInfo ∧
      ∃ calls, wd1.log = world0.log ++ calls ∧ ∀ ev ∈ calls, ev ≠ Event.allocateObject := by
  refine ⟨(contactInfo_allocation (cubesEnv (21 / 20)) 5 world0 contactWorld true (by decide!)
    (by decide!)).1 rfl, ?_⟩
  obtain ⟨wd1, h⟩ := Result.exists_of_returnedValue
    (testCollision (cubesEnv (27 / 25)) 5 world0) false (by decide!)
  have hlog : (testCollision (cubesEnv (27 / 25)) 5 world0).map
      (fun r => r.world.log.all fun ev => !ev.isEPACall) = some true := by decide!
  rw [h] at hlog
  simp only [Option.map_some', Result.world, Option.some.injEq, List.all_eq_true,
    Bool.not_eq_true'] at hlog
  exact ⟨wd1, h, (contactInfo_allocation (cubesEnv (27 / 25)) 5 world0 wd1 false h hlog).2 rfl⟩

/-- C13. Ordering of the checks in the loop of `testCollision`. In every pass, any
`addPoint(w, suppA, suppB)` logged is on the simplex the pass started with, for the support point
`w` of the pass, after `isPointInSimplex(w)` returned false and the relative-error test
`distSquare - vDotw <= distSquare * REL_ERROR_SQUARE` failed; so no run of the loop ever adds a
point that `isPointInSimplex` finds in the simplex. And when either test succeeds (the
separation test having failed), the pass is the finalization block of line 117 on the `v`,
`distSquare` and simplex it started with: it does not reach the loop condition, hence does not
escalate, and logs no call on the simplex, nothing but the allocation of a contact. -/
theorem addPoint_after_checks (e : Env K S) :
    (∀ (st : GJKState K S) (wd : World K S),
      ∃ evs, (testCollisionIteration e st wd).world.log = wd.log ++ evs ∧
        ∀ before w a c after, Event.addPoint before w a c after ∈ evs →
          before = st.simplex ∧ w = suppW e 0 st.v ∧
          e.simplex.isPointInSimplex before w = false ∧
          ¬ st.distSquare - st.v.dot w ≤ st.distSquare * e.REL_ERROR_SQUARE) ∧
    (∀ (fuel : Nat) (st0 : GJKState K S) (wd0 : World K S) (r : Step K S),
      testCollisionLoop e fuel st0 wd0 = some r →
      ∃ evs, r.world.log = wd0.log ++ evs ∧
        ∀ before w a c after, Event.addPoint before w a c after ∈ evs →
          e.simplex.isPointInSimplex before w = false) ∧
    (∀ (st : GJKState K S) (wd : World K S),
      ¬ (0 < st.v.dot (suppW e 0 st.v) ∧
        st.distSquare * marginSquare e <
          st.v.dot (suppW e 0 st.v) * st.v.dot (suppW e 0 st.v)) →
      (e.simplex.isPointInSimplex st.simplex (suppW e 0 st.v) = true ∨
        st.distSquare - st.v.dot (suppW e 0 st.v) ≤ st.distSquare * e.REL_ERROR_SQUARE) →
      testCollisionIteration e st wd = finalizationStep e st.v st.distSquare st.simplex wd ∧
      (∀ st1 wd1, testCollisionIteration e st wd ≠ Step.next st1 wd1) ∧
      ∃ tail, (testCollisionIteration e st wd).world.log = wd.log ++ tail ∧
        ∀ ev ∈ tail, ev = Event.allocateObject) := by
  have pass : ∀ (st : GJKState K S) (wd : World K S),
      ∃ evs, (testCollisionIteration e st wd).world.log = wd.log ++ evs ∧
        ∀ before w a c after, Event.addPoint before w a c after ∈ evs →
          before = st.simplex ∧ w = suppW e 0 st.v ∧
          e.simplex.isPointInSimplex before w = false ∧
          ¬ st.distSquare - st.v.dot w ≤ st.distSquare * e.REL_ERROR_SQUARE := by
    intro st wd
    obtain ⟨tail, hlog, htail⟩ := testCollisionIteration_log e st wd
    refine ⟨_, hlog, ?_⟩
    intro before w a c after hmem
    rcases List.mem_append.mp hmem with h1 | h1
    · obtain ⟨hb1, hb2, rfl, rfl⟩ := simplexEvents_addPoint e st _ _ _ _ _ _ h1
      obtain ⟨h3, h4⟩ := branchOf_past_checks e st hb1 hb2
      exact ⟨rfl, rfl, h3, h4⟩
    · rcases htail _ h1 with h2 | h2 <;> simp at h2
  refine ⟨pass, ?_, ?_⟩
  · intro fuel st0 wd0 r h
    have key := doWhile_log (testCollisionIteration e) (loopCondition e) (fun _ => True)
      (fun _ => True)
      (fun ev => ∀ before w a c after, ev = Event.addPoint before w a c after →
        e.simplex.isPointInSimplex before w = false)
      (by
        intro st wd _
        obtain ⟨evs, hlog, hev⟩ := pass st wd
        refine ⟨evs, hlog, ?_, fun _ _ _ => trivial⟩
        intro ev hmem before w a c after heq
        subst heq
        exact (hev _ _ _ _ _ hmem).2.2.1)
      (fun _ _ _ => trivial) fuel st0 wd0 r trivial h
    obtain ⟨⟨evs, hlog, hG⟩, _⟩ := key
    exact ⟨evs, hlog, fun before w a c after hmem => hG _ hmem _ _ _ _ _ rfl⟩
  · intro st wd hsep hdup
    have hb := branchOf_marginOverlap e st hsep hdup
    have heq : testCollisionIteration e st wd =
        finalizationStep e st.v st.distSquare st.simplex wd := by
      rw [testCollisionIteration_eq, hb]
      simp [finalV, finalDistSquare, finalSimplex, simplexEvents]
    refine ⟨heq, ?_, ?_⟩
    · intro st1 wd1
      rw [heq]
      exact finalizationStep_ne_next e _ _ _ _ _ _
    · rw [heq]
      exact finalizationStep_log e _ _ _ _

/-- C13, on the cubes: at distance `21/20` the second pass finds `w` in the simplex and ends in
the finalization block; at distance `1/2` every `addPoint` of the loop is of a point not in the
simplex. -/
theorem addPoint_after_checks_witness :
    (testCollisionIteration (cubesEnv (21 / 20)) (secondPassState (21 / 20)) world0 =
        finalizationStep (cubesEnv (21 / 20)) (secondPassState (21 / 20)).v
          (secondPassState (21 / 20)).distSquare (secondPassState (21 / 20)).simplex world0 ∧
      (∀ st1 wd1, testCollisionIteration (cubesEnv (21 / 20)) (secondPassState (21 / 20))
        world0 ≠ Step.next st1 wd1) ∧
      ∃ tail, (testCollisionIteration (cubesEnv (21 / 20)) (secondPassState (21 / 20))
          world0).world.log = world0.log ++ tail ∧
        ∀ ev ∈ tail, ev = Event.allocateObject) ∧
    ∃ r evs, testCollisionLoop (cubesEnv (1 / 2)) 5
        (initialState (cubesEnv (1 / 2)) ⟨-1, 0, 0⟩) world0 = some r ∧
      r.world.log = world0.log ++ evs ∧
      ∀ before w a c after, Event.addPoint before w a c after ∈ evs →
        (cubesEnv (1 / 2)).simplex.isPointInSimplex before w = false := by
  refine ⟨(addPoint_after_checks (cubesEnv (21 / 20))).2.2 (secondPassState (21 / 20)) world0
    (by decide!) (Or.inl (by decide!)), ?_⟩
  obtain ⟨r, hr⟩ := Option.isSome_iff_exists.mp
    (by decide! : (testCollisionLoop (cubesEnv (1 / 2)) 5
      (initialState (cubesEnv (1 / 2)) ⟨-1, 0, 0⟩) world0).isSome = true)
  obtain ⟨evs, h1, h2⟩ := (addPoint_after_checks (cubesEnv (1 / 2))).2.1 5 _ world0 r hr
  exact ⟨r, evs, hr, h1, h2⟩

/-- C14. A call of `testCollision` ends with the failed `assert` of line 84, with the `return`
(or failed `assert`) of a pass that took a terminal branch, or, when the last pass took none and
the loop condition then failed, that is when `simplex.isFull()` or
`distSquare <= MACHINE_EPSILON * getMaxLengthSquareOfAPoint()`, with the result of
`computePenetrationDepthForEnlargedObjects`: the seed is the closest point `v` computed in that
pass, with `distSquare = |v|^2`, and the pool, the output slot and the cached axis are as the
call found them, no contact having been built. Conversely, whenever a pass from a state at the
top of the loop body reaches the end of the body and the loop condition fails, the call is,
given enough fuel, the call of `computePenetrationDepthForEnlargedObjects` on the `v` of that
pass. -/
theorem testCollision_escalation (e : Env K S) :
    (∀ (fuel : Nat) (wd : World K S) (r : Result K S), testCollision e fuel wd = some r →
      (¬ 0 < 2 * e.OBJECT_MARGIN ∧ r = Result.assertFailed wd) ∨
      (∃ st wdh,
        LoopHead (testCollisionIteration e) (loopCondition e)
          (initialState e wd.cachedSeparatingAxis) wd.getCachedSeparatingAxis.2 st wdh ∧
        branchOf e st ≠ Branch.proceed ∧
        ((∃ b wd1, testCollisionIteration e st wdh = Step.returned b wd1 ∧
            r = Result.returned b wd1) ∨
          (∃ wdx, testCollisionIteration e st wdh = Step.assertFailed wdx ∧
            r = Result.assertFailed wdx))) ∨
      (∃ st wdh st1 wdx,
        LoopHead (testCollisionIteration e) (loopCondition e)
          (initialState e wd.cachedSeparatingAxis) wd.getCachedSeparatingAxis.2 st wdh ∧
        branchOf e st = Branch.proceed ∧
        testCollisionIteration e st wdh = Step.next st1 wdx ∧
        (e.simplex.isFull st1.simplex = true ∨
          st1.distSquare ≤
            e.MACHINE_EPSILON * e.simplex.getMaxLengthSquareOfAPoint st1.simplex) ∧
        st1.v = (closestPoint e st).2.1 ∧
        st1.distSquare = st1.v.lengthSquare ∧
        wdx.allocatedObjects = wd.allocatedObjects ∧ wdx.contactInfo = wd.contactInfo ∧
        wdx.cachedSeparatingAxis = wd.cachedSeparatingAxis ∧
        computePenetrationDepthForEnlargedObjects e fuel st1.v wdx = some r)) ∧
    (∀ (wd wdh wdx : World K S) (st st1 : GJKState K S), 0 < 2 * e.OBJECT_MARGIN →
      LoopHead (testCollisionIteration e) (loopCondition e)
        (initialState e wd.cachedSeparatingAxis) wd.getCachedSeparatingAxis.2 st wdh →
      testCollisionIteration e st wdh = Step.next st1 wdx →
      (e.simplex.isFull st1.simplex = true ∨
        st1.distSquare ≤
          e.MACHINE_EPSILON * e.simplex.getMaxLengthSquareOfAPoint st1.simplex) →
      ∃ n, ∀ fuel, n ≤ fuel →
        testCollision e fuel wd =
          computePenetrationDepthForEnlargedObjects e fuel st1.v wdx) := by
  constructor
  · intro fuel wd r h
    rcases testCollision_some e fuel wd r h with h1 | ⟨_, st, wdh, hl, h2 | h2 | h2⟩
    · exact Or.inl h1
    · obtain ⟨b, wd1, hr, rfl⟩ := h2
      refine Or.inr (Or.inl ⟨st, wdh, hl, ?_, Or.inl ⟨b, wd1, hr, rfl⟩⟩)
      intro hb
      rw [testCollisionIteration_eq, hb] at hr
      simp at hr
    · obtain ⟨wdx, hr, rfl⟩ := h2
      refine Or.inr (Or.inl ⟨st, wdh, hl, ?_, Or.inr ⟨wdx, hr, rfl⟩⟩)
      intro hb
      rw [testCollisionIteration_eq, hb] at hr
      simp at hr
    · obtain ⟨st1, wdx, hn, hc, hp⟩ := h2
      obtain ⟨hb, hst, hwx⟩ := testCollisionIteration_next e _ _ _ _ hn
      obtain ⟨evs, hw, _⟩ := testCollision_loopHead_frame e _ _ _ _ hl
      refine Or.inr (Or.inr ⟨st, wdh, st1, wdx, hl, hb, hn, (not_loopCondition_iff e st1).mp hc,
        by rw [hst], by rw [hst], ?_, ?_, ?_, hp⟩)
      · rw [hwx, hw]; rfl
      · rw [hwx, hw]; rfl
      · rw [hwx, hw]; rfl
  · intro wd wdh wdx st st1 hm hl hn hc
    exact testCollision_escalates e wd wdh wdx st st1 hm hl hn
      ((not_loopCondition_iff e st1).mpr hc)

/-- C14, on the cubes at distance `1/2`: the second pass computes the closest point
`v = (0, 0, 0)`, the loop condition fails, and the call is the call of
`computePenetrationDepthForEnlargedObjects` seeded with that `v`. -/
theorem testCollision_escalation_witness :
    ∃ n, ∀ fuel, n ≤ fuel →
      testCollision (cubesEnv (1 / 2)) fuel world0 =
        computePenetrationDepthForEnlargedObjects (cubesEnv (1 / 2)) fuel
          (closestPoint (cubesEnv (1 / 2)) (secondPassState (1 / 2))).2.1
          ((World.mk ⟨-1, 0, 0⟩ 0 none (firstPassLog (1 / 2))).logged
            (simplexEvents (cubesEnv (1 / 2)) (secondPassState (1 / 2)) Branch.proceed)) :=
  (testCollision_escalation (cubesEnv (1 / 2))).2 world0
    ⟨⟨-1, 0, 0⟩, 0, none, firstPassLog (1 / 2)⟩
    ((World.mk ⟨-1, 0, 0⟩ 0 none (firstPassLog (1 / 2))).logged
      (simplexEvents (cubesEnv (1 / 2)) (secondPassState (1 / 2)) Branch.proceed))
    (secondPassState (1 / 2))
    ⟨(closestPoint (cubesEnv (1 / 2)) (secondPassState (1 / 2))).2.1,
      (closestPoint (cubesEnv (1 / 2)) (secondPassState (1 / 2))).2.1.lengthSquare,
      (closestPoint (cubesEnv (1 / 2)) (secondPassState (1 / 2))).2.2⟩
    (by decide!) (LoopHead.again LoopHead.first (by decide!) (by decide!)) (by decide!)
    (Or.inr (by decide!))

/-- C15. Strict progress of the squared distance. A pass of either loop (the loop of
`testCollision`, the loop of `computePenetrationDepthForEnlargedObjects`) that reaches the loop
condition satisfies `prevDistSquare - distSquare > MACHINE_EPSILON * prevDistSquare`, hence
`distSquare < (1 - MACHINE_EPSILON) * prevDistSquare`, and `distSquare < prevDistSquare` when
`0 < MACHINE_EPSILON < 1` and `prevDistSquare > 0`; so the value of `distSquare` at the top of
every later pass is strictly below the one the loop started from. Otherwise, that is when the
pass of `testCollision` reaches the test of line 203 and
`prevDistSquare - distSquare <= MACHINE_EPSILON * prevDistSquare`, the pass takes the stall
branch: `v` is recomputed by `backupClosestPointInSimplex`, `distSquare` is set to `|v|^2`, and
the pass ends in the finalization block with these values. -/
theorem distSquare_strict_progress (e : Env K S) :
    (∀ (st st1 : GJKState K S) (wd wd1 : World K S),
      (testCollisionIteration e st wd = Step.next st1 wd1 ∨
        enlargedIteration e st wd = Step.next st1 wd1) →
      e.MACHINE_EPSILON * st.distSquare < st.distSquare - st1.distSquare ∧
      st1.distSquare < (1 - e.MACHINE_EPSILON) * st.distSquare ∧
      (0 < e.MACHINE_EPSILON → e.MACHINE_EPSILON < 1 → 0 < st.distSquare →
        st1.distSquare < st.distSquare)) ∧
    (∀ (st0 st : GJKState K S) (wd0 wd : World K S),
      0 < e.MACHINE_EPSILON → 0 ≤ st0.distSquare →
      (LoopHead (testCollisionIteration e) (loopCondition e) st0 wd0 st wd ∨
        LoopHead (enlargedIteration e) (loopCondition e) st0 wd0 st wd) →
      st = st0 ∨ st.distSquare < st0.distSquare) ∧
    (∀ (st : GJKState K S) (wd : World K S),
      (branchOf e st = Branch.stall ∨ branchOf e st = Branch.proceed) →
      st.distSquare - (closestPoint e st).2.1.lengthSquare ≤
        e.MACHINE_EPSILON * st.distSquare →
      branchOf e st = Branch.stall ∧
      finalV e st Branch.stall = (backupPoint e st).1 ∧
      finalDistSquare e st Branch.stall = (backupPoint e st).1.lengthSquare ∧
      testCollisionIteration e st wd =
        finalizationStep e (backupPoint e st).1 (backupPoint e st).1.lengthSquare
          (backupPoint e st).2 (wd.logged (simplexEvents e st Branch.stall))) := by
  have step : ∀ (st st1 : GJKState K S) (wd wd1 : World K S),
      (testCollisionIteration e st wd = Step.next st1 wd1 ∨
        enlargedIteration e st wd = Step.next st1 wd1) →
      e.MACHINE_EPSILON * st.distSquare < st.distSquare - st1.distSquare ∧
        0 ≤ st1.distSquare := by
    intro st st1 wd wd1 h
    rcases h with h | h
    · obtain ⟨hb, rfl, _⟩ := testCollisionIteration_next e _ _ _ _ h
      have h1 := (branchOf_stall_iff e st (Or.inr hb)).not.mp (by rw [hb]; simp)
      exact ⟨not_le.mp h1, Vector3.lengthSquare_nonneg _⟩
    · obtain ⟨hb, rfl, _⟩ := enlargedIteration_next e _ _ _ _ h
      exact ⟨not_le.mp (enlargedBranchOf_proceed e st hb), Vector3.lengthSquare_nonneg _⟩
  refine ⟨?_, ?_, ?_⟩
  · intro st st1 wd wd1 h
    obtain ⟨h1, _⟩ := step st st1 wd wd1 h
    refine ⟨h1, by linarith, fun h2 _ h4 => ?_⟩
    have := mul_pos h2 h4
    linarith
  · intro st0 st wd0 wd hε h0
    have chain : ∀ (body : GJKState K S → World K S → Step K S),
        (∀ (a a1 : GJKState K S) (w w1 : World K S), body a w = Step.next a1 w1 →
          e.MACHINE_EPSILON * a.distSquare < a.distSquare - a1.distSquare ∧
            0 ≤ a1.distSquare) →
        LoopHead body (loopCondition e) st0 wd0 st wd →
        (st = st0 ∨ st.distSquare < st0.distSquare) ∧ 0 ≤ st.distSquare := by
      intro body hbody hl
      induction hl with
      | first => exact ⟨Or.inl rfl, h0⟩
      | again _ hb _ ih =>
        obtain ⟨h1, h2⟩ := hbody _ _ _ _ hb
        obtain ⟨h3, h4⟩ := ih
        have h5 := mul_nonneg hε.le h4
        refine ⟨Or.inr ?_, h2⟩
        rcases h3 with h3 | h3
        · rw [← h3]; linarith
        · linarith
    intro hl
    rcases hl with hl | hl
    · exact (chain _ (fun a a1 w w1 hb => step a a1 w w1 (Or.inl hb)) hl).1
    · exact (chain _ (fun a a1 w w1 hb => step a a1 w w1 (Or.inr hb)) hl).1
  · intro st wd hreach hstall
    have hb := (branchOf_stall_iff e st hreach).mpr hstall
    refine ⟨hb, rfl, rfl, ?_⟩
    rw [testCollisionIteration_eq, hb]
    rfl

/-- C15 at the cubes of centres 1/2 apart and the seed axis (-1, 0, 0): the first pass reaches
the loop condition with `distSquare = 1/4`, far below `(1 - MACHINE_EPSILON) * DECIMAL_LARGEST`. -/
theorem distSquare_strict_progress_witness :
    ((cubesEnv (1 / 2)).MACHINE_EPSILON * (cubesEnv (1 / 2)).DECIMAL_LARGEST <
        (cubesEnv (1 / 2)).DECIMAL_LARGEST - (secondPassState (1 / 2)).distSquare ∧
      (secondPassState (1 / 2)).distSquare <
        (1 - (cubesEnv (1 / 2)).MACHINE_EPSILON) * (cubesEnv (1 / 2)).DECIMAL_LARGEST ∧
      (secondPassState (1 / 2)).distSquare < (cubesEnv (1 / 2)).DECIMAL_LARGEST) ∧
    (secondPassState (1 / 2) = initialState (cubesEnv (1 / 2)) ⟨-1, 0, 0⟩ ∨
      (secondPassState (1 / 2)).distSquare <
        (initialState (cubesEnv (1 / 2)) ⟨-1, 0, 0⟩).distSquare) := by
  have h := (distSquare_strict_progress (cubesEnv (1 / 2))).1
    (initialState (cubesEnv (1 / 2)) ⟨-1, 0, 0⟩) (secondPassState (1 / 2)) world0
    (world0.logged (simplexEvents (cubesEnv (1 / 2))
      (initialState (cubesEnv (1 / 2)) ⟨-1, 0, 0⟩) Branch.proceed)) (Or.inl (by decide!))
  exact ⟨⟨h.1, h.2.1, h.2.2 (by decide!) (by decide!) (by decide!)⟩,
    (distSquare_strict_progress (cubesEnv (1 / 2))).2.1 _ _ world0
      (world0.logged (simplexEvents (cubesEnv (1 / 2))
        (initialState (cubesEnv (1 / 2)) ⟨-1, 0, 0⟩) Branch.proceed))
      (by decide!) (by decide!)
      (Or.inl (LoopHead.again LoopHead.first (by decide!) (by decide!)))⟩

/-- C16. The four inline finalization blocks of `testCollision` are one computation.
`testCollisionRefactored` is `testCollision` with each of the four blocks replaced by a call of
the pure function `finalizeContact`, which gives none when `margin - sqrt(distSquare) <= 0` and
the contact `(R1 * (-v/|v|), margin - sqrt(distSquare), pA - (OBJECT_MARGIN/dist) v,
body2Tobody1^-1 (pB + (OBJECT_MARGIN/dist) v))` otherwise. The two versions give the same
outcome (the same boolean and the same world: cached axis, allocation count, `ContactInfo` and
trace of calls) for every seed world and every fuel, except on a run where an `assert` of the
source fails, which ends with no boolean at all: whatever `testCollision` returns, the refactored
version returns, and it runs out of fuel when `testCollision` does. Block by block: the contact
of `finalizeContact` is the one the inline block builds, and, `dist > 0` as the block asserts, the
block ends as the call of `finalizeContact` does. -/
theorem testCollision_refactored (e : Env K S) (fuel : Nat) (wd : World K S) :
    (testCollisionRefactored e fuel wd = testCollision e fuel wd ∨
      ∃ wdx, testCollision e fuel wd = some (Result.assertFailed wdx)) ∧
    (∀ b wd1, testCollision e fuel wd = some (Result.returned b wd1) →
      testCollisionRefactored e fuel wd = some (Result.returned b wd1)) ∧
    (testCollision e fuel wd = none → testCollisionRefactored e fuel wd = none) ∧
    (∀ (simplex : S) (v : Vector3 K) (d : K) (wd2 : World K S),
      (finalizeContact e simplex v d (margin e) = none ↔ margin e - e.sqrt d ≤ 0) ∧
      (0 < margin e - e.sqrt d →
        finalizeContact e simplex v d (margin e) = some (contactOf e v d simplex)) ∧
      (0 < e.sqrt d →
        finalizationStep e v d simplex wd2 =
          match finalizeContact e simplex v d (margin e) with
          | none => Step.returned false wd2
          | some c => Step.returned true (wd2.newContactInfo c))) := by
  have main : testCollisionRefactored e fuel wd = testCollision e fuel wd ∨
      ∃ wdx, testCollision e fuel wd = some (Result.assertFailed wdx) := by
    unfold testCollisionRefactored testCollision
    by_cases hm : 0 < margin e
    · simp only [hm, not_true_eq_false, if_false]
      rcases doWhile_agree (testCollisionIteration e) (testCollisionIterationRefactored e)
        (loopCondition e) (testCollisionIterationRefactored_agree e) fuel
        (initialState e wd.getCachedSeparatingAxis.1) wd.getCachedSeparatingAxis.2 with
        h1 | ⟨wdx, h1⟩
      · left
        unfold testCollisionLoop
        rw [h1]
      · right
        refine ⟨wdx, ?_⟩
        unfold testCollisionLoop
        rw [h1]
    · simp only [hm, not_false_eq_true, if_true]
      exact Or.inl trivial
  refine ⟨main, ?_, ?_, ?_⟩
  · intro b wd1 h
    rcases main with h1 | ⟨wdx, h1⟩
    · rw [h1, h]
    · rw [h] at h1
      simp at h1
  · intro h
    rcases main with h1 | ⟨wdx, h1⟩
    · rw [h1, h]
    · rw [h] at h1
      simp at h1
  · intro simplex v d wd2
    refine ⟨?_, ?_, ?_⟩
    · unfold finalizeContact
      split_ifs with h <;> simp [h]
    · intro h
      unfold finalizeContact
      rw [if_neg (not_le.mpr h)]
      rfl
    · intro h
      exact ((refactoredStep_eq e v d simplex wd2).1 h).symm

/-- C16 at the cubes of centres 21/20 apart: the refactored version returns true with the same
world, and so the same contact, as `testCollision`. -/
theorem testCollision_refactored_witness :
    testCollisionRefactored (cubesEnv (21 / 20)) 5 world0 =
      some (Result.returned true contactWorld) :=
  (testCollision_refactored (cubesEnv (21 / 20)) 5 world0).2.1 true contactWorld (by decide!)

/-- C17. The asserted `dist > 0` cannot fail in the duplicate/relative-error, affine-dependence
and failed-closest-point blocks of `testCollision`. Given `DECIMAL_LARGEST > 0`,
`MACHINE_EPSILON > 0`, `getMaxLengthSquareOfAPoint() >= 0` and a square root that is positive on
positive numbers: at the top of every pass `distSquare` is the initial `DECIMAL_LARGEST` or
passed the loop condition `distSquare > MACHINE_EPSILON * getMaxLengthSquareOfAPoint()`, hence
`distSquare > 0`; a pass that takes one of the three blocks finds this `distSquare`, so its
`dist = sqrt(distSquare)` is positive, its `assert` holds and the pass returns. For a whole call:
an `assert` that fails is the one on the margin (line 84), or the one of the stall block, whose
`dist` is the root of the `|v|^2` of the backed-up `v`. -/
theorem dist_assert_holds (e : Env K S)
    (hD : 0 < e.DECIMAL_LARGEST) (hε : 0 < e.MACHINE_EPSILON)
    (hmax : ∀ s, 0 ≤ e.simplex.getMaxLengthSquareOfAPoint s)
    (hsqrt : ∀ x, 0 < x → 0 < e.sqrt x) :
    (∀ (a : Vector3 K) (wd0 : World K S) (st : GJKState K S) (wd : World K S),
      LoopHead (testCollisionIteration e) (loopCondition e) (initialState e a) wd0 st wd →
      (st.distSquare = e.DECIMAL_LARGEST ∨
        e.MACHINE_EPSILON * e.simplex.getMaxLengthSquareOfAPoint st.simplex < st.distSquare) ∧
      0 < st.distSquare ∧
      (branchOf e st = Branch.marginOverlap ∨ branchOf e st = Branch.affinelyDependent ∨
          branchOf e st = Branch.closestPointFailed →
        finalDistSquare e st (branchOf e st) = st.distSquare ∧
        0 < e.sqrt (finalDistSquare e st (branchOf e st)) ∧
        (∀ wdx, testCollisionIteration e st wd ≠ Step.assertFailed wdx) ∧
        ∃ b wd1, testCollisionIteration e st wd = Step.returned b wd1)) ∧
    (∀ (fuel : Nat) (wd wdx : World K S),
      testCollision e fuel wd = some (Result.assertFailed wdx) →
      ¬ 0 < 2 * e.OBJECT_MARGIN ∨
      ∃ st wdh,
        LoopHead (testCollisionIteration e) (loopCondition e)
          (initialState e wd.cachedSeparatingAxis) wd.getCachedSeparatingAxis.2 st wdh ∧
        branchOf e st = Branch.stall ∧
        ¬ 0 < e.sqrt (backupPoint e st).1.lengthSquare ∧
        testCollisionIteration e st wdh = Step.assertFailed wdx) := by
  have pos : ∀ (a : Vector3 K) (wd0 : World K S) (st : GJKState K S) (wd : World K S),
      LoopHead (testCollisionIteration e) (loopCondition e) (initialState e a) wd0 st wd →
      0 < st.distSquare := by
    intro a wd0 st wd hl
    rcases testCollision_loopHead_bound e a wd0 st wd hl with h | h
    · rw [h]; exact hD
    · exact lt_of_le_of_lt (mul_nonneg hε.le (hmax _)) h
  have block : ∀ (st : GJKState K S) (wd : World K S), 0 < st.distSquare →
      (branchOf e st = Branch.marginOverlap ∨ branchOf e st = Branch.affinelyDependent ∨
          branchOf e st = Branch.closestPointFailed) →
      finalDistSquare e st (branchOf e st) = st.distSquare ∧
        0 < e.sqrt (finalDistSquare e st (branchOf e st)) ∧
        (∀ wdx, testCollisionIteration e st wd ≠ Step.assertFailed wdx) ∧
        ∃ b wd1, testCollisionIteration e st wd = Step.returned b wd1 := by
    intro st wd hp hb
    have hd : finalDistSquare e st (branchOf e st) = st.distSquare := by
      rcases hb with hb | hb | hb <;> rw [hb] <;> rfl
    have hs : 0 < e.sqrt (finalDistSquare e st (branchOf e st)) := by
      rw [hd]; exact hsqrt _ hp
    have hr : ∃ b wd1, testCollisionIteration e st wd = Step.returned b wd1 := by
      rw [testCollisionIteration_eq]
      rcases hb with hb | hb | hb <;> rw [hb] at hs ⊢ <;> simp only [] <;>
        unfold finalizationStep <;> rw [if_neg (not_not.mpr hs)] <;>
        split_ifs <;> exact ⟨_, _, rfl⟩
    refine ⟨hd, hs, ?_, hr⟩
    intro wdx hx
    obtain ⟨b, wd1, h1⟩ := hr
    rw [h1] at hx
    cases hx
  refine ⟨fun a wd0 st wd hl =>
    ⟨testCollision_loopHead_bound e a wd0 st wd hl, pos a wd0 st wd hl,
      block st wd (pos a wd0 st wd hl)⟩, ?_⟩
  intro fuel wd wdx h
  rcases testCollision_some e fuel wd _ h with ⟨hm, _⟩ | ⟨_, st, wdh, hl, hr⟩
  · exact Or.inl hm
  · right
    rcases hr with ⟨b, wd1, _, hr⟩ | ⟨wdy, hr, heq⟩ | ⟨st1, wdy, _, _, hr⟩
    · cases hr
    · cases heq
      refine ⟨st, wdh, hl, ?_⟩
      have hp := pos _ _ _ _ hl
      have hstall : branchOf e st = Branch.stall := by
        cases hb : branchOf e st
        case stall => rfl
        case separation =>
          rw [testCollisionIteration_eq, hb] at hr
          cases hr
        case proceed =>
          rw [testCollisionIteration_eq, hb] at hr
          cases hr
        all_goals
          exact absurd hr ((block st wdh hp (by simp [hb])).2.2.1 _)
      refine ⟨hstall, ?_, hr⟩
      intro hs
      rw [testCollisionIteration_eq, hstall] at hr
      simp only [finalizationStep, finalDistSquare, hs, not_true_eq_false, if_false] at hr
      split_ifs at hr
    · exact absurd hr (computePenetrationDepthForEnlargedObjects_ne_assertFailed e _ _ _ _)

/-- C17 at the cubes of centres 21/20 apart, with a square root positive on positive rationals:
the second pass starts with `distSquare = 1/400`, takes the duplicate/relative-error block, and
returns. -/
theorem dist_assert_holds_witness :
    0 < (secondPassState (21 / 20)).distSquare ∧
      0 < (cubesEnvPos (21 / 20)).sqrt (secondPassState (21 / 20)).distSquare ∧
      branchOf (cubesEnvPos (21 / 20)) (secondPassState (21 / 20)) = Branch.marginOverlap ∧
      ∃ b wd1, testCollisionIteration (cubesEnvPos (21 / 20)) (secondPassState (21 / 20))
        ⟨⟨-1, 0, 0⟩, 0, none, firstPassLog (21 / 20)⟩ = Step.returned b wd1 := by
  have h := (dist_assert_holds (cubesEnvPos (21 / 20)) (by decide!) (by decide!)
    lineSimplex_getMaxLengthSquareOfAPoint_nonneg sqrtRatPos_pos).1 ⟨-1, 0, 0⟩
    world0.getCachedSeparatingAxis.2 (secondPassState (21 / 20))
    ⟨⟨-1, 0, 0⟩, 0, none, firstPassLog (21 / 20)⟩
    (LoopHead.again LoopHead.first (by decide!) (by decide!))
  have hb : branchOf (cubesEnvPos (21 / 20)) (secondPassState (21 / 20)) =
      Branch.marginOverlap := by decide!
  obtain ⟨h1, h2, h3⟩ := h.2.2 (Or.inl hb)
  exact ⟨h.2.1, h1 ▸ h2, hb, h3.2⟩

/-- C18. Loop invariant of `testCollision`: a pass that reaches the loop condition hands on
the `v` that `computeClosestPoint` gave and `distSquare = v.lengthSquare()`, so at the top of
every pass after the first `distSquare = |v|^2` for the current `v`. Consequently, in a call
with orthonormal orientations, a square root exact where it is positive and
`DECIMAL_LARGEST >= (2 * OBJECT_MARGIN)^2` (no first pass then builds a contact with the initial
`distSquare`), whenever a pass returns a contact from the duplicate/relative-error block, the
affine-dependence block or the stall block, the `dist = sqrt(distSquare)` of the block is `|v|`:
the depth is `2 * OBJECT_MARGIN - |v|`, the normal `R1 * (-v/|v|)`, the returned `pA` is
`pA0 - (OBJECT_MARGIN/|v|) v`, and `body2Tobody1` applied to the returned `pB` is
`pB0 + (OBJECT_MARGIN/|v|) v`, each closest point being moved by a vector of length exactly
`OBJECT_MARGIN`. -/
theorem testCollision_distSquare_invariant (e : Env K S) :
    (∀ (st0 st st1 : GJKState K S) (wd0 wd wd1 : World K S),
      LoopHead (testCollisionIteration e) (loopCondition e) st0 wd0 st wd →
      testCollisionIteration e st wd = Step.next st1 wd1 →
      st1.v = (e.simplex.computeClosestPoint (simplexAfterAdd e st) st.v).2.1 ∧
        st1.distSquare = st1.v.lengthSquare) ∧
    (∀ (st0 st : GJKState K S) (wd0 wd : World K S),
      LoopHead (testCollisionIteration e) (loopCondition e) st0 wd0 st wd →
      st = st0 ∨ st.distSquare = st.v.lengthSquare) ∧
    (∀ (a : Vector3 K) (wd0 : World K S) (st : GJKState K S) (wd wd1 : World K S)
        (c : ContactInfo K),
      e.transform1.orientation.IsOrthonormal →
      e.transform2.orientation.IsOrthonormal →
      (∀ x, 0 < e.sqrt x → e.sqrt x ^ 2 = x) →
      (2 * e.OBJECT_MARGIN) ^ 2 ≤ e.DECIMAL_LARGEST →
      LoopHead (testCollisionIteration e) (loopCondition e) (initialState e a) wd0 st wd →
      testCollisionIteration e st wd = Step.returned true wd1 →
      wd1.contactInfo = some c →
      branchOf e st = Branch.marginOverlap ∨ branchOf e st = Branch.affinelyDependent ∨
        branchOf e st = Branch.stall →
      e.sqrt (finalDistSquare e st (branchOf e st)) =
          (finalV e st (branchOf e st)).length e.sqrt ∧
        0 < (finalV e st (branchOf e st)).length e.sqrt ∧
        c.penetrationDepth = 2 * e.OBJECT_MARGIN - (finalV e st (branchOf e st)).length e.sqrt ∧
        c.normal = e.transform1.orientation.mulVec
          (-(Vector3.smul (1 / (finalV e st (branchOf e st)).length e.sqrt)
            (finalV e st (branchOf e st)))) ∧
        c.pA = (e.simplex.computeClosestPointsOfAandB (finalSimplex e st (branchOf e st))).1 -
          Vector3.smul (e.OBJECT_MARGIN / (finalV e st (branchOf e st)).length e.sqrt)
            (finalV e st (branchOf e st)) ∧
        (body2Tobody1 e).apply c.pB =
          (e.simplex.computeClosestPointsOfAandB (finalSimplex e st (branchOf e st))).2 +
          Vector3.smul (e.OBJECT_MARGIN / (finalV e st (branchOf e st)).length e.sqrt)
            (finalV e st (branchOf e st)) ∧
        (Vector3.smul (e.OBJECT_MARGIN / (finalV e st (branchOf e st)).length e.sqrt)
          (finalV e st (branchOf e st))).lengthSquare = e.OBJECT_MARGIN ^ 2) := by
  refine ⟨?_, fun st0 st wd0 wd hl => testCollision_loopHead_distSquare e st0 st wd0 wd hl, ?_⟩
  · intro st0 st st1 wd0 wd wd1 _ hb
    obtain ⟨_, rfl, _⟩ := testCollisionIteration_next e _ _ _ _ hb
    exact ⟨rfl, rfl⟩
  · intro a wd0 st wd wd1 c hR1 hR2 hsqrt hD hl hr hc hb
    obtain ⟨_, h1, h2, hw⟩ := testCollisionIteration_returned_true e st wd wd1 hr
    have hdist : e.sqrt (finalDistSquare e st (branchOf e st)) =
        (finalV e st (branchOf e st)).length e.sqrt := by
      rcases hb with hb | hb | hb
      · have hd := testCollision_contact_distSquare e hsqrt hD a wd0 st wd wd1 hl hr
          (by rw [hb]; simp)
        rw [hb]
        simp only [finalDistSquare, finalV, Vector3.length, hd]
      · have hd := testCollision_contact_distSquare e hsqrt hD a wd0 st wd wd1 hl hr
          (by rw [hb]; simp)
        rw [hb]
        simp only [finalDistSquare, finalV, Vector3.length, hd]
      · rw [hb]
        rfl
    have hcv : c = contactOf e (finalV e st (branchOf e st))
        (finalDistSquare e st (branchOf e st)) (finalSimplex e st (branchOf e st)) := by
      rw [hw] at hc
      simp only [World.newContactInfo, Option.some.injEq] at hc
      exact hc.symm
    have hpos : 0 < (finalV e st (branchOf e st)).length e.sqrt := hdist ▸ h1
    refine ⟨hdist, hpos, ?_, ?_, ?_, ?_, ?_⟩
    · rw [hcv, ← hdist]; rfl
    · rw [hcv]; rfl
    · rw [hcv, ← hdist]; rfl
    · rw [hcv, ← hdist]
      simp only [contactOf]
      exact Transform.apply_inverse_apply _ (Matrix3x3.IsOrthonormal.transpose_mul hR1 hR2) _
    · exact Vector3.lengthSquare_smul_div _ _ _ hpos (hsqrt _ hpos)

/-- C18 on the cubes at distance `21/20`: the second pass starts with `distSquare = |v|^2 =
1/400` and returns its contact from the duplicate/relative-error block, with `dist = |v| = 1/20`
and each point moved by a vector of squared length `(1/25)^2`. -/
theorem testCollision_distSquare_invariant_witness :
    (secondPassState (21 / 20)).distSquare = (secondPassState (21 / 20)).v.lengthSquare ∧
    (cubesEnv (21 / 20)).sqrt (finalDistSquare (cubesEnv (21 / 20)) (secondPassState (21 / 20))
        (branchOf (cubesEnv (21 / 20)) (secondPassState (21 / 20)))) =
      (finalV (cubesEnv (21 / 20)) (secondPassState (21 / 20))
        (branchOf (cubesEnv (21 / 20)) (secondPassState (21 / 20)))).length
          (cubesEnv (21 / 20)).sqrt ∧
    (Vector3.smul ((cubesEnv (21 / 20)).OBJECT_MARGIN /
        (finalV (cubesEnv (21 / 20)) (secondPassState (21 / 20))
          (branchOf (cubesEnv (21 / 20)) (secondPassState (21 / 20)))).length
            (cubesEnv (21 / 20)).sqrt)
      (finalV (cubesEnv (21 / 20)) (secondPassState (21 / 20))
        (branchOf (cubesEnv (21 / 20)) (secondPassState (21 / 20))))).lengthSquare =
      (cubesEnv (21 / 20)).OBJECT_MARGIN ^ 2 := by
  have h1 := (testCollision_distSquare_invariant (cubesEnv (21 / 20))).1
    (initialState (cubesEnv (21 / 20)) ⟨-1, 0, 0⟩) (initialState (cubesEnv (21 / 20)) ⟨-1, 0, 0⟩)
    (secondPassState (21 / 20)) world0.getCachedSeparatingAxis.2
    world0.getCachedSeparatingAxis.2 ⟨⟨-1, 0, 0⟩, 0, none, firstPassLog (21 / 20)⟩
    LoopHead.first (by decide!)
  have h2 := (testCollision_distSquare_invariant (cubesEnv (21 / 20))).2.2 ⟨-1, 0, 0⟩
    world0.getCachedSeparatingAxis.2 (secondPassState (21 / 20))
    ⟨⟨-1, 0, 0⟩, 0, none, firstPassLog (21 / 20)⟩ contactWorld
    ⟨⟨1, 0, 0⟩, 3 / 100, ⟨27 / 50, 1 / 2, 1 / 2⟩, ⟨-27 / 50, 1 / 2, 1 / 2⟩⟩
    ⟨by decide!, by decide!⟩ ⟨by decide!, by decide!⟩ sqrtRat_exact (by decide!)
    (LoopHead.again LoopHead.first (by decide!) (by decide!)) (by decide!) (by decide!)
    (Or.inl (by decide!))
  exact ⟨h1.2, h2.1, h2.2.2.2.2.2.2⟩

/-- C19. With `DECIMAL_LARGEST >= (2 * OBJECT_MARGIN)^2` (and a square root exact where it is
positive), `testCollision` returns no contact from the duplicate/relative-error, affine-dependence
or failed-closest-point block during the first pass: there `distSquare` is still
`DECIMAL_LARGEST`, the depth `2 * OBJECT_MARGIN - sqrt(DECIMAL_LARGEST)` is `<= 0`, the pass never
returns true, and it returns false, as does the call, when the asserted `margin > 0` and
`dist > 0` hold. So, for every cached seed axis, a contact `testCollision` builds itself uses a
`v` the simplex produced: the one of `backupClosestPointInSimplex` with `distSquare = |v|^2` in
the stall block; otherwise the pass follows a pass that reached the loop condition, its `v` at
the top of the body is the one `computeClosestPoint` gave in that pass, with
`distSquare = |v|^2`, and the block uses this `v`, or, in the failed-closest-point block, the
`v` `computeClosestPoint` gave in this pass. -/
theorem testCollision_first_pass_no_contact (e : Env K S)
    (hsqrt : ∀ x, 0 < e.sqrt x → e.sqrt x ^ 2 = x)
    (hD : (2 * e.OBJECT_MARGIN) ^ 2 ≤ e.DECIMAL_LARGEST) :
    (∀ (a : Vector3 K) (wd : World K S),
      branchOf e (initialState e a) = Branch.marginOverlap ∨
        branchOf e (initialState e a) = Branch.affinelyDependent ∨
        branchOf e (initialState e a) = Branch.closestPointFailed →
      finalDistSquare e (initialState e a) (branchOf e (initialState e a)) =
          e.DECIMAL_LARGEST ∧
        (0 < e.sqrt e.DECIMAL_LARGEST → 2 * e.OBJECT_MARGIN - e.sqrt e.DECIMAL_LARGEST ≤ 0) ∧
        (∀ wd1, testCollisionIteration e (initialState e a) wd ≠ Step.returned true wd1) ∧
        (0 < e.sqrt e.DECIMAL_LARGEST →
          testCollisionIteration e (initialState e a) wd =
            Step.returned false
              (wd.logged (simplexEvents e (initialState e a) (branchOf e (initialState e a)))))) ∧
    (∀ (fuel : Nat) (wd : World K S),
      branchOf e (initialState e wd.cachedSeparatingAxis) = Branch.marginOverlap ∨
        branchOf e (initialState e wd.cachedSeparatingAxis) = Branch.affinelyDependent ∨
        branchOf e (initialState e wd.cachedSeparatingAxis) = Branch.closestPointFailed →
      0 < 2 * e.OBJECT_MARGIN → 0 < e.sqrt e.DECIMAL_LARGEST →
      testCollision e (fuel + 1) wd =
        some (Result.returned false (wd.getCachedSeparatingAxis.2.logged
          (simplexEvents e (initialState e wd.cachedSeparatingAxis)
            (branchOf e (initialState e wd.cachedSeparatingAxis)))))) ∧
    (∀ (fuel : Nat) (wd wd1 : World K S),
      testCollision e fuel wd = some (Result.returned true wd1) →
      (∀ ev ∈ wd1.log, ev.isEPACall = false) →
      ∃ st wdh,
        LoopHead (testCollisionIteration e) (loopCondition e)
          (initialState e wd.cachedSeparatingAxis) wd.getCachedSeparatingAxis.2 st wdh ∧
        testCollisionIteration e st wdh = Step.returned true wd1 ∧
        wd1.contactInfo = some (contactOf e (finalV e st (branchOf e st))
          (finalDistSquare e st (branchOf e st)) (finalSimplex e st (branchOf e st))) ∧
        ((branchOf e st = Branch.stall ∧
            finalV e st (branchOf e st) =
              (e.simplex.backupClosestPointInSimplex (closestPoint e st).2.2
                (closestPoint e st).2.1).1 ∧
            finalDistSquare e st (branchOf e st) = (finalV e st (branchOf e st)).lengthSquare) ∨
          (branchOf e st ≠ Branch.stall ∧
            ∃ stp wdp,
              LoopHead (testCollisionIteration e) (loopCondition e)
                (initialState e wd.cachedSeparatingAxis) wd.getCachedSeparatingAxis.2 stp wdp ∧
              testCollisionIteration e stp wdp = Step.next st wdh ∧
              st.v = (e.simplex.computeClosestPoint (simplexAfterAdd e stp) stp.v).2.1 ∧
              st.distSquare = st.v.lengthSquare ∧
              finalDistSquare e st (branchOf e st) = st.distSquare ∧
              (finalV e st (branchOf e st) = st.v ∨
                (branchOf e st = Branch.closestPointFailed ∧
                  finalV e st (branchOf e st) =
                    (e.simplex.computeClosestPoint (simplexAfterAdd e st) st.v).2.1))))) := by
  have first : ∀ (a : Vector3 K) (wd : World K S),
      branchOf e (initialState e a) = Branch.marginOverlap ∨
        branchOf e (initialState e a) = Branch.affinelyDependent ∨
        branchOf e (initialState e a) = Branch.closestPointFailed →
      finalDistSquare e (initialState e a) (branchOf e (initialState e a)) =
          e.DECIMAL_LARGEST ∧
        (0 < e.sqrt e.DECIMAL_LARGEST → 2 * e.OBJECT_MARGIN - e.sqrt e.DECIMAL_LARGEST ≤ 0) ∧
        (∀ wd1, testCollisionIteration e (initialState e a) wd ≠ Step.returned true wd1) ∧
        (0 < e.sqrt e.DECIMAL_LARGEST →
          testCollisionIteration e (initialState e a) wd =
            Step.returned false
              (wd.logged (simplexEvents e (initialState e a)
                (branchOf e (initialState e a))))) := by
    intro a wd hb
    have hd : finalDistSquare e (initialState e a) (branchOf e (initialState e a)) =
        e.DECIMAL_LARGEST := by
      rcases hb with hb | hb | hb <;> rw [hb] <;> rfl
    have hfin : (branchOf e (initialState e a)).isFinalization = true := by
      rcases hb with hb | hb | hb <;> rw [hb] <;> rfl
    refine ⟨hd, fun hs => margin_sub_sqrt_DECIMAL_LARGEST e hsqrt hD hs, ?_, ?_⟩
    · intro wd1 hr
      have := testCollisionIteration_initialState_returned_true e hsqrt hD a wd wd1 hr
      rcases hb with hb | hb | hb <;> rw [hb] at this <;> cases this
    · intro hs
      rw [testCollisionIteration_finalization e _ wd hfin, hd]
      unfold finalizationStep
      rw [if_neg (not_not.mpr hs), if_pos (margin_sub_sqrt_DECIMAL_LARGEST e hsqrt hD hs)]
  refine ⟨first, ?_, ?_⟩
  · intro fuel wd hb hm hs
    exact testCollision_first_pass e fuel wd _ false hm ((first _ _ hb).2.2.2 hs)
  · intro fuel wd wd1 h hlog
    obtain ⟨st, wdh, hl, hr⟩ := testCollision_own_contact e fuel wd wd1 h hlog
    obtain ⟨hfin, _, _, hw⟩ := testCollisionIteration_returned_true e st wdh wd1 hr
    refine ⟨st, wdh, hl, hr, by rw [hw]; rfl, ?_⟩
    by_cases hb : branchOf e st = Branch.stall
    · left
      refine ⟨hb, ?_, ?_⟩
      · rw [hb]; rfl
      · rw [hb]; rfl
    · right
      refine ⟨hb, ?_⟩
      obtain ⟨stp, wdp, hp, hn⟩ :=
        testCollision_contact_predecessor e hsqrt hD _ _ st wdh wd1 hl hr hb
      obtain ⟨_, hst, _⟩ := testCollisionIteration_next e _ _ _ _ hn
      refine ⟨stp, wdp, hp, hn, by rw [hst]; rfl, by rw [hst], ?_, ?_⟩
      · cases hbr : branchOf e st <;> first | exact absurd hbr hb | rfl
      · cases hbr : branchOf e st <;>
          first | exact absurd hbr hb | exact Or.inr ⟨rfl, rfl⟩ | exact Or.inl rfl

/-- C19 on the cubes at distance `21/20`: with the relative error bound 1 the first pass takes
the duplicate/relative-error block and the call returns false, the depth being
`2/25 - 10^15`; with the bound `10^-6` the contact comes from the second pass, whose `v` is the
closest point of the first. -/
theorem testCollision_first_pass_no_contact_witness :
    testCollision (coarseEnv (21 / 20)) 1 world0 =
      some (Result.returned false (world0.getCachedSeparatingAxis.2.logged
        (simplexEvents (coarseEnv (21 / 20))
          (initialState (coarseEnv (21 / 20)) world0.cachedSeparatingAxis)
          (branchOf (coarseEnv (21 / 20))
            (initialState (coarseEnv (21 / 20)) world0.cachedSeparatingAxis))))) ∧
    ∃ st wdh,
      LoopHead (testCollisionIteration (cubesEnv (21 / 20))) (loopCondition (cubesEnv (21 / 20)))
        (initialState (cubesEnv (21 / 20)) world0.cachedSeparatingAxis)
        world0.getCachedSeparatingAxis.2 st wdh ∧
      testCollisionIteration (cubesEnv (21 / 20)) st wdh = Step.returned true contactWorld ∧
      contactWorld.contactInfo = some (contactOf (cubesEnv (21 / 20))
        (finalV (cubesEnv (21 / 20)) st (branchOf (cubesEnv (21 / 20)) st))
        (finalDistSquare (cubesEnv (21 / 20)) st (branchOf (cubesEnv (21 / 20)) st))
        (finalSimplex (cubesEnv (21 / 20)) st (branchOf (cubesEnv (21 / 20)) st))) ∧
      ((branchOf (cubesEnv (21 / 20)) st = Branch.stall ∧
          finalV (cubesEnv (21 / 20)) st (branchOf (cubesEnv (21 / 20)) st) =
            ((cubesEnv (21 / 20)).simplex.backupClosestPointInSimplex
              (closestPoint (cubesEnv (21 / 20)) st).2.2
              (closestPoint (cubesEnv (21 / 20)) st).2.1).1 ∧
          finalDistSquare (cubesEnv (21 / 20)) st (branchOf (cubesEnv (21 / 20)) st) =
            (finalV (cubesEnv (21 / 20)) st (branchOf (cubesEnv (21 / 20)) st)).lengthSquare) ∨
        (branchOf (cubesEnv (21 / 20)) st ≠ Branch.stall ∧
          ∃ stp wdp,
            LoopHead (testCollisionIteration (cubesEnv (21 / 20)))
              (loopCondition (cubesEnv (21 / 20)))
              (initialState (cubesEnv (21 / 20)) world0.cachedSeparatingAxis)
              world0.getCachedSeparatingAxis.2 stp wdp ∧
            testCollisionIteration (cubesEnv (21 / 20)) stp wdp = Step.next st wdh ∧
            st.v = ((cubesEnv (21 / 20)).simplex.computeClosestPoint
              (simplexAfterAdd (cubesEnv (21 / 20)) stp) stp.v).2.1 ∧
            st.distSquare = st.v.lengthSquare ∧
            finalDistSquare (cubesEnv (21 / 20)) st (branchOf (cubesEnv (21 / 20)) st) =
              st.distSquare ∧
            (finalV (cubesEnv (21 / 20)) st (branchOf (cubesEnv (21 / 20)) st) = st.v ∨
              (branchOf (cubesEnv (21 / 20)) st = Branch.closestPointFailed ∧
                finalV (cubesEnv (21 / 20)) st (branchOf (cubesEnv (21 / 20)) st) =
                  ((cubesEnv (21 / 20)).simplex.computeClosestPoint
                    (simplexAfterAdd (cubesEnv (21 / 20)) st) st.v).2.1)))) :=
  ⟨(testCollision_first_pass_no_contact (coarseEnv (21 / 20)) sqrtRat_exact (by decide!)).2.1
      0 world0 (Or.inl (by decide!)) (by decide!) (by decide!),
    (testCollision_first_pass_no_contact (cubesEnv (21 / 20)) sqrtRat_exact (by decide!)).2.2
      5 world0 contactWorld (by decide!) (by decide!)⟩

/-- C20. Consistency of the returned contact. For every pass of the loop of `testCollision`
that returns a contact (every contact `testCollision` builds itself comes from such a pass), if
the closest points of the simplex satisfy `pA0 - pB0 = v` and `distSquare = |v|^2` in the block,
then `0 < |v| < 2 * OBJECT_MARGIN`, and the two returned points expressed in the space of body 1
(the returned `pA`, and `body2Tobody1` applied to the returned `pB`) differ by
`(1 - 2 * OBJECT_MARGIN / |v|) * v`; the squared length of the difference is the square of the
returned `penetrationDepth`, which is positive, so their distance is the depth; and the
difference is `penetrationDepth` times the returned normal rotated back by the transpose of
`R1`. Both orientations are orthonormal and the square root is exact where it is positive. -/
theorem testCollision_contact_consistent (e : Env K S)
    (hR1 : e.transform1.orientation.IsOrthonormal)
    (hR2 : e.transform2.orientation.IsOrthonormal)
    (hsqrt : ∀ x, 0 < e.sqrt x → e.sqrt x ^ 2 = x) :
    (∀ (st : GJKState K S) (wd wd1 : World K S) (c : ContactInfo K),
      testCollisionIteration e st wd = Step.returned true wd1 →
      wd1.contactInfo = some c →
      (e.simplex.computeClosestPointsOfAandB (finalSimplex e st (branchOf e st))).1 -
          (e.simplex.computeClosestPointsOfAandB (finalSimplex e st (branchOf e st))).2 =
        finalV e st (branchOf e st) →
      finalDistSquare e st (branchOf e st) = (finalV e st (branchOf e st)).lengthSquare →
      0 < (finalV e st (branchOf e st)).length e.sqrt ∧
        (finalV e st (branchOf e st)).length e.sqrt < 2 * e.OBJECT_MARGIN ∧
        c.pA - (body2Tobody1 e).apply c.pB =
          Vector3.smul (1 - 2 * e.OBJECT_MARGIN / (finalV e st (branchOf e st)).length e.sqrt)
            (finalV e st (branchOf e st)) ∧
        (c.pA - (body2Tobody1 e).apply c.pB).lengthSquare = c.penetrationDepth ^ 2 ∧
        0 < c.penetrationDepth ∧
        c.pA - (body2Tobody1 e).apply c.pB =
          Vector3.smul c.penetrationDepth
            (e.transform1.orientation.getTranspose.mulVec c.normal)) ∧
    (∀ (fuel : Nat) (wd wd1 : World K S),
      testCollision e fuel wd = some (Result.returned true wd1) →
      (∀ ev ∈ wd1.log, ev.isEPACall = false) →
      ∃ st wdh c,
        LoopHead (testCollisionIteration e) (loopCondition e)
          (initialState e wd.cachedSeparatingAxis) wd.getCachedSeparatingAxis.2 st wdh ∧
        testCollisionIteration e st wdh = Step.returned true wd1 ∧
        wd1.contactInfo = some c) := by
  constructor
  · intro st wd wd1 c hr hc hv hd
    obtain ⟨_, h1, h2, hw⟩ := testCollisionIteration_returned_true e st wd wd1 hr
    have hcv : c = contactOf e (finalV e st (branchOf e st))
        (finalDistSquare e st (branchOf e st)) (finalSimplex e st (branchOf e st)) := by
      rw [hw] at hc
      simp only [World.newContactInfo, Option.some.injEq] at hc
      exact hc.symm
    have hdist : e.sqrt (finalDistSquare e st (branchOf e st)) =
        (finalV e st (branchOf e st)).length e.sqrt := by
      rw [hd]; rfl
    rw [hdist] at h1 h2
    have hsq : (finalV e st (branchOf e st)).length e.sqrt ^ 2 =
        (finalV e st (branchOf e st)).lengthSquare := hsqrt _ h1
    have hdiff : c.pA - (body2Tobody1 e).apply c.pB =
        Vector3.smul (1 - 2 * e.OBJECT_MARGIN / (finalV e st (branchOf e st)).length e.sqrt)
          (finalV e st (branchOf e st)) := by
      rw [hcv]
      simp only [contactOf]
      rw [Transform.apply_inverse_apply _ (Matrix3x3.IsOrthonormal.transpose_mul hR1 hR2),
        hdist]
      exact Vector3.sub_displaced _ _ _ _ _ hv
    have hdepth : c.penetrationDepth =
        2 * e.OBJECT_MARGIN - (finalV e st (branchOf e st)).length e.sqrt := by
      rw [hcv, ← hdist]; rfl
    have hnormal : e.transform1.orientation.getTranspose.mulVec c.normal =
        -(Vector3.smul (1 / (finalV e st (branchOf e st)).length e.sqrt)
          (finalV e st (branchOf e st))) := by
      rw [hcv]
      simp only [contactOf]
      exact Matrix3x3.getTranspose_mulVec_mulVec _ hR1 _
    refine ⟨h1, ?_, hdiff, ?_, ?_, ?_⟩
    · unfold margin at h2
      linarith
    · rw [hdiff, hdepth, Vector3.lengthSquare_smul, ← hsq]
      field_simp
      ring
    · rw [hdepth]
      unfold margin at h2
      exact h2
    · rw [hdiff, hdepth, hnormal]
      exact Vector3.smul_depth_unit _ _ _ h1.ne.symm
  · intro fuel wd wd1 h hlog
    obtain ⟨st, wdh, hl, hr⟩ := testCollision_own_contact e fuel wd wd1 h hlog
    obtain ⟨_, _, _, hw⟩ := testCollisionIteration_returned_true e st wdh wd1 hr
    exact ⟨st, wdh, _, hl, hr, by rw [hw]; rfl⟩

/-- C20 on the cubes at distance `21/20`: the returned points `(27/50, 1/2, 1/2)` and, in the
space of body 1, `(51/100, 1/2, 1/2)` differ by `(3/100, 0, 0)`, the depth `3/100` times the
normal `(1, 0, 0)`. -/
theorem testCollision_contact_consistent_witness :
    (⟨27 / 50, 1 / 2, 1 / 2⟩ : Vector3 ℚ) -
        (body2Tobody1 (cubesEnv (21 / 20))).apply ⟨-27 / 50, 1 / 2, 1 / 2⟩ =
      Vector3.smul (1 - 2 * (cubesEnv (21 / 20)).OBJECT_MARGIN /
          (finalV (cubesEnv (21 / 20)) (secondPassState (21 / 20))
            (branchOf (cubesEnv (21 / 20)) (secondPassState (21 / 20)))).length
              (cubesEnv (21 / 20)).sqrt)
        (finalV (cubesEnv (21 / 20)) (secondPassState (21 / 20))
          (branchOf (cubesEnv (21 / 20)) (secondPassState (21 / 20)))) ∧
    ((⟨27 / 50, 1 / 2, 1 / 2⟩ : Vector3 ℚ) -
        (body2Tobody1 (cubesEnv (21 / 20))).apply ⟨-27 / 50, 1 / 2, 1 / 2⟩).lengthSquare =
      (3 / 100 : ℚ) ^ 2 ∧
    (⟨27 / 50, 1 / 2, 1 / 2⟩ : Vector3 ℚ) -
        (body2Tobody1 (cubesEnv (21 / 20))).apply ⟨-27 / 50, 1 / 2, 1 / 2⟩ =
      Vector3.smul (3 / 100)
        ((cubesEnv (21 / 20)).transform1.orientation.getTranspose.mulVec ⟨1, 0, 0⟩) := by
  have h := (testCollision_contact_consistent (cubesEnv (21 / 20)) ⟨by decide!, by decide!⟩
    ⟨by decide!, by decide!⟩ sqrtRat_exact).1 (secondPassState (21 / 20))
    ⟨⟨-1, 0, 0⟩, 0, none, firstPassLog (21 / 20)⟩ contactWorld
    ⟨⟨1, 0, 0⟩, 3 / 100, ⟨27 / 50, 1 / 2, 1 / 2⟩, ⟨-27 / 50, 1 / 2, 1 / 2⟩⟩
    (by decide!) (by decide!) (by decide!) (by decide!)
  exact ⟨h.2.2.1, h.2.2.2.1, h.2.2.2.2.2⟩

/-- C8. Termination of `testCollision`, with the bound on the passes of its loops. The
decimal numbers of the program are finitely many; here the squared lengths of the closest
points `computeClosestPoint` gives range over a finite set `F`, and `MACHINE_EPSILON >= 0`,
`DECIMAL_LARGEST >= 0`. Then the loop of `testCollision` ends (in a terminal branch, a failed
`assert` or by its loop condition) within `F.card + 1` passes, the loop of
`computePenetrationDepthForEnlargedObjects` does, and that method returns; and for every input
world `testCollision` ends with a result when each loop is allowed `F.card + 1` passes, the
same result for every larger allowance. The reason is the strict decrease of `distSquare` at
every pass that reaches the loop condition. It is enough that the values the calls at hand
reach lie in `F`: the closest points of the passes of the loop of `testCollision`, and those of
the enlarged loop on the seed `testCollision` hands over. -/
theorem testCollision_terminates (e : Env K S) (F : Finset K)
    (hε : 0 ≤ e.MACHINE_EPSILON) (hD : 0 ≤ e.DECIMAL_LARGEST) :
    (∀ (a : Vector3 K) (wd0 : World K S),
      (∀ st wd st1 wd1,
        LoopHead (testCollisionIteration e) (loopCondition e) (initialState e a) wd0 st wd →
        testCollisionIteration e st wd = Step.next st1 wd1 → st1.v.lengthSquare ∈ F) →
      ∃ r, testCollisionLoop e (F.card + 1) (initialState e a) wd0 = some r) ∧
    (∀ (a : Vector3 K) (wd0 : World K S),
      (∀ st wd st1 wd1,
        LoopHead (enlargedIteration e) (loopCondition e) (initialState e a) wd0 st wd →
        enlargedIteration e st wd = Step.next st1 wd1 → st1.v.lengthSquare ∈ F) →
      (∃ r, enlargedLoop e (F.card + 1) (initialState e a) wd0 = some r) ∧
        ∃ r, ∀ extra,
          computePenetrationDepthForEnlargedObjects e (F.card + 1 + extra) a wd0 = some r) ∧
    (∀ (wd : World K S),
      (∀ st wdh st1 wd1,
        LoopHead (testCollisionIteration e) (loopCondition e)
          (initialState e wd.cachedSeparatingAxis) wd.getCachedSeparatingAxis.2 st wdh →
        testCollisionIteration e st wdh = Step.next st1 wd1 → st1.v.lengthSquare ∈ F) →
      (∀ st wdh st1 wd1,
        LoopHead (testCollisionIteration e) (loopCondition e)
          (initialState e wd.cachedSeparatingAxis) wd.getCachedSeparatingAxis.2 st wdh →
        testCollisionIteration e st wdh = Step.next st1 wd1 → ¬ loopCondition e st1 →
        ∀ st2 wd2 st3 wd3,
          LoopHead (enlargedIteration e) (loopCondition e) (initialState e st1.v) wd1 st2 wd2 →
          enlargedIteration e st2 wd2 = Step.next st3 wd3 → st3.v.lengthSquare ∈ F) →
      ∃ r, ∀ extra, testCollision e (F.card + 1 + extra) wd = some r) ∧
    ((∀ s v, (e.simplex.computeClosestPoint s v).2.1.lengthSquare ∈ F) →
      ∀ (wd : World K S), ∃ r, ∀ extra, testCollision e (F.card + 1 + extra) wd = some r) := by
  have loop1 : ∀ (a : Vector3 K) (wd0 : World K S),
      (∀ st wd st1 wd1,
        LoopHead (testCollisionIteration e) (loopCondition e) (initialState e a) wd0 st wd →
        testCollisionIteration e st wd = Step.next st1 wd1 → st1.v.lengthSquare ∈ F) →
      ∃ r, testCollisionLoop e (F.card + 1) (initialState e a) wd0 = some r := by
    intro a wd0 hF
    refine doWhile_bounded _ _ F _ _ (fun st wd st1 wd1 hl hb => ?_)
    obtain ⟨h1, h2⟩ := testCollision_loopHead_decrease e hε hD a wd0 st st1 wd wd1 hl hb
    exact ⟨h1, h2 ▸ hF st wd st1 wd1 hl hb⟩
  have loop2 : ∀ (a : Vector3 K) (wd0 : World K S),
      (∀ st wd st1 wd1,
        LoopHead (enlargedIteration e) (loopCondition e) (initialState e a) wd0 st wd →
        enlargedIteration e st wd = Step.next st1 wd1 → st1.v.lengthSquare ∈ F) →
      (∃ r, enlargedLoop e (F.card + 1) (initialState e a) wd0 = some r) ∧
        ∃ r, ∀ extra,
          computePenetrationDepthForEnlargedObjects e (F.card + 1 + extra) a wd0 = some r := by
    intro a wd0 hF
    have hloop : ∃ r, enlargedLoop e (F.card + 1) (initialState e a) wd0 = some r := by
      refine doWhile_bounded _ _ F _ _ (fun st wd st1 wd1 hl hb => ?_)
      obtain ⟨h1, h2⟩ := enlargedLoop_loopHead_decrease e hε hD a wd0 st st1 wd wd1 hl hb
      exact ⟨h1, h2 ▸ hF st wd st1 wd1 hl hb⟩
    refine ⟨hloop, ?_⟩
    obtain ⟨r, hr⟩ := hloop
    have hcall : ∃ r1, computePenetrationDepthForEnlargedObjects e (F.card + 1) a wd0 =
        some r1 := by
      unfold computePenetrationDepthForEnlargedObjects
      rw [hr]
      cases r <;> exact ⟨_, rfl⟩
    obtain ⟨r1, h1⟩ := hcall
    exact ⟨r1, fun extra => computePenetrationDepthForEnlargedObjects_mono e _ extra a wd0 r1 h1⟩
  have call : ∀ (wd : World K S),
      (∀ st wdh st1 wd1,
        LoopHead (testCollisionIteration e) (loopCondition e)
          (initialState e wd.cachedSeparatingAxis) wd.getCachedSeparatingAxis.2 st wdh →
        testCollisionIteration e st wdh = Step.next st1 wd1 → st1.v.lengthSquare ∈ F) →
      (∀ st wdh st1 wd1,
        LoopHead (testCollisionIteration e) (loopCondition e)
          (initialState e wd.cachedSeparatingAxis) wd.getCachedSeparatingAxis.2 st wdh →
        testCollisionIteration e st wdh = Step.next st1 wd1 → ¬ loopCondition e st1 →
        ∀ st2 wd2 st3 wd3,
          LoopHead (enlargedIteration e) (loopCondition e) (initialState e st1.v) wd1 st2 wd2 →
          enlargedIteration e st2 wd2 = Step.next st3 wd3 → st3.v.lengthSquare ∈ F) →
      ∃ r, ∀ extra, testCollision e (F.card + 1 + extra) wd = some r := by
    intro wd h1 h2
    have hsome : ∃ r, testCollision e (F.card + 1) wd = some r := by
      obtain ⟨r, hr⟩ := loop1 wd.cachedSeparatingAxis wd.getCachedSeparatingAxis.2 h1
      unfold testCollision
      by_cases hm : 0 < margin e
      · rw [if_neg (not_not.mpr hm)]
        change ∃ r1, (match testCollisionLoop e (F.card + 1)
          (initialState e wd.cachedSeparatingAxis) wd.getCachedSeparatingAxis.2 with
          | none => none
          | some (Step.assertFailed wd1) => some (Result.assertFailed wd1)
          | some (Step.returned b wd1) => some (Result.returned b wd1)
          | some (Step.next st wd1) =>
            computePenetrationDepthForEnlargedObjects e (F.card + 1) st.v wd1) = some r1
        rw [hr]
        cases r with
        | assertFailed wd1 => exact ⟨_, rfl⟩
        | returned b wd1 => exact ⟨_, rfl⟩
        | next st1 wd1 =>
          obtain ⟨st, wdh, hl, hb, hn⟩ := doWhile_some _ _ _ _ _ _ hr
          obtain ⟨r1, hr1⟩ := (loop2 st1.v wd1
            (h2 st wdh st1 wd1 hl hb (hn st1 wd1 rfl))).2
          exact ⟨r1, by simpa using hr1 0⟩
      · rw [if_pos hm]
        exact ⟨_, rfl⟩
    obtain ⟨r, hr⟩ := hsome
    exact ⟨r, fun extra => testCollision_mono e _ extra wd r hr⟩
  refine ⟨loop1, loop2, call, ?_⟩
  intro hF wd
  refine call wd ?_ ?_
  · intro st wdh st1 wd1 _ hb
    obtain ⟨_, rfl, _⟩ := testCollisionIteration_next e _ _ _ _ hb
    exact hF _ _
  · intro st wdh st1 wd1 _ _ _ st2 wd2 st3 wd3 _ hb
    obtain ⟨_, rfl, _⟩ := enlargedIteration_next e _ _ _ _ hb
    exact hF _ _

/-- The states at the top of the body of the loop of `testCollision` on the cubes at distance
`1/2`, seeded with the axis `(-1, 0, 0)`: the initial state and the state after the first pass. -/
theorem cubes_half_loopHead (wd0 wd : World ℚ (List (SupportPoint ℚ)))
    (st : GJKState ℚ (List (SupportPoint ℚ)))
    (h : LoopHead (testCollisionIteration (cubesEnv (1 / 2))) (loopCondition (cubesEnv (1 / 2)))
      (initialState (cubesEnv (1 / 2)) ⟨-1, 0, 0⟩) wd0 st wd) :
    st = initialState (cubesEnv (1 / 2)) ⟨-1, 0, 0⟩ ∨ st = secondPassState (1 / 2) := by
  induction h with
  | first => exact Or.inl rfl
  | again _ hb hc ih =>
    obtain ⟨_, hst, _⟩ := testCollisionIteration_next _ _ _ _ _ hb
    rcases ih with rfl | rfl
    · right
      rw [hst]
      decide!
    · exfalso
      rw [hst] at hc
      exact absurd hc (by decide!)

/-- The states at the top of the body of the loop of
`computePenetrationDepthForEnlargedObjects` on the cubes at distance `1/2`, seeded with `v = 0`:
the initial state and the state after the first pass. -/
theorem cubes_half_enlarged_loopHead (wd0 wd : World ℚ (List (SupportPoint ℚ)))
    (st : GJKState ℚ (List (SupportPoint ℚ)))
    (h : LoopHead (enlargedIteration (cubesEnv (1 / 2))) (loopCondition (cubesEnv (1 / 2)))
      (initialState (cubesEnv (1 / 2)) ⟨0, 0, 0⟩) wd0 st wd) :
    st = initialState (cubesEnv (1 / 2)) ⟨0, 0, 0⟩ ∨
      st = ⟨⟨-1 / 2, 0, 0⟩, 1 / 4,
        [⟨⟨-1 / 2, 0, 0⟩, ⟨27 / 50, 27 / 50, 27 / 50⟩, ⟨26 / 25, 27 / 50, 27 / 50⟩⟩]⟩ := by
  induction h with
  | first => exact Or.inl rfl
  | again _ hb hc ih =>
    obtain ⟨_, hst, _⟩ := enlargedIteration_next _ _ _ _ _ hb
    rcases ih with rfl | rfl
    · right
      rw [hst]
      decide!
    · exfalso
      rw [hst] at hc
      exact absurd hc (by decide!)

/-- C8 on the cubes at distance `1/2`: the closest points of the two loops have the squared
lengths `1/4` and `0`, and `testCollision` ends within 3 passes of each loop. -/
theorem testCollision_terminates_witness :
    ∃ r, ∀ extra, testCollision (cubesEnv (1 / 2))
      (({1 / 4, 0} : Finset ℚ).card + 1 + extra) world0 = some r := by
  refine (testCollision_terminates (cubesEnv (1 / 2)) {1 / 4, 0} (by decide!)
    (by decide!)).2.2.1 world0 ?_ ?_
  · intro st wdh st1 wd1 hl hb
    obtain ⟨_, hst, _⟩ := testCollisionIteration_next _ _ _ _ _ hb
    rcases cubes_half_loopHead _ _ _ hl with rfl | rfl
    · have h : st1.v.lengthSquare = 1 / 4 := by rw [hst]; decide!
      rw [h]; simp
    · have h : st1.v.lengthSquare = 0 := by rw [hst]; decide!
      rw [h]; simp
  · intro st wdh st1 wd1 hl hb hn st2 wd2 st3 wd3 hl2 hb2
    obtain ⟨_, hst, _⟩ := testCollisionIteration_next _ _ _ _ _ hb
    obtain ⟨_, hst3, _⟩ := enlargedIteration_next _ _ _ _ _ hb2
    rcases cubes_half_loopHead _ _ _ hl with rfl | rfl
    · exfalso
      rw [hst] at hn
      exact hn (by decide!)
    · have hv : st1.v = ⟨0, 0, 0⟩ := by rw [hst]; decide!
      rw [hv] at hl2
      rcases cubes_half_enlarged_loopHead _ _ _ hl2 with rfl | rfl
      · have h : st3.v.lengthSquare = 1 / 4 := by rw [hst3]; decide!
        rw [h]; simp
      · have h : st3.v.lengthSquare = 0 := by rw [hst3]; decide!
        rw [h]; simp

end Claims

end ReactPhysics3D
